import Mathlib

/-!
# dj_opengl.h : mesh generation, stream buffers, program and texture loading

A shallow embedding of the toolkit in `src/opengl_sphere_lighting/dj_opengl.h`.

Conventions of the embedding
* C `int` / `int32_t` values are `Int`s, every arithmetic operation is wrapped to
  32 bits by `wrap32`; a `uint16_t` store keeps the value modulo `2^16`.
* `float` values are elements of an ordered field `α` (the claims about them are
  stated over the reals); `sin`, `cos`, `sqrtf` and `M_PI` come from a `libm` record.
* A heap block is a `List (Option β)`: `none` is a cell that `malloc` returned and
  nobody wrote yet. `malloc` itself is assumed to succeed.
* A call either returns (`Except.ok`) or stops in a `Fault`: a failed `DJG_ASSERT`
  (the default `assert`), or an access the C standard leaves undefined.
* A pointer result that may be `NULL` is an `Option`.
-/

namespace DjOpenGL

/-! ## Machine model -/

/-- Reasons for which a call does not return; `out_of_fuel` stands for a `while` loop that
has not ended within the number of iterations granted to it. -/
inductive Fault where
  | assertion
  | null_deref
  | out_of_bounds
  | uninitialised
  | out_of_fuel
deriving DecidableEq

/-- Result of running a piece of C code. -/
abbrev Exec (β : Type) : Type := Except Fault β

/-- Two's complement wrap-around of a mathematical integer to 32 bits. -/
@[irreducible] def wrap32 (n : Int) : Int := (n + 2147483648) % 4294967296 - 2147483648

/-- The C expression `a + b` on `int`. -/
def add32 (a b : Int) : Int := wrap32 (a + b)

/-- The C expression `a - b` on `int`. -/
def sub32 (a b : Int) : Int := wrap32 (a - b)

/-- The C expression `a * b` on `int`. -/
def mul32 (a b : Int) : Int := wrap32 (a * b)

/-- Conversion of an `int` to `uint16_t`. -/
@[irreducible] def to_u16 (n : Int) : Nat := (n % 65536).toNat

/-- The macro `DJG_ASSERT(x)`, by default `assert(x)`. -/
def DJG_ASSERT (c : Bool) : Exec Unit :=
  if c then .ok () else .error Fault.assertion

/-- The block returned by `malloc` for `n` elements: `n` unwritten cells. -/
def malloc {β : Type} (n : Int) : List (Option β) := List.replicate n.toNat none

/-- The C assignment `a[idx] = v`. -/
def store {β : Type} (a : List (Option β)) (idx : Int) (v : β) : Exec (List (Option β)) :=
  if 0 ≤ idx ∧ idx.toNat < a.length then .ok (a.set idx.toNat (some v))
  else .error Fault.out_of_bounds

/-- The C read `a[idx]`. -/
def load {β : Type} (a : List (Option β)) (idx : Int) : Exec β :=
  if 0 ≤ idx then
    match a[idx.toNat]? with
    | some (some v) => .ok v
    | some none => .error Fault.uninitialised
    | none => .error Fault.out_of_bounds
  else .error Fault.out_of_bounds

/-- The C loop `for (i = 0; i < n; ++i) body`. -/
def for_loop {σ : Type} (n : Int) (body : Int → σ → Exec σ) (s : σ) : Exec σ :=
  (List.range n.toNat).foldlM (fun s i => body (Int.ofNat i) s) s

/-- The functions of `math.h` used by the toolkit, and the constant `M_PI`. -/
structure libm (α : Type) where
  sin : α → α
  cos : α → α
  sqrtf : α → α
  M_PI : α

/-! ## Mesh API -/

/-- The anonymous struct `{float x, y, z, w;}`. -/
structure vec4 (α : Type) where
  x : α
  y : α
  z : α
  w : α

/-- The anonymous struct `{float s, t, p, q;}`. -/
structure tex4 (α : Type) where
  s : α
  t : α
  p : α
  q : α

/-- The struct `djgm_vertex`. -/
structure djgm_vertex (α : Type) where
  p : vec4 α
  st : tex4 α
  dpds : vec4 α
  dpdt : vec4 α

/-- The struct `djg_mesh`; a `NULL` array is the empty block. -/
structure djg_mesh (α : Type) where
  vertexv : List (Option (djgm_vertex α))
  poly3v : List (Option Nat)
  poly4v : List (Option Nat)
  vertexc : Int
  poly3c : Int
  poly4c : Int

/-- The function `djgm__create`. -/
def djgm__create {α : Type} : djg_mesh α :=
  { vertexv := [], poly3v := [], poly4v := [], vertexc := 0, poly3c := 0, poly4c := 0 }

/-- The vertex written by one iteration of the loop of `djgm__load_plane_vertices`;
`slices` and `stacks_` are the padded counts. -/
def plane_vertex {α : Type} [LinearOrderedField α]
    (width height : α) (slices stacks_ x z : Int) : djgm_vertex α :=
  let s : α := (x : α) / ((sub32 slices 1 : Int) : α)
  let t : α := (z : α) / ((sub32 stacks_ 1 : Int) : α)
  { st := { s := s, t := t, p := 0, q := 0 },
    p := { x := (s - 1 / 2) * width, y := (t - 1 / 2) * height, z := 0, w := 1 },
    dpds := { x := 1, y := 0, z := 0, w := 0 },
    dpdt := { x := 0, y := 1, z := 0, w := 0 } }

/-- The function `djgm__load_plane_vertices`. -/
def djgm__load_plane_vertices {α : Type} [LinearOrderedField α] (mesh : djg_mesh α)
    (width height : α) (slices stacks_ : Int) : Exec (Bool × djg_mesh α) :=
  let slices := add32 slices 2
  let stacks_ := add32 stacks_ 2
  let vc := mul32 slices stacks_
  if vc > 65535 then .ok (false, mesh)
  else do
    let vv : List (Option (djgm_vertex α)) := malloc vc
    let vv ← for_loop slices (fun x vv =>
      for_loop stacks_ (fun z vv =>
        store vv (add32 (mul32 x stacks_) z) (plane_vertex width height slices stacks_ x z)) vv) vv
    .ok (true, { mesh with vertexv := vv, vertexc := vc })

/-- The two triangles written for cell `(i, j)`; `stacks_` is the cell count. -/
def cell_triangles (stacks_ i j : Int) : List Nat :=
  [ to_u16 (add32 j (mul32 (add32 stacks_ 1) i)),
    to_u16 (add32 j (mul32 (add32 stacks_ 1) (add32 i 1))),
    to_u16 (add32 (add32 j 1) (mul32 (add32 stacks_ 1) i)),
    to_u16 (add32 (add32 j 1) (mul32 (add32 stacks_ 1) i)),
    to_u16 (add32 j (mul32 (add32 stacks_ 1) (add32 i 1))),
    to_u16 (add32 (add32 j 1) (mul32 (add32 stacks_ 1) (add32 i 1))) ]

/-- The quad written for cell `(i, j)`; `stacks_` is the cell count. -/
def cell_quad (stacks_ i j : Int) : List Nat :=
  [ to_u16 (add32 j (mul32 (add32 stacks_ 1) i)),
    to_u16 (add32 j (mul32 (add32 stacks_ 1) (add32 i 1))),
    to_u16 (add32 (add32 j 1) (mul32 (add32 stacks_ 1) (add32 i 1))),
    to_u16 (add32 (add32 j 1) (mul32 (add32 stacks_ 1) i)) ]

/-- The C statements `p[0] = v0; p[1] = v1; ...` for a pointer `p = &a[base]`. -/
def store_block {β : Type} (a : List (Option β)) (base : Int) :
    List β → Nat → Exec (List (Option β))
  | [], _ => .ok a
  | v :: vs, k =>
    match store a (base + (k : Int)) v with
    | .ok a1 => store_block a1 base vs (k + 1)
    | .error e => .error e

/-- The function `djgm__load_plane_polygons`. -/
def djgm__load_plane_polygons {α : Type} (mesh : djg_mesh α) (slices stacks_ : Int) :
    Exec (Bool × djg_mesh α) :=
  let slices := add32 slices 1
  let stacks_ := add32 stacks_ 1
  let p3c := mul32 (mul32 (mul32 slices stacks_) 2) 3
  let p4c := mul32 (mul32 slices stacks_) 4
  do
    let p3v : List (Option Nat) := malloc p3c
    let p4v : List (Option Nat) := malloc p4c
    let p3v ← for_loop stacks_ (fun j a =>
      for_loop slices (fun i a =>
        store_block a (mul32 (mul32 2 3) (add32 (mul32 j slices) i))
          (cell_triangles stacks_ i j) 0) a) p3v
    let p4v ← for_loop stacks_ (fun j a =>
      for_loop slices (fun i a =>
        store_block a (mul32 4 (add32 (mul32 j slices) i)) (cell_quad stacks_ i j) 0) a) p4v
    .ok (true, { mesh with poly3c := p3c, poly4c := p4c, poly3v := p3v, poly4v := p4v })

/-- The function `djgm_load_plane`; `none` is the `NULL` result. -/
def djgm_load_plane {α : Type} [LinearOrderedField α]
    (width height : α) (slices stacks_ : Int) : Exec (Option (djg_mesh α)) := do
  let mesh : djg_mesh α := djgm__create
  DJG_ASSERT (decide (slices ≥ 0 ∧ stacks_ ≥ 0))
  DJG_ASSERT (decide (width > 0 ∧ height > 0))
  match (← djgm__load_plane_vertices mesh width height slices stacks_) with
  | (false, _) => .ok none
  | (true, mesh) =>
    match (← djgm__load_plane_polygons mesh slices stacks_) with
    | (false, _) => .ok none
    | (true, mesh) => .ok (some mesh)

/-- The access `v = &mesh->vertexv[idx]` of the specialised generators, followed by the
assignments to the fields of `*v` that `f` changes. A `NULL` mesh faults at
`mesh->vertexv`. -/
def update_vertex {α : Type} (f : djgm_vertex α → djgm_vertex α) (idx : Int)
    (mesh : Option (djg_mesh α)) : Exec (Option (djg_mesh α)) :=
  match mesh with
  | none => .error Fault.null_deref
  | some m =>
    match load m.vertexv idx with
    | .error e => .error e
    | .ok v =>
      match store m.vertexv idx (f v) with
      | .error e => .error e
      | .ok vv => .ok (some { m with vertexv := vv })

/-- The loop shared by the specialised generators:
`for (i < slices) for (j < stacks) { v = &mesh->vertexv[i * stacks + j]; ... }`. -/
def update_vertices {α : Type} (mesh : Option (djg_mesh α)) (slices stacks_ : Int)
    (f : djgm_vertex α → djgm_vertex α) : Exec (Option (djg_mesh α)) :=
  for_loop slices (fun i mesh =>
    for_loop stacks_ (fun j mesh => update_vertex f (add32 (mul32 i stacks_) j) mesh) mesh) mesh

/-- The body of the loop of `djgm_load_disk` (concentric map). -/
def disk_vertex {α : Type} [LinearOrderedField α] (L : libm α) (radius : α)
    (v : djgm_vertex α) : djgm_vertex α :=
  let r1 : α := 2 * v.st.s - 1
  let r2 : α := 2 * v.st.t - 1
  let r : α := if r1 = 0 ∧ r2 = 0 then 0 else if r1 * r1 > r2 * r2 then r1 else r2
  let phi : α :=
    if r1 = 0 ∧ r2 = 0 then 0
    else if r1 * r1 > r2 * r2 then (L.M_PI / 4) * (r2 / r1)
    else (L.M_PI / 2) - (r1 / r2) * (L.M_PI / 4)
  { v with
    p := { v.p with x := radius * r * L.cos phi, y := radius * r * L.sin phi, z := 0 },
    dpds := { v.dpds with x := L.cos phi, y := L.sin phi, z := 0 },
    dpdt := { v.dpdt with x := -r * L.sin phi, y := r * L.cos phi, z := 0 } }

/-- The function `djgm_load_disk`. -/
def djgm_load_disk {α : Type} [LinearOrderedField α] (L : libm α)
    (radius : α) (slices stacks_ : Int) : Exec (Option (djg_mesh α)) := do
  let mesh ← djgm_load_plane (2 : α) 2 slices stacks_
  DJG_ASSERT (decide (radius > 0))
  let slices := add32 slices 2
  let stacks_ := add32 stacks_ 2
  update_vertices mesh slices stacks_ (disk_vertex L radius)

/-- The body of the loop of `djgm_load_sphere`. -/
def sphere_vertex {α : Type} [LinearOrderedField α] (L : libm α) (radius : α)
    (v : djgm_vertex α) : djgm_vertex α :=
  let theta : α := v.st.s * L.M_PI
  let phi : α := v.st.t * 2 * L.M_PI
  let tmp : α := v.st.s
  { v with
    st := { s := v.st.t, t := tmp, p := 0, q := 0 },
    p := { v.p with
      x := radius * L.sin theta * L.cos phi,
      y := radius * L.sin theta * L.sin phi,
      z := radius * L.cos theta },
    dpds := { v.dpds with
      x := L.cos theta * L.cos phi, y := L.cos theta * L.sin phi, z := -L.sin theta },
    dpdt := { v.dpdt with x := -L.sin phi, y := L.cos phi, z := 0 } }

/-- The function `djgm_load_sphere`. -/
def djgm_load_sphere {α : Type} [LinearOrderedField α] (L : libm α)
    (radius : α) (slices stacks_ : Int) : Exec (Option (djg_mesh α)) := do
  let mesh ← djgm_load_plane (1 : α) 1 slices stacks_
  DJG_ASSERT (decide (radius > 0))
  let slices := add32 slices 2
  let stacks_ := add32 stacks_ 2
  update_vertices mesh slices stacks_ (sphere_vertex L radius)

/-- The value `nrm` computed by `djgm_export_obj_triangles` for a vertex: the length of
the cross product `n` of its two tangents. -/
def normal_length {α : Type} [LinearOrderedField α] (L : libm α) (v : djgm_vertex α) : α :=
  L.sqrtf
    ((v.dpds.y * v.dpdt.z - v.dpds.z * v.dpdt.y) * (v.dpds.y * v.dpdt.z - v.dpds.z * v.dpdt.y) +
      (v.dpds.z * v.dpdt.x - v.dpds.x * v.dpdt.z) * (v.dpds.z * v.dpdt.x - v.dpds.x * v.dpdt.z) +
      (v.dpds.x * v.dpdt.y - v.dpds.y * v.dpdt.x) * (v.dpds.x * v.dpdt.y - v.dpds.y * v.dpdt.x))

/-- The three lines `v`, `vn`, `vt` printed for one vertex by `djgm_export_obj_triangles`;
`fmt` prints a `%f`. -/
def vertex_lines {α : Type} [LinearOrderedField α] (L : libm α) (fmt : α → String)
    (v : djgm_vertex α) : List String :=
  let n0 : α := v.dpds.y * v.dpdt.z - v.dpds.z * v.dpdt.y
  let n1 : α := v.dpds.z * v.dpdt.x - v.dpds.x * v.dpdt.z
  let n2 : α := v.dpds.x * v.dpdt.y - v.dpds.y * v.dpdt.x
  let nrm : α := normal_length L v
  [ "v " ++ (fmt v.p.x ++ " " ++ fmt v.p.y ++ " " ++ fmt v.p.z),
    "vn " ++ (fmt (n0 / nrm) ++ " " ++ fmt (n1 / nrm) ++ " " ++ fmt (n2 / nrm)),
    "vt " ++ (fmt v.st.s ++ " " ++ fmt v.st.t) ]

/-- One iteration of the vertex loop of `djgm_export_obj_triangles`: the assertion
`DJG_ASSERT(nrm > 0.0f && "Invalid normal")`, then the three lines. -/
def export_vertex {α : Type} [LinearOrderedField α] (L : libm α) (fmt : α → String)
    (v : djgm_vertex α) : Exec (List String) :=
  match DJG_ASSERT (decide (normal_length L v > 0)) with
  | .error e => .error e
  | .ok _ => .ok (vertex_lines L fmt v)

/-- The text `%i/%i/%i` printed for the index `a` of a face corner (1-based). -/
def export_corner (a : Nat) : String :=
  toString (add32 (a : Int) 1) ++ "/" ++ toString (add32 (a : Int) 1) ++ "/" ++
    toString (add32 (a : Int) 1)

/-- The line `f ...` printed for triangle `i` by `djgm_export_obj_triangles`. -/
def export_face (poly3v : List (Option Nat)) (i : Int) : Exec String := do
  let a ← load poly3v (mul32 3 i)
  let b ← load poly3v (add32 (mul32 3 i) 1)
  let c ← load poly3v (add32 (mul32 3 i) 2)
  .ok ("f " ++ (export_corner a ++ " " ++ export_corner b ++ " " ++ export_corner c))

/-- One iteration of the vertex loop of `djgm_export_obj_triangles` on the file `pf`. -/
def export_vertex_at {α : Type} [LinearOrderedField α] (L : libm α) (fmt : α → String)
    (vertexv : List (Option (djgm_vertex α))) (i : Int) (pf : List String) :
    Exec (List String) := do
  let v ← load vertexv i
  let ls ← export_vertex L fmt v
  .ok (pf ++ ls)

/-- One iteration of the topology loop of `djgm_export_obj_triangles` on the file `pf`. -/
def export_face_at (poly3v : List (Option Nat)) (i : Int) (pf : List String) :
    Exec (List String) := do
  let l ← export_face poly3v i
  .ok (pf ++ [l])

/-- The statements of `djgm_export_obj_triangles` after a successful `fopen`. -/
def export_lines {α : Type} [LinearOrderedField α] (L : libm α) (fmt : α → String)
    (mesh : djg_mesh α) : Exec (Bool × List String) := do
  let pf ← for_loop mesh.vertexc (export_vertex_at L fmt mesh.vertexv)
    ["# Created by the DJGM library (see dj_opengl.h)", "", "# Vertices"]
  let pf ← for_loop (Int.tdiv mesh.poly3c 3) (export_face_at mesh.poly3v) (pf ++ ["# Topology"])
  .ok (true, pf)

/-- The function `djgm_export_obj_triangles`. The file is the list of its lines, in the
order written; `fopen_ok` tells whether `fopen` returned a stream. -/
def djgm_export_obj_triangles {α : Type} [LinearOrderedField α] (L : libm α)
    (fmt : α → String) (fopen_ok : Bool) (mesh : Option (djg_mesh α)) :
    Exec (Bool × List String) :=
  match mesh with
  | none => .error Fault.assertion
  | some mesh => if fopen_ok = false then .ok (false, []) else export_lines L fmt mesh

/-- Number of lines of a file that begin with the text `pre`. -/
def count_lines (pre : String) (file : List String) : Nat :=
  file.countP (fun l => pre.data.isPrefixOf l.data)

/-- The body of the loop of `djgm_load_cylinder`. -/
def cylinder_vertex {α : Type} [LinearOrderedField α] (L : libm α) (radius height : α)
    (v : djgm_vertex α) : djgm_vertex α :=
  let z : α := (v.st.t - 1 / 2) * height
  let phi : α := v.st.s * 2 * L.M_PI
  { v with
    p := { v.p with x := radius * L.cos phi, y := z, z := -radius * L.sin phi },
    dpds := { v.dpds with x := -L.sin phi, y := 0, z := -L.cos phi },
    dpdt := { v.dpdt with x := 0, y := 1, z := 0 } }

/-- The function `djgm_load_cylinder`. -/
def djgm_load_cylinder {α : Type} [LinearOrderedField α] (L : libm α)
    (radius height : α) (slices stacks_ : Int) : Exec (Option (djg_mesh α)) := do
  let mesh ← djgm_load_plane (1 : α) 1 slices stacks_
  DJG_ASSERT (decide (radius > 0 ∧ height > 0))
  let slices := add32 slices 2
  let stacks_ := add32 stacks_ 2
  update_vertices mesh slices stacks_ (cylinder_vertex L radius height)

/-- The body of the loop of `djgm_load_torus`. -/
def torus_vertex {α : Type} [LinearOrderedField α] (L : libm α) (ring_radius pipe_radius : α)
    (v : djgm_vertex α) : djgm_vertex α :=
  let theta : α := (1 - v.st.s) * 2 * L.M_PI
  let phi : α := (1 - v.st.t) * 2 * L.M_PI
  let tx : α := -L.sin theta * (pipe_radius * L.cos phi + ring_radius)
  let ty : α := L.cos theta * (pipe_radius * L.cos phi + ring_radius)
  let tn : α := 1 / L.sqrtf (tx * tx + ty * ty)
  { v with
    p := { v.p with
      x := L.cos theta * (pipe_radius * L.cos phi + ring_radius),
      y := L.sin theta * (pipe_radius * L.cos phi + ring_radius),
      z := pipe_radius * L.sin phi },
    dpds := { v.dpds with x := tx * tn, y := ty * tn, z := 0 },
    dpdt := { v.dpdt with
      x := -L.cos theta * L.sin phi, y := -L.sin theta * L.sin phi, z := L.cos phi } }

/-- The function `djgm_load_torus`. -/
def djgm_load_torus {α : Type} [LinearOrderedField α] (L : libm α)
    (ring_radius : α) (ring_segments : Int) (pipe_radius : α) (pipe_segments : Int) :
    Exec (Option (djg_mesh α)) := do
  let mesh ← djgm_load_plane (1 : α) 1 ring_segments pipe_segments
  DJG_ASSERT (decide (ring_radius > 0 ∧ pipe_radius > 0))
  let ring_segments := add32 ring_segments 2
  let pipe_segments := add32 pipe_segments 2
  update_vertices mesh ring_segments pipe_segments (torus_vertex L ring_radius pipe_radius)

/-! ## OpenGL driver -/

/-- The shader types passed to `glCreateShader`. -/
inductive shader_type where
  | GL_VERTEX_SHADER
  | GL_FRAGMENT_SHADER
  | GL_GEOMETRY_SHADER
  | GL_TESS_CONTROL_SHADER
  | GL_TESS_EVALUATION_SHADER
  | GL_COMPUTE_SHADER
deriving DecidableEq

/-- The OpenGL calls that change driver objects, as recorded in a call trace. -/
inductive gl_call where
  | glCreateProgram (name : Nat)
  | glDeleteProgram (name : Nat)
  | glLinkProgram (name : Nat)
  | glCreateShader (t : shader_type) (name : Nat)
  | glShaderSource (shader : Nat) (source : List String)
  | glCompileShader (shader : Nat)
  | glAttachShader (program shader : Nat)
  | glDeleteShader (shader : Nat)
  | glGenBuffers (name : Nat)
  | glBindBuffer (name : Nat)
  | glBufferData (size : Int)
  | glMapBufferRange (offset length : Int)
  | glUnmapBuffer
deriving DecidableEq

/-- Answers of the OpenGL driver to the program API. -/
structure gl_driver where
  glCreateProgram : Nat
  glIsProgram : Nat → Bool
  glCreateShader : shader_type → Nat
  compile_status : shader_type → List String → Bool
  link_status : Nat → Bool

/-- Which optional shader type enumerants the OpenGL headers define (`#if defined(...)`). -/
structure gl_headers where
  GL_GEOMETRY_SHADER : Bool
  GL_TESS_CONTROL_SHADER : Bool
  GL_TESS_EVALUATION_SHADER : Bool
  GL_COMPUTE_SHADER : Bool

/-! ## Stream buffer API -/

/-- The struct `djg_buffer`. -/
structure djg_buffer where
  gl : Nat
  capacity : Int
  size : Int
  offset : Int
deriving DecidableEq

/-- The function `djgb_create`; `name` is the buffer name given by `glGenBuffers`. -/
def djgb_create (data_size : Int) (name : Nat) : Exec djg_buffer :=
  let buf_capacity : Int := 1048576
  match DJG_ASSERT (decide (data_size > 0) && decide (buf_capacity > mul32 8 data_size)) with
  | .error e => .error e
  | .ok _ =>
    .ok { gl := name, capacity := buf_capacity, size := data_size, offset := buf_capacity }

/-- What one call of `djgb_gl_upload` leaves behind. -/
structure upload_result where
  ret : Bool
  offset : Option Int
  buffer : djg_buffer
  orphaned : Bool
  calls : List gl_call
deriving DecidableEq

/-- The function `djgb_gl_upload`, called with a non-null `offset` pointer; `mapped` tells
whether `glMapBufferRange` returned a pointer. -/
def djgb_gl_upload (buffer : djg_buffer) (mapped : Bool) : upload_result :=
  let orphaned : Bool := decide (add32 buffer.offset buffer.size > buffer.capacity)
  let calls0 : List gl_call :=
    if orphaned then
      [gl_call.glBindBuffer buffer.gl, gl_call.glBufferData buffer.capacity, gl_call.glBindBuffer 0]
    else []
  let buffer : djg_buffer := if orphaned then { buffer with offset := 0 } else buffer
  let calls1 : List gl_call :=
    calls0 ++ [gl_call.glBindBuffer buffer.gl, gl_call.glMapBufferRange buffer.offset buffer.size]
  if mapped = false then
    { ret := false, offset := none, buffer := buffer, orphaned := orphaned, calls := calls1 }
  else
    { ret := true, offset := some buffer.offset,
      buffer := { buffer with offset := add32 buffer.offset buffer.size },
      orphaned := orphaned, calls := calls1 ++ [gl_call.glUnmapBuffer] }

/-- A sequence of calls of `djgb_gl_upload` on one buffer; `mapped` lists, call by call,
whether the mapping succeeds. The results are listed in call order. -/
def djgb_uploads : djg_buffer → List Bool → List upload_result
  | _, [] => []
  | b, m :: ms => djgb_gl_upload b m :: djgb_uploads (djgb_gl_upload b m).buffer ms

/-! ## Program API -/

/-- The enumerant `DJGP__STAGE_VERTEX_BIT`. -/
def DJGP__STAGE_VERTEX_BIT : Nat := 1
/-- The enumerant `DJGP__STAGE_FRAGMENT_BIT`. -/
def DJGP__STAGE_FRAGMENT_BIT : Nat := 2
/-- The enumerant `DJGP__STAGE_GEOMETRY_BIT`. -/
def DJGP__STAGE_GEOMETRY_BIT : Nat := 4
/-- The enumerant `DJGP__STAGE_TESS_CONTROL_BIT`. -/
def DJGP__STAGE_TESS_CONTROL_BIT : Nat := 8
/-- The enumerant `DJGP__STAGE_TESS_EVALUATION_BIT`. -/
def DJGP__STAGE_TESS_EVALUATION_BIT : Nat := 16
/-- The enumerant `DJGP__STAGE_COMPUTE_BIT`. -/
def DJGP__STAGE_COMPUTE_BIT : Nat := 32

/-- The struct `djg_program`, a linked list with an empty head: the sources held by the
nodes after the head, in list order. -/
abbrev djg_program : Type := List String

/-- The function `djgp_create`. -/
def djgp_create : djg_program := []

/-- The function `djgp__push_src`. -/
def djgp__push_src (program : djg_program) (src : String) : Bool × djg_program :=
  (true, program ++ [src])

/-- The function `djgp__count`. -/
def djgp__count : djg_program → Int
  | [] => 0
  | _ :: it => add32 (djgp__count it) 1

/-- The test `strstr(hay, needle) != NULL`: `needle` occurs in `hay` as a substring. -/
def strstr (hay needle : String) : Bool := decide (needle.data <:+: hay.data)

/-- The loop `it = program->next; i = 1; while (it) { srcv[i] = it->src; ... ++i; }`
of `djgp_gl_upload`. -/
def set_source_pointers (srcv : List (Option String)) : djg_program → Int →
    Exec (List (Option String))
  | [], _ => .ok srcv
  | src :: it, i =>
    match store srcv i src with
    | .error e => .error e
    | .ok srcv1 => set_source_pointers srcv1 it (add32 i 1)

/-- The block `look for stages in the last source file` of `djgp_gl_upload`. -/
def look_for_stages (last : String) : Nat :=
  let stages : Nat := 0
  let stages := if strstr last "VERTEX_SHADER" then stages ||| DJGP__STAGE_VERTEX_BIT else stages
  let stages :=
    if strstr last "FRAGMENT_SHADER" then stages ||| DJGP__STAGE_FRAGMENT_BIT else stages
  let stages :=
    if strstr last "GEOMETRY_SHADER" then stages ||| DJGP__STAGE_GEOMETRY_BIT else stages
  let stages :=
    if strstr last "TESS_CONTROL_SHADER" then stages ||| DJGP__STAGE_TESS_CONTROL_BIT else stages
  let stages :=
    if strstr last "TESS_EVALUATION_SHADER" then stages ||| DJGP__STAGE_TESS_EVALUATION_BIT
    else stages
  let stages := if strstr last "COMPUTE_SHADER" then stages ||| DJGP__STAGE_COMPUTE_BIT else stages
  stages

/-- The strings `source[0] .. source[count - 1]` read by `glShaderSource`. -/
def read_sources (source : List (Option String)) (count : Int) : Exec (List String) :=
  for_loop count (fun i acc =>
    match load source i with
    | .error e => .error e
    | .ok src => .ok (acc ++ [src])) []

/-- The function `djgp__attach_shader`, with the calls it makes. -/
def djgp__attach_shader (D : gl_driver) (program : Nat) (shader_t : shader_type) (count : Int)
    (source : List (Option String)) : Exec (Bool × List gl_call) :=
  let shader : Nat := D.glCreateShader shader_t
  match read_sources source count with
  | .error e => .error e
  | .ok srcs =>
    let calls : List gl_call :=
      [gl_call.glCreateShader shader_t shader, gl_call.glShaderSource shader srcs,
       gl_call.glCompileShader shader]
    if D.compile_status shader_t srcs = false then
      .ok (false, calls ++ [gl_call.glDeleteShader shader])
    else
      .ok (true, calls ++ [gl_call.glAttachShader program shader, gl_call.glDeleteShader shader])

/-- State of `djgp_gl_upload` between two expansions of `DJGP__ATTACH_SHADER`: whether an
expansion executed its `return false`, the array `srcv`, and the calls made so far. -/
structure attach_state where
  returned : Bool
  srcv : List (Option String)
  calls : List gl_call

/-- The text written to `head` by the macro `DJGP__ATTACH_SHADER`. -/
def shader_head (version : Int) (compatible : Bool) (str : String) : String :=
  "#version " ++ toString version ++ " " ++ (if compatible then "compatibility" else "") ++ "\n"
    ++ "#define " ++ str ++ " 1\n"

/-- One expansion of the macro `DJGP__ATTACH_SHADER(glstage, str, bit)`. -/
def DJGP__ATTACH_SHADER (D : gl_driver) (glprogram stages : Nat) (version : Int)
    (compatible : Bool) (srcc : Int) (glstage : shader_type) (str : String) (bit : Nat)
    (st : attach_state) : Exec attach_state :=
  if st.returned then .ok st
  else if stages &&& bit = 0 then .ok st
  else
    match store st.srcv 0 (shader_head version compatible str) with
    | .error e => .error e
    | .ok srcv =>
      match djgp__attach_shader D glprogram glstage srcc srcv with
      | .error e => .error e
      | .ok (true, calls) => .ok { returned := false, srcv := srcv, calls := st.calls ++ calls }
      | .ok (false, calls) =>
        .ok { returned := true, srcv := srcv,
              calls := st.calls ++ calls ++ [gl_call.glDeleteProgram glprogram] }

/-- The six expansions of `DJGP__ATTACH_SHADER` in `djgp_gl_upload`, the last four under
`#if defined(...)`. -/
def attach_shaders (H : gl_headers) (D : gl_driver) (glprogram stages : Nat) (version : Int)
    (compatible : Bool) (srcc : Int) (st : attach_state) : Exec attach_state :=
  DJGP__ATTACH_SHADER D glprogram stages version compatible srcc
    shader_type.GL_VERTEX_SHADER "VERTEX_SHADER" DJGP__STAGE_VERTEX_BIT st >>= fun st =>
  DJGP__ATTACH_SHADER D glprogram stages version compatible srcc
    shader_type.GL_FRAGMENT_SHADER "FRAGMENT_SHADER" DJGP__STAGE_FRAGMENT_BIT st >>= fun st =>
  (if H.GL_GEOMETRY_SHADER = true then
    DJGP__ATTACH_SHADER D glprogram stages version compatible srcc
      shader_type.GL_GEOMETRY_SHADER "GEOMETRY_SHADER" DJGP__STAGE_GEOMETRY_BIT st
   else .ok st) >>= fun st =>
  (if H.GL_TESS_CONTROL_SHADER = true then
    DJGP__ATTACH_SHADER D glprogram stages version compatible srcc
      shader_type.GL_TESS_CONTROL_SHADER "TESS_CONTROL_SHADER" DJGP__STAGE_TESS_CONTROL_BIT st
   else .ok st) >>= fun st =>
  (if H.GL_TESS_EVALUATION_SHADER = true then
    DJGP__ATTACH_SHADER D glprogram stages version compatible srcc
      shader_type.GL_TESS_EVALUATION_SHADER "TESS_EVALUATION_SHADER"
      DJGP__STAGE_TESS_EVALUATION_BIT st
   else .ok st) >>= fun st =>
  (if H.GL_COMPUTE_SHADER = true then
    DJGP__ATTACH_SHADER D glprogram stages version compatible srcc
      shader_type.GL_COMPUTE_SHADER "COMPUTE_SHADER" DJGP__STAGE_COMPUTE_BIT st
   else .ok st)

/-- The function `djgp_gl_upload`. The result is the returned flag, the value of `*gl`
after the call, and the calls made; `gl` is the value of `*gl` before the call. -/
def djgp_gl_upload (H : gl_headers) (D : gl_driver) (program : djg_program) (version : Int)
    (compatible link : Bool) (gl : Nat) : Exec (Bool × Nat × List gl_call) :=
  let srcc : Int := add32 (djgp__count program) 1
  let srcv : List (Option String) := malloc srcc
  match set_source_pointers srcv program 1 with
  | .error e => .error e
  | .ok srcv =>
    match load srcv (sub32 srcc 1) with
    | .error e => .error e
    | .ok last =>
      let stages : Nat := look_for_stages last
      if stages = 0 then .ok (false, gl, [])
      else
        let glprogram : Nat := D.glCreateProgram
        if D.glIsProgram glprogram = false then
          .ok (false, gl, [gl_call.glCreateProgram glprogram])
        else
          match attach_shaders H D glprogram stages version compatible srcc
            { returned := false, srcv := srcv, calls := [gl_call.glCreateProgram glprogram] } with
          | .error e => .error e
          | .ok st =>
            if st.returned then .ok (false, gl, st.calls)
            else if link && (D.link_status glprogram = false) then
              .ok (false, gl,
                st.calls ++ [gl_call.glLinkProgram glprogram, gl_call.glDeleteProgram glprogram])
            else
              let calls : List gl_call :=
                if link then st.calls ++ [gl_call.glLinkProgram glprogram] else st.calls
              let calls : List gl_call :=
                if D.glIsProgram gl then calls ++ [gl_call.glDeleteProgram gl] else calls
              .ok (true, glprogram, calls)

/-- What `djgm_load_plane` builds for `slices = S` and `stacks = T`: the counts, the
vertex grid and the two index arrays, cell by cell. -/
def plane_mesh_spec {α : Type} [LinearOrderedField α] (width height : α) (S T : Nat)
    (m : djg_mesh α) : Prop :=
  m.vertexc = (((S + 2) * (T + 2) : Nat) : Int) ∧
  m.poly3c = ((6 * ((T + 1) * (S + 1)) : Nat) : Int) ∧
  m.poly4c = ((4 * ((T + 1) * (S + 1)) : Nat) : Int) ∧
  m.vertexv.length = (S + 2) * (T + 2) ∧
  m.poly3v.length = 6 * ((T + 1) * (S + 1)) ∧
  m.poly4v.length = 4 * ((T + 1) * (S + 1)) ∧
  (∀ p, p < (S + 2) * (T + 2) →
    m.vertexv[p]? = some (some (plane_vertex width height ((S + 2 : Nat) : Int)
      ((T + 2 : Nat) : Int) ((p / (T + 2) : Nat) : Int) ((p % (T + 2) : Nat) : Int)))) ∧
  (∀ p, p < 6 * ((T + 1) * (S + 1)) →
    m.poly3v[p]? = some ((cell_triangles ((T + 1 : Nat) : Int)
      ((p / 6 % (S + 1) : Nat) : Int) ((p / 6 / (S + 1) : Nat) : Int))[p % 6]?)) ∧
  (∀ p, p < 4 * ((T + 1) * (S + 1)) →
    m.poly4v[p]? = some ((cell_quad ((T + 1 : Nat) : Int)
      ((p / 4 % (S + 1) : Nat) : Int) ((p / 4 / (S + 1) : Nat) : Int))[p % 4]?))

/-- Every entry of the two index arrays of `m` is written and holds the index
`b + (T + 2) * a` of a vertex `(a, b)` of the padded `(S + 2) x (T + 2)` grid, as a
mathematical integer (nothing was lost in the 16-bit store), below the vertex count. -/
def grid_indices_valid {α : Type} (S T : Nat) (m : djg_mesh α) : Prop :=
  m.vertexc = (((S + 2) * (T + 2) : Nat) : Int) ∧
  m.vertexv.length = (S + 2) * (T + 2) ∧
  (∀ p, p < m.poly3v.length → ∃ a b : Nat, a ≤ S + 1 ∧ b ≤ T + 1 ∧
    m.poly3v[p]? = some (some (b + (T + 2) * a)) ∧ b + (T + 2) * a < (S + 2) * (T + 2)) ∧
  (∀ p, p < m.poly4v.length → ∃ a b : Nat, a ≤ S + 1 ∧ b ≤ T + 1 ∧
    m.poly4v[p]? = some (some (b + (T + 2) * a)) ∧ b + (T + 2) * a < (S + 2) * (T + 2))

/-- The mesh `m` has the counts and the index arrays of the mesh `mp`. -/
def same_topology {α : Type} (mp m : djg_mesh α) : Prop :=
  m.vertexc = mp.vertexc ∧ m.poly3c = mp.poly3c ∧ m.poly4c = mp.poly4c ∧
  m.poly3v = mp.poly3v ∧ m.poly4v = mp.poly4v ∧ m.vertexv.length = mp.vertexv.length

/-- The vertex `v` has the `w` components and the texture coordinates of `vp`. -/
def same_w_and_st {α : Type} (vp v : djgm_vertex α) : Prop :=
  v.p.w = vp.p.w ∧ v.dpds.w = vp.dpds.w ∧ v.dpdt.w = vp.dpdt.w ∧ v.st = vp.st

/-- The vertex `v` has the `w` components of `vp`, and its texture coordinates with
`s` and `t` exchanged. -/
def same_w_swapped_st {α : Type} (vp v : djgm_vertex α) : Prop :=
  v.p.w = vp.p.w ∧ v.dpds.w = vp.dpds.w ∧ v.dpdt.w = vp.dpdt.w ∧
  v.st.s = vp.st.t ∧ v.st.t = vp.st.s ∧ v.st.p = vp.st.p ∧ v.st.q = vp.st.q

/-- The mesh `m` has the topology of `mp`, and vertex by vertex is related to it by `R`. -/
def frame_rel {α : Type} (R : djgm_vertex α → djgm_vertex α → Prop) (mp m : djg_mesh α) : Prop :=
  same_topology mp m ∧
  ∀ p, p < mp.vertexv.length →
    ∃ vp v, mp.vertexv[p]? = some (some vp) ∧ m.vertexv[p]? = some (some v) ∧ R vp v

/-- What `djgm_export_obj_triangles` needs of a mesh to run to its end: the counts are those
of the arrays, every cell is written, every normal passes the `Invalid normal` assertion. -/
def exportable {α : Type} [LinearOrderedField α] (L : libm α) (m : djg_mesh α) : Prop :=
  m.vertexc = (m.vertexv.length : Int) ∧
  (∀ o ∈ m.vertexv, ∃ v, o = some v ∧ 0 < normal_length L v) ∧
  m.poly3c = (m.poly3v.length : Int) ∧
  (∀ o ∈ m.poly3v, o ≠ none) ∧
  m.poly3v.length < 2147483648

/-- Invariant of a stream buffer of capacity `C` and chunk size `s` after `j` successful
uploads: the cursor stands on slot `j mod (C / s)`, where slot 0 also shows as a cursor
from which the next chunk no longer fits (as after `djgb_create`, or after the last slot). -/
def ring_inv (C s j : Nat) (b : djg_buffer) : Prop :=
  b.capacity = (C : Int) ∧ b.size = (s : Int) ∧
  (j % (C / s) = 0 →
    b.offset = 0 ∨ (0 ≤ b.offset ∧ b.offset ≤ (C : Int) ∧ (C : Int) < b.offset + (s : Int))) ∧
  (j % (C / s) ≠ 0 → b.offset = ((j % (C / s) * s : Nat) : Int))

/-- The OpenGL calls made by `djgb_create`: the buffer name is generated, no storage is
allocated. -/
def djgb_create_calls (name : Nat) : List gl_call := [gl_call.glGenBuffers name]

/-- The six shader types in the order of the expansions of `DJGP__ATTACH_SHADER`. -/
def shader_stages : List shader_type :=
  [shader_type.GL_VERTEX_SHADER, shader_type.GL_FRAGMENT_SHADER,
   shader_type.GL_GEOMETRY_SHADER, shader_type.GL_TESS_CONTROL_SHADER,
   shader_type.GL_TESS_EVALUATION_SHADER, shader_type.GL_COMPUTE_SHADER]

/-- The marker token that `djgp_gl_upload` pairs with a shader type. -/
def stage_token : shader_type → String
  | shader_type.GL_VERTEX_SHADER => "VERTEX_SHADER"
  | shader_type.GL_FRAGMENT_SHADER => "FRAGMENT_SHADER"
  | shader_type.GL_GEOMETRY_SHADER => "GEOMETRY_SHADER"
  | shader_type.GL_TESS_CONTROL_SHADER => "TESS_CONTROL_SHADER"
  | shader_type.GL_TESS_EVALUATION_SHADER => "TESS_EVALUATION_SHADER"
  | shader_type.GL_COMPUTE_SHADER => "COMPUTE_SHADER"

/-- The stage bit that `djgp_gl_upload` pairs with a shader type. -/
def stage_bit : shader_type → Nat
  | shader_type.GL_VERTEX_SHADER => DJGP__STAGE_VERTEX_BIT
  | shader_type.GL_FRAGMENT_SHADER => DJGP__STAGE_FRAGMENT_BIT
  | shader_type.GL_GEOMETRY_SHADER => DJGP__STAGE_GEOMETRY_BIT
  | shader_type.GL_TESS_CONTROL_SHADER => DJGP__STAGE_TESS_CONTROL_BIT
  | shader_type.GL_TESS_EVALUATION_SHADER => DJGP__STAGE_TESS_EVALUATION_BIT
  | shader_type.GL_COMPUTE_SHADER => DJGP__STAGE_COMPUTE_BIT

/-- Whether the expansion of `DJGP__ATTACH_SHADER` for a shader type is compiled in: the
vertex and fragment expansions always are, the others stand under `#if defined(...)`. -/
def header_defines (H : gl_headers) : shader_type → Bool
  | shader_type.GL_VERTEX_SHADER => true
  | shader_type.GL_FRAGMENT_SHADER => true
  | shader_type.GL_GEOMETRY_SHADER => H.GL_GEOMETRY_SHADER
  | shader_type.GL_TESS_CONTROL_SHADER => H.GL_TESS_CONTROL_SHADER
  | shader_type.GL_TESS_EVALUATION_SHADER => H.GL_TESS_EVALUATION_SHADER
  | shader_type.GL_COMPUTE_SHADER => H.GL_COMPUTE_SHADER

/-- The source array handed to `glShaderSource` for a stage: the preamble of the stage,
then the pushed fragments. -/
def stage_sources (version : Int) (compatible : Bool) (program : djg_program)
    (t : shader_type) : List String :=
  shader_head version compatible (stage_token t) :: program

/-- The calls of one shader unit that compiles: create, set the sources, compile, attach,
flag for deletion. -/
def shader_unit (D : gl_driver) (glprogram : Nat) (version : Int) (compatible : Bool)
    (program : djg_program) (t : shader_type) : List gl_call :=
  [gl_call.glCreateShader t (D.glCreateShader t),
   gl_call.glShaderSource (D.glCreateShader t) (stage_sources version compatible program t),
   gl_call.glCompileShader (D.glCreateShader t),
   gl_call.glAttachShader glprogram (D.glCreateShader t),
   gl_call.glDeleteShader (D.glCreateShader t)]

/-- The calls of one shader unit that does not compile, with the release of the program
that follows. -/
def shader_unit_failed (D : gl_driver) (glprogram : Nat) (version : Int) (compatible : Bool)
    (program : djg_program) (t : shader_type) : List gl_call :=
  [gl_call.glCreateShader t (D.glCreateShader t),
   gl_call.glShaderSource (D.glCreateShader t) (stage_sources version compatible program t),
   gl_call.glCompileShader (D.glCreateShader t),
   gl_call.glDeleteShader (D.glCreateShader t),
   gl_call.glDeleteProgram glprogram]

/-- Whether `djgp_gl_upload` runs a shader unit for a type: its token occurs in the last
fragment and its expansion is compiled in. -/
def stage_enabled (H : gl_headers) (last : String) (t : shader_type) : Bool :=
  strstr last (stage_token t) && header_defines H t

/-- One expansion of `DJGP__ATTACH_SHADER` as a function on the pair (returned, calls). -/
def attach_pure (H : gl_headers) (D : gl_driver) (glprogram : Nat) (version : Int)
    (compatible : Bool) (program : djg_program) (last : String) (s : Bool × List gl_call)
    (t : shader_type) : Bool × List gl_call :=
  if s.1 = true then s
  else if stage_enabled H last t = false then s
  else if D.compile_status t (stage_sources version compatible program t) = true then
    (false, s.2 ++ shader_unit D glprogram version compatible program t)
  else (true, s.2 ++ shader_unit_failed D glprogram version compatible program t)

/-- The shader types whose unit is created in a call trace, in call order. -/
def created_stages (calls : List gl_call) : List shader_type :=
  calls.filterMap (fun c => match c with
    | gl_call.glCreateShader t _ => some t
    | _ => none)

/-- The number of `glCompileShader` calls of a call trace. -/
def compile_count (calls : List gl_call) : Nat :=
  calls.countP (fun c => match c with
    | gl_call.glCompileShader _ => true
    | _ => false)

/-- The stage mask built by `look_for_stages` from the six substring tests. -/
def stage_mask (b1 b2 b3 b4 b5 b6 : Bool) : Nat :=
  let stages : Nat := 0
  let stages := if b1 then stages ||| DJGP__STAGE_VERTEX_BIT else stages
  let stages := if b2 then stages ||| DJGP__STAGE_FRAGMENT_BIT else stages
  let stages := if b3 then stages ||| DJGP__STAGE_GEOMETRY_BIT else stages
  let stages := if b4 then stages ||| DJGP__STAGE_TESS_CONTROL_BIT else stages
  let stages := if b5 then stages ||| DJGP__STAGE_TESS_EVALUATION_BIT else stages
  let stages := if b6 then stages ||| DJGP__STAGE_COMPUTE_BIT else stages
  stages

/-- What `djgp_gl_upload` returns for a fragment list with last fragment `last`, written
as a function of the six expansions of `DJGP__ATTACH_SHADER` taken as pure steps. -/
def upload_outcome (H : gl_headers) (D : gl_driver) (program : djg_program) (version : Int)
    (compatible link : Bool) (gl : Nat) (last : String) : Bool × Nat × List gl_call :=
  if look_for_stages last = 0 then (false, gl, [])
  else if D.glIsProgram D.glCreateProgram = false then
    (false, gl, [gl_call.glCreateProgram D.glCreateProgram])
  else
    let s : Bool × List gl_call :=
      shader_stages.foldl (attach_pure H D D.glCreateProgram version compatible program last)
        (false, [gl_call.glCreateProgram D.glCreateProgram])
    if s.1 = true then (false, gl, s.2)
    else if (link && (D.link_status D.glCreateProgram = false)) = true then
      (false, gl, s.2 ++ [gl_call.glLinkProgram D.glCreateProgram,
        gl_call.glDeleteProgram D.glCreateProgram])
    else
      (true, D.glCreateProgram,
        (if link = true then s.2 ++ [gl_call.glLinkProgram D.glCreateProgram] else s.2) ++
        (if D.glIsProgram gl = true then [gl_call.glDeleteProgram gl] else []))

/-- Headers that define every optional shader type. -/
def all_headers : gl_headers :=
  { GL_GEOMETRY_SHADER := true, GL_TESS_CONTROL_SHADER := true,
    GL_TESS_EVALUATION_SHADER := true, GL_COMPUTE_SHADER := true }

/-- A driver for which nothing fails: the program gets the name 1 (the only valid program
name), the shaders the names 2 to 7, everything compiles and links. -/
def sample_driver : gl_driver :=
  { glCreateProgram := 1
    glIsProgram := fun n => n == 1
    glCreateShader := fun t =>
      match t with
      | shader_type.GL_VERTEX_SHADER => 2
      | shader_type.GL_FRAGMENT_SHADER => 3
      | shader_type.GL_GEOMETRY_SHADER => 4
      | shader_type.GL_TESS_CONTROL_SHADER => 5
      | shader_type.GL_TESS_EVALUATION_SHADER => 6
      | shader_type.GL_COMPUTE_SHADER => 7
    compile_status := fun _ _ => true
    link_status := fun _ => true }

/-- A driver whose `glCreateProgram` fails: it returns 0, which is not a program. -/
def no_program_driver : gl_driver :=
  { glCreateProgram := 0
    glIsProgram := fun _ => false
    glCreateShader := fun _ => 2
    compile_status := fun _ _ => true
    link_status := fun _ => true }

/-- A driver for which every shader compiles and the link fails; the names 1 and 9 are
valid programs. -/
def no_link_driver : gl_driver :=
  { glCreateProgram := 1
    glIsProgram := fun n => n == 1 || n == 9
    glCreateShader := fun _ => 2
    compile_status := fun _ _ => true
    link_status := fun _ => false }

/-! ## Pivot phase function (`mitsuba_phase_function/pivot.cpp`) -/

/-- The type `Vector` of the renderer: three `Float` components. -/
structure Vector (α : Type) where
  x : α
  y : α
  z : α

/-- The operator `Vector - Vector`. -/
def Vector.sub {α : Type} [LinearOrderedField α] (a b : Vector α) : Vector α :=
  { x := a.x - b.x, y := a.y - b.y, z := a.z - b.z }

/-- The operator `Float * Vector`. -/
def Vector.scale {α : Type} [LinearOrderedField α] (f : α) (a : Vector α) : Vector α :=
  { x := f * a.x, y := f * a.y, z := f * a.z }

/-- The operator `Vector / Float`. -/
def Vector.div {α : Type} [LinearOrderedField α] (a : Vector α) (f : α) : Vector α :=
  { x := a.x / f, y := a.y / f, z := a.z / f }

/-- The function `cross`. -/
def cross {α : Type} [LinearOrderedField α] (a b : Vector α) : Vector α :=
  { x := a.y * b.z - a.z * b.y, y := a.z * b.x - a.x * b.z, z := a.x * b.y - a.y * b.x }

/-- The function `dot`. -/
def dot {α : Type} [LinearOrderedField α] (a b : Vector α) : α :=
  a.x * b.x + a.y * b.y + a.z * b.z

/-- The denominator `qf` of `PivotPhaseFunction::project`. -/
def project_qf {α : Type} [LinearOrderedField α] (std pivot : Vector α) : α :=
  let cp1 := cross std pivot
  let dp := dot std pivot - 1
  dp * dp + dot cp1 cp1

/-- The method `PivotPhaseFunction::project`. -/
def project {α : Type} [LinearOrderedField α] (std pivot : Vector α) : Vector α :=
  let tmp := Vector.sub std pivot
  let cp1 := cross std pivot
  let cp2 := cross tmp cp1
  let dp := dot std pivot - 1
  let qf := dp * dp + dot cp1 cp1
  Vector.div (Vector.sub (Vector.scale dp tmp) cp2) qf

/-! ## Texture API -/

/-- The function `djgt__exp2`; the loop `for (i = 1; i < sizeof(int) * 8; i <<= 1)` runs
for `i = 1, 2, 4, 8, 16`. -/
def djgt__exp2 (x : Int) : Int :=
  let x := sub32 x 1
  let x := [1, 2, 4, 8, 16].foldl (fun (x : Int) (i : Nat) => Int.lor x (Int.shiftRight x i)) x
  add32 x 1

/-- The loop `while (! (p & 1)) { p >>= 1; ++e; }` of `djgt__log2`, run for at most
`fuel` iterations. -/
def djgt__log2_loop : Nat → Int → Int → Exec Int
  | 0, _, _ => .error Fault.out_of_fuel
  | fuel + 1, p, e =>
    if Int.land p 1 = 0 then djgt__log2_loop fuel (Int.shiftRight p 1) (add32 e 1)
    else .ok e

/-- The function `djgt__log2`. -/
def djgt__log2 (fuel : Nat) (x : Int) : Exec Int :=
  djgt__log2_loop fuel (djgt__exp2 x) 0

/-- The function `djgt__max3`. -/
def djgt__max3 (x y z : Int) : Int :=
  let m := x
  let m := if m < y then y else m
  let m := if m < z then z else m
  m

/-- The function `djgt__mipcnt`. -/
def djgt__mipcnt (fuel : Nat) (x y z : Int) : Exec Int :=
  match djgt__log2 fuel (djgt__max3 x y z) with
  | .error e => .error e
  | .ok e => .ok (add32 e 1)

/-- The struct `djg_texture` without its `next` pointer; `texels` holds the bytes of the
pixel data (`NULL` is the empty block). -/
structure djg_texture where
  texels : List Nat
  x : Int
  y : Int
  comp : Int
  hdr : Bool
deriving DecidableEq

/-- A texture as the API handles it: the head node and the nodes linked after it, the
layers, in list order. -/
structure djg_texture_list where
  head : djg_texture
  next : List djg_texture
deriving DecidableEq

/-- The source side of `memcpy`: the `n` bytes at `a + off`. -/
def read_bytes (a : List Nat) (off n : Int) : Exec (List Nat) :=
  if 0 ≤ off ∧ 0 ≤ n ∧ off.toNat + n.toNat ≤ a.length then
    .ok ((a.drop off.toNat).take n.toNat)
  else .error Fault.out_of_bounds

/-- The destination side of `memcpy`: `bytes` written at `a + off`. -/
def write_bytes (a : List Nat) (off : Int) (bytes : List Nat) : Exec (List Nat) :=
  if 0 ≤ off ∧ off.toNat + bytes.length ≤ a.length then
    .ok (a.take off.toNat ++ bytes ++ a.drop (off.toNat + bytes.length))
  else .error Fault.out_of_bounds

/-- The body of the loops of `djgt__flipy`: the three `memcpy` through `char tmp[64]`
that exchange the texel at `tx1` with the texel at `tx2`. -/
def flipy_swap (texture : djg_texture) (bpp x y : Int) (texels : List Nat) :
    Exec (List Nat) :=
  let tx1 : Int := mul32 bpp (add32 (mul32 texture.x y) x)
  let tx2 : Int := mul32 bpp (add32 (mul32 texture.x (sub32 (sub32 texture.y 1) y)) x)
  if bpp > 64 then .error Fault.out_of_bounds
  else
    read_bytes texels tx1 bpp >>= fun tmp =>
    read_bytes texels tx2 bpp >>= fun src =>
    write_bytes texels tx1 src >>= fun texels =>
    write_bytes texels tx2 tmp

/-- The function `djgt__flipy`. -/
def djgt__flipy (texture : djg_texture) : Exec djg_texture :=
  let bpp : Int := mul32 texture.comp (if texture.hdr then 4 else 1)
  for_loop texture.x (fun x texels =>
    for_loop (Int.tdiv texture.y 2) (fun y texels => flipy_swap texture bpp x y texels) texels)
    texture.texels >>= fun texels =>
  .ok { texture with texels := texels }

/-- The function `djgt__push_texture`. -/
def djgt__push_texture (head : djg_texture_list) (texture : djg_texture) (flipy : Bool) :
    Exec (Bool × djg_texture_list) :=
  (if flipy = true then djgt__flipy texture else .ok texture) >>= fun texture =>
  .ok (true, { head with next := head.next ++ [texture] })

/-- The loop of `djgt__count`: the number of nodes linked after the head. -/
def djgt__count_nodes : List djg_texture → Int
  | [] => 0
  | _ :: it => add32 (djgt__count_nodes it) 1

/-- The function `djgt__count`. -/
def djgt__count (texture : djg_texture_list) : Int := djgt__count_nodes texture.next

/-- The function `djgt_create`. -/
def djgt_create (req_comp : Int) : Exec djg_texture_list :=
  DJG_ASSERT (decide (req_comp ≥ 0) && decide (req_comp ≤ 4)) >>= fun _ =>
  .ok { head := { texels := [], x := 0, y := 0, comp := req_comp, hdr := false }, next := [] }

/-- What `stbi_load` writes for a file it can decode: the texels it returns and the
values it stores in `*x`, `*y` and `*comp`. -/
structure stbi_image where
  texels : List Nat
  x : Int
  y : Int
  comp : Int

/-- The function `djgt_push_image`; `stbi_load filename req_comp` is `none` when the
decoder returns `NULL`. -/
def djgt_push_image (stbi_load : String → Int → Option stbi_image)
    (texture : djg_texture_list) (filename : String) (flipy : Bool) :
    Exec (Bool × djg_texture_list) :=
  djgt_create texture.head.comp >>= fun tail =>
  match stbi_load filename texture.head.comp with
  | none => .ok (false, texture)
  | some image =>
    djgt__push_texture texture
      { tail.head with hdr := false, texels := image.texels, x := image.x, y := image.y,
                       comp := image.comp } flipy

/-- The array type `djgt__glpss`: the nine values of a pixel store state, in the order of
the enumerants `DJGT__GLPSS_BUFFER` to `DJGT__GLPSS_ALIGNMENT`. -/
structure djgt__glpss where
  buffer : Int
  swapbytes : Int
  lsbfirst : Int
  rowlength : Int
  imageheight : Int
  skiprows : Int
  skippixels : Int
  skipimages : Int
  alignment : Int
deriving DecidableEq

/-- The pixel formats that the texture API names. -/
inductive gl_format where
  | GL_RED
  | GL_RG
  | GL_RGB
  | GL_RGBA
  | other (n : Int)
deriving DecidableEq

/-- The pixel types that the texture API names. -/
inductive gl_type where
  | GL_UNSIGNED_BYTE
  | GL_FLOAT
  | other (n : Int)
deriving DecidableEq

/-- The texture targets; `cube_face i` is `GL_TEXTURE_CUBE_MAP_POSITIVE_X + i`. -/
inductive gl_target where
  | GL_TEXTURE_1D
  | GL_PROXY_TEXTURE_1D
  | GL_TEXTURE_1D_ARRAY
  | GL_PROXY_TEXTURE_1D_ARRAY
  | GL_TEXTURE_2D
  | GL_TEXTURE_RECTANGLE
  | GL_PROXY_TEXTURE_2D
  | GL_PROXY_TEXTURE_RECTANGLE
  | GL_TEXTURE_CUBE_MAP
  | GL_TEXTURE_2D_ARRAY
  | GL_PROXY_TEXTURE_2D_ARRAY
  | GL_TEXTURE_3D
  | GL_PROXY_TEXTURE_3D
  | cube_face (i : Int)
  | other (n : Int)
deriving DecidableEq

/-- The OpenGL calls of the texture API that change driver objects or transfer texels, as
recorded in a call trace. -/
inductive tex_call where
  | glGenTextures (name : Nat)
  | glBindTexture (target : gl_target) (name : Nat)
  | glTexStorage1D (target : gl_target) (levels internalformat width : Int)
  | glTexStorage2D (target : gl_target) (levels internalformat width height : Int)
  | glTexStorage3D (target : gl_target) (levels internalformat width height depth : Int)
  | glTexImage1D (target : gl_target) (internalformat width : Int)
  | glTexImage2D (target : gl_target) (internalformat width height : Int)
  | glTexImage3D (target : gl_target) (internalformat width height depth : Int)
  | glTexSubImage1D (target : gl_target) (xoffset width : Int) (format : gl_format)
      (type : gl_type) (texels : List Nat)
  | glTexSubImage2D (target : gl_target) (xoffset yoffset width height : Int)
      (format : gl_format) (type : gl_type) (texels : List Nat)
  | glTexSubImage3D (target : gl_target) (xoffset yoffset zoffset width height depth : Int)
      (format : gl_format) (type : gl_type) (texels : List Nat)
  | glGenerateMipmap (target : gl_target)
  | glDeleteTextures (name : Nat)
  | glReadBuffer (src : Int)
  | glReadPixels (x y width height : Int) (format : gl_format) (type : gl_type)
deriving DecidableEq

/-- The part of the OpenGL state that the texture API reads or writes: the pixel unpack
and pack store states, the viewport, the read buffer, whether an error is recorded, and
the calls made so far. -/
structure gl_state where
  unpack : djgt__glpss
  pack : djgt__glpss
  viewport : Int × Int × Int × Int
  read_buffer : Int
  error : Bool
  calls : List tex_call

/-- Answers of the OpenGL driver to the texture API: the name given by `glGenTextures`,
`glIsTexture`, whether a call records an error (given the calls made before it), and the
bytes that `glReadPixels` stores. -/
structure gl_tex_driver where
  glGenTextures : Nat
  glIsTexture : Nat → Bool
  raises : List tex_call → tex_call → Bool
  glReadPixels : Int → Int → Int → Int → gl_format → gl_type → List Nat

/-- One recorded OpenGL call: it joins the trace, and an error is recorded when the
driver raises one. -/
def gl_do (D : gl_tex_driver) (c : tex_call) (g : gl_state) : gl_state :=
  { g with calls := g.calls ++ [c], error := g.error || D.raises g.calls c }

/-- The function `djgt__validate`. -/
def djgt__validate (g : gl_state) : Bool × gl_state :=
  (!g.error, { g with error := false })

/-- The function `djgt__get_glpus`. -/
def djgt__get_glpus (g : gl_state) : djgt__glpss := g.unpack

/-- The function `djgt__set_glpus`: one `glBindBuffer` and eight `glPixelStorei`. -/
def djgt__set_glpus (state : djgt__glpss) (g : gl_state) : gl_state :=
  { g with unpack :=
      { buffer := state.buffer, swapbytes := state.swapbytes, lsbfirst := state.lsbfirst,
        rowlength := state.rowlength, imageheight := state.imageheight,
        skiprows := state.skiprows, skippixels := state.skippixels,
        skipimages := state.skipimages, alignment := state.alignment } }

/-- The initialiser `djgt__glpss pus = {0, 0, 0, 0, 0, 0, 0, 0, 2}`. -/
def pus : djgt__glpss :=
  { buffer := 0, swapbytes := 0, lsbfirst := 0, rowlength := 0, imageheight := 0,
    skiprows := 0, skippixels := 0, skipimages := 0, alignment := 2 }

/-- The macro `djgt__glformat`. -/
def djgt__glformat (T : djg_texture) : gl_format :=
  if T.comp = 1 then gl_format.GL_RED
  else if T.comp = 2 then gl_format.GL_RG
  else if T.comp = 3 then gl_format.GL_RGB
  else gl_format.GL_RGBA

/-- The macro `djgt__gltype`. -/
def djgt__gltype (T : djg_texture) : gl_type :=
  if T.hdr = true then gl_type.GL_FLOAT else gl_type.GL_UNSIGNED_BYTE

/-- The function `djgt__glTexSubImage1D`. -/
def djgt__glTexSubImage1D (D : gl_tex_driver) (texture : djg_texture) (target : gl_target)
    (xoffset : Int) (g : gl_state) : Bool × gl_state :=
  let backup : djgt__glpss := djgt__get_glpus g
  let reset : Bool := decide (pus ≠ backup)
  let g := if reset = true then djgt__set_glpus pus g else g
  let g := gl_do D (tex_call.glTexSubImage1D target xoffset texture.x
    (djgt__glformat texture) (djgt__gltype texture) texture.texels) g
  let g := if reset = true then djgt__set_glpus backup g else g
  djgt__validate g

/-- The function `djgt__glTexSubImage2D`. -/
def djgt__glTexSubImage2D (D : gl_tex_driver) (texture : djg_texture) (target : gl_target)
    (xoffset yoffset : Int) (g : gl_state) : Bool × gl_state :=
  let backup : djgt__glpss := djgt__get_glpus g
  let reset : Bool := decide (pus ≠ backup)
  let g := if reset = true then djgt__set_glpus pus g else g
  let g := gl_do D (tex_call.glTexSubImage2D target xoffset yoffset texture.x texture.y
    (djgt__glformat texture) (djgt__gltype texture) texture.texels) g
  let g := if reset = true then djgt__set_glpus backup g else g
  djgt__validate g

/-- The function `djgt__glTexSubImage3D`. -/
def djgt__glTexSubImage3D (D : gl_tex_driver) (texture : djg_texture) (target : gl_target)
    (xoffset yoffset zoffset : Int) (g : gl_state) : Bool × gl_state :=
  let backup : djgt__glpss := djgt__get_glpus g
  let reset : Bool := decide (pus ≠ backup)
  let g := if reset = true then djgt__set_glpus pus g else g
  let g := gl_do D (tex_call.glTexSubImage3D target xoffset yoffset zoffset texture.x
    texture.y 1 (djgt__glformat texture) (djgt__gltype texture) texture.texels) g
  let g := if reset = true then djgt__set_glpus backup g else g
  djgt__validate g

/-- The loop `while (it)` of the case `GL_TEXTURE_1D_ARRAY` of `djgt_gl_upload`; `first`
is `texture->next`. -/
def upload_rows (D : gl_tex_driver) (first : djg_texture) (target : gl_target) :
    List djg_texture → Int → Bool → gl_state → Bool × gl_state
  | [], _, v, g => (v, g)
  | _ :: it, i, v, g =>
    let r := djgt__glTexSubImage2D D first target 0 i g
    upload_rows D first target it (add32 i 1) (v && r.1) r.2

/-- The loop `for (i = 0; i < 6 && it && v; ++i)` of the case `GL_TEXTURE_CUBE_MAP`. -/
def upload_faces (D : gl_tex_driver) :
    List djg_texture → Int → Bool → gl_state → Bool × gl_state
  | [], _, v, g => (v, g)
  | layer :: it, i, v, g =>
    if i < 6 ∧ v = true then
      let r := djgt__glTexSubImage2D D layer (gl_target.cube_face i) 0 0 g
      upload_faces D it (add32 i 1) (v && r.1) r.2
    else (v, g)

/-- The loop `for (i = 0; i < z && v; ++i)` of the case `GL_TEXTURE_2D_ARRAY`. -/
def upload_layers (D : gl_tex_driver) (target : gl_target) (z : Int) :
    List djg_texture → Int → Bool → gl_state → Exec (Bool × gl_state)
  | [], i, v, g => if i < z ∧ v = true then .error Fault.null_deref else .ok (v, g)
  | layer :: it, i, v, g =>
    if i < z ∧ v = true then
      let r := djgt__glTexSubImage3D D layer target 0 0 i g
      upload_layers D target z it (add32 i 1) (v && r.1) r.2
    else .ok (v, g)

/-- The loop `for (i = 0; i < z && v; ++i)` of the case `GL_TEXTURE_3D`. -/
def upload_slices (D : gl_tex_driver) (target : gl_target) (z : Int) :
    List djg_texture → Int → Bool → gl_state → Exec (Bool × gl_state)
  | [], i, v, g => if i < z ∧ v = true then .error Fault.null_deref else .ok (v, g)
  | layer :: it, i, v, g =>
    if i < z ∧ v = true then
      let r := djgt__glTexSubImage3D D layer target 0 0 z g
      upload_slices D target z it (add32 i 1) (v && r.1) r.2
    else .ok (v, g)

/-- The storage allocation of a case of `djgt_gl_upload`: `glTexStorage*` with the mip
count when `immutable`, the given `glTexImage*` calls otherwise. -/
def allocate (D : gl_tex_driver) (fuel : Nat) (immutable : Bool) (x y z : Int)
    (storage : Int → tex_call) (image : List tex_call) (g : gl_state) : Exec gl_state :=
  if immutable = true then
    match djgt__mipcnt fuel x y z with
    | .error e => .error e
    | .ok levels => .ok (gl_do D (storage levels) g)
  else .ok (image.foldl (fun g c => gl_do D c g) g)

/-- The `switch (target)` of `djgt_gl_upload`; `first` is `texture->next`. The result is
`none` for the `default:` label, which returns false, and the value of `v` with the state
otherwise. -/
def upload_switch (D : gl_tex_driver) (fuel : Nat) (texture : djg_texture_list)
    (first : djg_texture) (target : gl_target) (internalformat : Int) (immutable : Bool)
    (g : gl_state) : Exec (Option (Bool × gl_state)) :=
  match target with
  | gl_target.GL_TEXTURE_1D | gl_target.GL_PROXY_TEXTURE_1D =>
    allocate D fuel immutable first.x 0 0
      (fun levels => tex_call.glTexStorage1D target levels internalformat first.x)
      [tex_call.glTexImage1D target internalformat first.x] g >>= fun g =>
    .ok (some (true, (djgt__glTexSubImage1D D first target 0 g).2))
  | gl_target.GL_TEXTURE_1D_ARRAY | gl_target.GL_PROXY_TEXTURE_1D_ARRAY =>
    allocate D fuel immutable first.x 0 0
      (fun levels => tex_call.glTexStorage2D target levels internalformat first.x
        (djgt__count texture))
      [tex_call.glTexImage2D target internalformat first.x (djgt__count texture)] g >>= fun g =>
    .ok (some (upload_rows D first target texture.next 0 true g))
  | gl_target.GL_TEXTURE_2D | gl_target.GL_TEXTURE_RECTANGLE
  | gl_target.GL_PROXY_TEXTURE_2D | gl_target.GL_PROXY_TEXTURE_RECTANGLE =>
    allocate D fuel immutable first.x first.y 0
      (fun levels => tex_call.glTexStorage2D target levels internalformat first.x first.y)
      [tex_call.glTexImage2D target internalformat first.x first.y] g >>= fun g =>
    .ok (some (djgt__glTexSubImage2D D first target 0 0 g))
  | gl_target.GL_TEXTURE_CUBE_MAP =>
    allocate D fuel immutable first.x first.y 0
      (fun levels => tex_call.glTexStorage2D target levels internalformat first.x first.y)
      ((List.range 6).map (fun (i : Nat) =>
        tex_call.glTexImage2D (gl_target.cube_face (Int.ofNat i)) internalformat first.x
          first.y))
      g >>= fun g =>
    .ok (some (upload_faces D texture.next 0 true g))
  | gl_target.GL_TEXTURE_2D_ARRAY | gl_target.GL_PROXY_TEXTURE_2D_ARRAY =>
    allocate D fuel immutable first.x first.y 0
      (fun levels => tex_call.glTexStorage3D target levels internalformat first.x first.y
        (djgt__count texture))
      [tex_call.glTexImage3D target internalformat first.x first.y (djgt__count texture)]
      g >>= fun g =>
    upload_layers D target (djgt__count texture) texture.next 0 true g >>= fun r =>
    .ok (some r)
  | gl_target.GL_TEXTURE_3D | gl_target.GL_PROXY_TEXTURE_3D =>
    allocate D fuel immutable first.x first.y (djgt__count texture)
      (fun levels => tex_call.glTexStorage3D target levels internalformat first.x first.y
        (djgt__count texture))
      [tex_call.glTexImage3D target internalformat first.x first.y (djgt__count texture)]
      g >>= fun g =>
    upload_slices D target (djgt__count texture) texture.next 0 true g >>= fun r =>
    .ok (some r)
  | _ => .ok none

/-- The function `djgt_gl_upload`. The result is the returned flag, the value of `*gl`
after the call and the OpenGL state; `gl` is the value of `*gl` before the call, `fuel`
bounds the iterations of the loop of `djgt__log2`. -/
def djgt_gl_upload (D : gl_tex_driver) (fuel : Nat) (texture : djg_texture_list)
    (target : gl_target) (internalformat : Int) (immutable mipmap : Bool) (gl : Nat)
    (g : gl_state) : Exec (Bool × Nat × gl_state) :=
  let g := (djgt__validate g).2
  if djgt__count texture = 0 then .ok (false, gl, g)
  else
    let glt : Nat := D.glGenTextures
    let g := gl_do D (tex_call.glGenTextures glt) g
    let g := gl_do D (tex_call.glBindTexture target glt) g
    match texture.next with
    | [] => .error Fault.null_deref
    | first :: _ =>
      upload_switch D fuel texture first target internalformat immutable g >>= fun r =>
      match r with
      | none => .ok (false, gl, g)
      | some (v, g) =>
        let g := if (mipmap && v) = true then gl_do D (tex_call.glGenerateMipmap target) g else g
        let r := djgt__validate g
        let v := v && r.1
        if v = false then .ok (false, gl, r.2)
        else
          let g := if D.glIsTexture gl = true then gl_do D (tex_call.glDeleteTextures gl) r.2
            else r.2
          .ok (true, glt, g)

/-- The calls of a trace that transfer texels to a texture: `glTexSubImage1D`,
`glTexSubImage2D` and `glTexSubImage3D`, in call order. -/
def sub_image_calls (calls : List tex_call) : List tex_call :=
  calls.filter (fun c => match c with
    | tex_call.glTexSubImage1D _ _ _ _ _ _ => true
    | tex_call.glTexSubImage2D _ _ _ _ _ _ _ _ => true
    | tex_call.glTexSubImage3D _ _ _ _ _ _ _ _ _ _ => true
    | _ => false)

/-- The upload of a layer to the cubemap face number `p.1`. -/
def face_upload (p : Nat × djg_texture) : tex_call :=
  tex_call.glTexSubImage2D (gl_target.cube_face (p.1 : Int)) 0 0 p.2.x p.2.y
    (djgt__glformat p.2) (djgt__gltype p.2) p.2.texels

/-- The upload of a layer to the layer number `p.1` of a 2D array (or slice of a volume). -/
def layer_upload (target : gl_target) (p : Nat × djg_texture) : tex_call :=
  tex_call.glTexSubImage3D target 0 0 (p.1 : Int) p.2.x p.2.y 1
    (djgt__glformat p.2) (djgt__gltype p.2) p.2.texels

/-- A driver of the texture API for which no call raises an error; textures get the
name 1, no name is a texture before, `glReadPixels` stores one byte. -/
def quiet_driver : gl_tex_driver :=
  { glGenTextures := 1
    glIsTexture := fun _ => false
    raises := fun _ _ => false
    glReadPixels := fun _ _ _ _ _ _ => [0] }

/-- An OpenGL state without recorded error or call; its unpack alignment is 4, the
initial value of OpenGL, not the 2 of `pus`. -/
def fresh_state : gl_state :=
  { unpack := { buffer := 0, swapbytes := 0, lsbfirst := 0, rowlength := 0, imageheight := 0,
                skiprows := 0, skippixels := 0, skipimages := 0, alignment := 4 }
    pack := { buffer := 0, swapbytes := 0, lsbfirst := 0, rowlength := 0, imageheight := 0,
              skiprows := 0, skippixels := 0, skipimages := 0, alignment := 4 }
    viewport := (0, 0, 1, 1)
    read_buffer := 0
    error := false
    calls := [] }

/-- A layer of 1 x 1 texels with one component, holding the byte `b`. -/
def byte_layer (b : Nat) : djg_texture :=
  { texels := [b], x := 1, y := 1, comp := 1, hdr := false }

/-- The row of the original image found at row `y` of column `x` while `djgt__flipy` runs:
the columns before `i` are flipped, and in column `i` the rows exchanged by the first `j`
iterations of the inner loop. -/
def flipy_src (H i j x y : Nat) : Nat :=
  if x < i ∨ (x = i ∧ (y < j ∨ H ≤ y + j)) then H - 1 - y else y

/-- The state of the texel buffer `arr` of `djgt__flipy` at the iteration `(i, j)` of its
loops, for the original buffer `a` of `W x H` texels of `B` bytes. -/
def flipy_inv (a : List Nat) (W H B i j : Nat) (arr : List Nat) : Prop :=
  arr.length = a.length ∧
  ∀ x y k, x < W → y < H → k < B →
    arr[B * (W * y + x) + k]? = a[B * (W * flipy_src H i j x y + x) + k]?

/-! # Properties -/

/-! ## Machine model -/
theorem wrap32_of_bounds (n : Int) (h1 : -2147483648 ≤ n) (h2 : n < 2147483648) :
    wrap32 n = n := by
  unfold wrap32; omega

theorem for_loop_inv {σ : Type} (n : Int) (body : Int → σ → Exec σ) (P : Nat → σ → Prop)
    (s0 : σ) (h0 : P 0 s0)
    (hstep : ∀ (i : Nat) (s : σ), (i : Int) < n → P i s →
      ∃ s1, body (i : Int) s = .ok s1 ∧ P (i + 1) s1) :
    ∃ s1, for_loop n body s0 = .ok s1 ∧ P n.toNat s1 := by
  unfold for_loop
  have hk : ∀ k : Nat, k ≤ n.toNat →
      ∃ s1, (List.range k).foldlM (fun s i => body (Int.ofNat i) s) s0 = .ok s1 ∧ P k s1 := by
    intro k
    induction k with
    | zero => intro _; exact ⟨s0, rfl, h0⟩
    | succ k ih =>
      intro hle
      obtain ⟨s1, h1, hP⟩ := ih (by omega)
      obtain ⟨s2, h2, hP2⟩ := hstep k s1 (by omega) hP
      refine ⟨s2, ?_, hP2⟩
      rw [List.range_succ, List.foldlM_append, h1]
      simpa using h2
  exact hk n.toNat le_rfl

theorem store_block_spec {β : Type} (base : Nat) (vs : List β) :
    ∀ (a : List (Option β)) (k : Nat), base + k + vs.length ≤ a.length →
      ∃ a1, store_block a (base : Int) vs k = .ok a1 ∧ a1.length = a.length ∧
        ∀ p : Nat, a1[p]? =
          if base + k ≤ p ∧ p < base + k + vs.length then some (vs[p - (base + k)]?) else a[p]? := by
  induction vs with
  | nil =>
    intro a k _
    refine ⟨a, rfl, rfl, fun p => ?_⟩
    have hno : ¬ (base + k ≤ p ∧ p < base + k + ([] : List β).length) := by
      simp only [List.length_nil]; omega
    rw [if_neg hno]
  | cons v vs ih =>
    intro a k hlen
    simp only [List.length_cons] at hlen
    have hst : store a ((base : Int) + (k : Int)) v = .ok (a.set (base + k) (some v)) := by
      unfold store
      have : ((base : Int) + (k : Int)).toNat = base + k := by omega
      rw [this]
      rw [if_pos]
      constructor
      · omega
      · omega
    obtain ⟨a1, h1, hl1, hp1⟩ := ih (a.set (base + k) (some v)) (k + 1)
      (by simp only [List.length_set]; omega)
    refine ⟨a1, ?_, ?_, ?_⟩
    · simp only [store_block, hst]; exact h1
    · simpa using hl1
    · intro p
      rw [hp1 p]
      by_cases hp : p = base + k
      · subst hp
        have hlt : base + k < a.length := by omega
        simp [hlt]
      · by_cases hin : base + (k + 1) ≤ p ∧ p < base + (k + 1) + vs.length
        · have hin2 : base + k ≤ p ∧ p < base + k + (v :: vs).length := by
            simp only [List.length_cons]; omega
          rw [if_pos hin, if_pos hin2]
          have : p - (base + k) = (p - (base + (k + 1))) + 1 := by omega
          rw [this, List.getElem?_cons_succ]
        · have hin2 : ¬ (base + k ≤ p ∧ p < base + k + (v :: vs).length) := by
            simp only [List.length_cons]; omega
          rw [if_neg hin, if_neg hin2, List.getElem?_set_ne (Ne.symm hp)]

theorem cell_lt (N M n m : Nat) (hn : n < N) (hm : m < M) : n * M + m + 1 ≤ N * M := by
  have h1 : (n + 1) * M ≤ N * M := Nat.mul_le_mul_right M hn
  have h2 : (n + 1) * M = n * M + M := by ring
  omega

theorem cell_div (M n m : Nat) (hm : m < M) : (n * M + m) / M = n := by
  have hM : 0 < M := by omega
  rw [Nat.add_comm, Nat.add_mul_div_right _ _ hM, Nat.div_eq_of_lt hm, Nat.zero_add]

theorem cell_mod (M n m : Nat) (hm : m < M) : (n * M + m) % M = m := by
  rw [Nat.add_comm, Nat.add_mul_mod_self_right, Nat.mod_eq_of_lt hm]

theorem nested_fill {β : Type} (N M c : Nat) (idx : Int → Int → Int)
    (vals : Int → Int → List β) (a0 : List (Option β)) (hlen : a0.length = c * (N * M))
    (hidx : ∀ n m : Nat, n < N → m < M → idx n m = ((c * (n * M + m) : Nat) : Int))
    (hvals : ∀ n m : Nat, n < N → m < M → (vals n m).length = c) :
    ∃ a, for_loop (N : Int) (fun n a =>
          for_loop (M : Int) (fun m a => store_block a (idx n m) (vals n m) 0) a) a0 = .ok a ∧
      a.length = c * (N * M) ∧
      ∀ p, p < c * (N * M) →
        a[p]? = some ((vals ((p / c / M : Nat) : Int) ((p / c % M : Nat) : Int))[p % c]?) := by
  let Inv : Nat → List (Option β) → Prop := fun k a =>
    a.length = c * (N * M) ∧ ∀ p, p < c * k →
      a[p]? = some ((vals ((p / c / M : Nat) : Int) ((p / c % M : Nat) : Int))[p % c]?)
  have hout := for_loop_inv (N : Int)
    (fun n a => for_loop (M : Int) (fun m a => store_block a (idx n m) (vals n m) 0) a)
    (fun n a => Inv (n * M) a) a0 ⟨hlen, fun p hp => by simp at hp⟩
    (by
      intro n a hn hInv
      have hn : n < N := by exact_mod_cast hn
      have hin := for_loop_inv (M : Int)
        (fun m a => store_block a (idx n m) (vals n m) 0)
        (fun m a => Inv (n * M + m) a) a (by simpa using hInv)
        (by
          intro m a hm hI
          have hm : m < M := by exact_mod_cast hm
          obtain ⟨hl, hv⟩ := hI
          have hcell := cell_lt N M n m hn hm
          have hbnd : c * (n * M + m) + c ≤ c * (N * M) := by
            calc c * (n * M + m) + c = c * (n * M + m + 1) := by ring
              _ ≤ c * (N * M) := Nat.mul_le_mul_left c hcell
          obtain ⟨a1, h1, hl1, hp1⟩ := store_block_spec (c * (n * M + m)) (vals n m) a 0
            (by rw [hvals n m hn hm, hl]; omega)
          refine ⟨a1, ?_, ?_, ?_⟩
          · show store_block a (idx n m) (vals n m) 0 = .ok a1
            rw [hidx n m hn hm]; exact h1
          · rw [hl1, hl]
          · intro p hp
            rw [hp1 p, hvals n m hn hm]
            by_cases hlt : p < c * (n * M + m)
            · rw [if_neg (by omega)]
              exact hv p hlt
            · have hp2 : p < c * (n * M + m) + c := by
                calc p < c * (n * M + m + 1) := hp
                  _ = c * (n * M + m) + c := by ring
              rw [if_pos (by omega)]
              have hdiv : p / c = n * M + m := by
                apply Nat.div_eq_of_lt_le
                · rw [Nat.mul_comm]; omega
                · rw [Nat.mul_comm]
                  calc p < c * (n * M + m) + c := hp2
                    _ = c * (n * M + m + 1) := by ring
              have hmod : p % c = p - (c * (n * M + m) + 0) := by
                have := Nat.div_add_mod p c
                rw [hdiv] at this
                omega
              rw [hdiv, cell_div M n m hm, cell_mod M n m hm, hmod])
      obtain ⟨a1, h1, hI1⟩ := hin
      refine ⟨a1, h1, ?_⟩
      have : (n + 1) * M = n * M + ((M : Int)).toNat := by
        simp only [Int.toNat_natCast]; ring
      show Inv ((n + 1) * M) a1
      rw [this]; exact hI1)
  obtain ⟨a, h1, hI⟩ := hout
  simp only [Int.toNat_natCast] at hI
  exact ⟨a, h1, hI.1, fun p hp => hI.2 p (by simpa using hp)⟩

theorem add32_of_bounds (a b : Int) (h1 : -2147483648 ≤ a + b) (h2 : a + b < 2147483648) :
    add32 a b = a + b := wrap32_of_bounds _ h1 h2

theorem sub32_of_bounds (a b : Int) (h1 : -2147483648 ≤ a - b) (h2 : a - b < 2147483648) :
    sub32 a b = a - b := wrap32_of_bounds _ h1 h2

theorem mul32_of_bounds (a b : Int) (h1 : -2147483648 ≤ a * b) (h2 : a * b < 2147483648) :
    mul32 a b = a * b := wrap32_of_bounds _ h1 h2

theorem store_block_single {β : Type} (a : List (Option β)) (base : Int) (v : β) :
    store_block a base [v] 0 = store a base v := by
  simp only [store_block, Nat.cast_zero, Int.add_zero]
  cases store a base v <;> rfl

theorem plane_vertices_spec {α : Type} [LinearOrderedField α] (mesh : djg_mesh α)
    (width height : α) (S T : Nat) (hvc : (S + 2) * (T + 2) ≤ 65535) :
    ∃ vv : List (Option (djgm_vertex α)),
      djgm__load_plane_vertices mesh width height (S : Int) (T : Int) =
        .ok (true, { mesh with vertexv := vv, vertexc := (((S + 2) * (T + 2) : Nat) : Int) }) ∧
      vv.length = (S + 2) * (T + 2) ∧
      ∀ p, p < (S + 2) * (T + 2) →
        vv[p]? = some (some (plane_vertex width height ((S + 2 : Nat) : Int)
          ((T + 2 : Nat) : Int) ((p / (T + 2) : Nat) : Int) ((p % (T + 2) : Nat) : Int))) := by
  have hS : S + 2 ≤ 65535 := by nlinarith
  have hT : T + 2 ≤ 65535 := by nlinarith
  have e1 : add32 (S : Int) 2 = ((S + 2 : Nat) : Int) := by
    rw [add32_of_bounds _ _ (by omega) (by omega)]; push_cast; ring
  have e2 : add32 (T : Int) 2 = ((T + 2 : Nat) : Int) := by
    rw [add32_of_bounds _ _ (by omega) (by omega)]; push_cast; ring
  have hvcI : (((S + 2 : Nat) : Int)) * ((T + 2 : Nat) : Int) = (((S + 2) * (T + 2) : Nat) : Int) := by
    push_cast; ring
  have e3 : mul32 ((S + 2 : Nat) : Int) ((T + 2 : Nat) : Int) = (((S + 2) * (T + 2) : Nat) : Int) := by
    rw [mul32_of_bounds _ _ (by rw [hvcI]; omega) (by rw [hvcI]; omega), hvcI]
  obtain ⟨vv, hrun, hlen, hval⟩ := nested_fill (S + 2) (T + 2) 1
    (fun x z => add32 (mul32 x ((T + 2 : Nat) : Int)) z)
    (fun x z => [plane_vertex width height ((S + 2 : Nat) : Int) ((T + 2 : Nat) : Int) x z])
    (malloc (((S + 2) * (T + 2) : Nat) : Int))
    (by simp only [malloc, List.length_replicate, Int.toNat_natCast, Nat.one_mul])
    (by
      intro n m hn hm
      have hc := cell_lt (S + 2) (T + 2) n m hn hm
      have hnm : (n : Int) * ((T + 2 : Nat) : Int) = ((n * (T + 2) : Nat) : Int) := by push_cast; ring
      show add32 (mul32 (n : Int) ((T + 2 : Nat) : Int)) (m : Int) = _
      rw [mul32_of_bounds _ _ (by rw [hnm]; omega) (by rw [hnm]; omega), hnm,
        add32_of_bounds _ _ (by omega) (by omega)]
      push_cast; ring)
    (by intros; rfl)
  refine ⟨vv, ?_, by simpa using hlen, ?_⟩
  · unfold djgm__load_plane_vertices
    simp only [e1, e2, e3]
    rw [if_neg (by omega)]
    simp only [store_block_single] at hrun
    rw [hrun]
    rfl
  · intro p hp
    have := hval p (by simpa using hp)
    simpa only [Nat.div_one, Nat.mod_one, List.getElem?_cons_zero] using this

theorem plane_cells_le (S T : Nat) (hvc : (S + 2) * (T + 2) ≤ 65535) :
    (T + 1) * (S + 1) ≤ 65535 := by nlinarith

theorem plane_polygons_spec {α : Type} (mesh : djg_mesh α) (S T : Nat)
    (hvc : (S + 2) * (T + 2) ≤ 65535) :
    ∃ p3v p4v : List (Option Nat),
      djgm__load_plane_polygons mesh (S : Int) (T : Int) =
        .ok (true, { mesh with
          poly3c := ((6 * ((T + 1) * (S + 1)) : Nat) : Int),
          poly4c := ((4 * ((T + 1) * (S + 1)) : Nat) : Int),
          poly3v := p3v, poly4v := p4v }) ∧
      p3v.length = 6 * ((T + 1) * (S + 1)) ∧
      p4v.length = 4 * ((T + 1) * (S + 1)) ∧
      (∀ p, p < 6 * ((T + 1) * (S + 1)) →
        p3v[p]? = some ((cell_triangles ((T + 1 : Nat) : Int)
          ((p / 6 % (S + 1) : Nat) : Int) ((p / 6 / (S + 1) : Nat) : Int))[p % 6]?)) ∧
      (∀ p, p < 4 * ((T + 1) * (S + 1)) →
        p4v[p]? = some ((cell_quad ((T + 1 : Nat) : Int)
          ((p / 4 % (S + 1) : Nat) : Int) ((p / 4 / (S + 1) : Nat) : Int))[p % 4]?)) := by
  have hcells := plane_cells_le S T hvc
  have hS : S + 2 ≤ 65535 := by nlinarith
  have hT : T + 2 ≤ 65535 := by nlinarith
  have e1 : add32 (S : Int) 1 = ((S + 1 : Nat) : Int) := by
    rw [add32_of_bounds _ _ (by omega) (by omega)]; push_cast; ring
  have e2 : add32 (T : Int) 1 = ((T + 1 : Nat) : Int) := by
    rw [add32_of_bounds _ _ (by omega) (by omega)]; push_cast; ring
  have hcI : (((S + 1 : Nat) : Int)) * ((T + 1 : Nat) : Int) = (((T + 1) * (S + 1) : Nat) : Int) := by
    push_cast; ring
  have e3 : mul32 ((S + 1 : Nat) : Int) ((T + 1 : Nat) : Int) = (((T + 1) * (S + 1) : Nat) : Int) := by
    rw [mul32_of_bounds _ _ (by rw [hcI]; omega) (by rw [hcI]; omega), hcI]
  have e4 : mul32 (mul32 (((T + 1) * (S + 1) : Nat) : Int) 2) 3 =
      ((6 * ((T + 1) * (S + 1)) : Nat) : Int) := by
    rw [mul32_of_bounds _ 2 (by omega) (by omega), mul32_of_bounds _ _ (by omega) (by omega)]
    push_cast; ring
  have e5 : mul32 (((T + 1) * (S + 1) : Nat) : Int) 4 = ((4 * ((T + 1) * (S + 1)) : Nat) : Int) := by
    rw [mul32_of_bounds _ _ (by omega) (by omega)]
    push_cast; ring
  have hidx : ∀ (c : Int) (n m : Nat), 0 ≤ c → c ≤ 6 → n < T + 1 → m < S + 1 →
      mul32 c (add32 (mul32 (n : Int) ((S + 1 : Nat) : Int)) (m : Int)) =
        c * ((n * (S + 1) + m : Nat) : Int) := by
    intro c n m hc0 hc6 hn hm
    have hc := cell_lt (T + 1) (S + 1) n m hn hm
    have hnm : (n : Int) * ((S + 1 : Nat) : Int) = ((n * (S + 1) : Nat) : Int) := by
      push_cast; ring
    rw [mul32_of_bounds (n : Int) _ (by rw [hnm]; omega) (by rw [hnm]; omega), hnm,
      add32_of_bounds _ _ (by omega) (by omega)]
    have hcast : ((n * (S + 1) : Nat) : Int) + (m : Int) = ((n * (S + 1) + m : Nat) : Int) := by
      push_cast; ring
    rw [hcast]
    have hb : (0 : Int) ≤ ((n * (S + 1) + m : Nat) : Int) := by omega
    have hb2 : ((n * (S + 1) + m : Nat) : Int) ≤ 65535 := by omega
    apply mul32_of_bounds
    · nlinarith
    · nlinarith
  obtain ⟨p3v, hrun3, hlen3, hval3⟩ := nested_fill (T + 1) (S + 1) 6
    (fun j i => mul32 (mul32 2 3) (add32 (mul32 j ((S + 1 : Nat) : Int)) i))
    (fun j i => cell_triangles ((T + 1 : Nat) : Int) i j)
    (malloc ((6 * ((T + 1) * (S + 1)) : Nat) : Int))
    (by simp only [malloc, List.length_replicate, Int.toNat_natCast])
    (by
      intro n m hn hm
      show mul32 (mul32 2 3) _ = _
      have h23 : mul32 2 3 = 6 := by unfold mul32 wrap32; decide
      rw [h23, hidx 6 n m (by omega) (by omega) hn hm]
      push_cast; ring)
    (by intros; rfl)
  obtain ⟨p4v, hrun4, hlen4, hval4⟩ := nested_fill (T + 1) (S + 1) 4
    (fun j i => mul32 4 (add32 (mul32 j ((S + 1 : Nat) : Int)) i))
    (fun j i => cell_quad ((T + 1 : Nat) : Int) i j)
    (malloc ((4 * ((T + 1) * (S + 1)) : Nat) : Int))
    (by simp only [malloc, List.length_replicate, Int.toNat_natCast])
    (by
      intro n m hn hm
      show mul32 4 _ = _
      rw [hidx 4 n m (by omega) (by omega) hn hm]
      push_cast; ring)
    (by intros; rfl)
  refine ⟨p3v, p4v, ?_, hlen3, hlen4, hval3, hval4⟩
  unfold djgm__load_plane_polygons
  simp only [e1, e2, e3, e4, e5]
  rw [hrun3]
  show (do
    let p4v ← for_loop _ _ _
    Except.ok (true, _)) = _
  rw [hrun4]
  rfl

theorem assert_true (c : Bool) (h : c = true) : DJG_ASSERT c = .ok () := by
  subst h; rfl

theorem bind_ok {β γ : Type} (a : β) (f : β → Exec γ) : (Except.ok a >>= f) = f a := rfl

theorem load_plane_spec {α : Type} [LinearOrderedField α] (width height : α)
    (hw : 0 < width) (hh : 0 < height) (S T : Nat) (hvc : (S + 2) * (T + 2) ≤ 65535) :
    ∃ m : djg_mesh α, djgm_load_plane width height (S : Int) (T : Int) = .ok (some m) ∧
      plane_mesh_spec width height S T m := by
  obtain ⟨vv, hv, hvl, hvv⟩ := plane_vertices_spec (djgm__create : djg_mesh α) width height S T hvc
  obtain ⟨p3v, p4v, hp, hl3, hl4, hv3, hv4⟩ := plane_polygons_spec
    ({ (djgm__create : djg_mesh α) with
        vertexv := vv, vertexc := (((S + 2) * (T + 2) : Nat) : Int) }) S T hvc
  refine ⟨{ vertexv := vv, poly3v := p3v, poly4v := p4v,
            vertexc := (((S + 2) * (T + 2) : Nat) : Int),
            poly3c := ((6 * ((T + 1) * (S + 1)) : Nat) : Int),
            poly4c := ((4 * ((T + 1) * (S + 1)) : Nat) : Int) }, ?_,
    ⟨rfl, rfl, rfl, hvl, hl3, hl4, hvv, hv3, hv4⟩⟩
  have ha1 : DJG_ASSERT (decide ((S : Int) ≥ 0 ∧ (T : Int) ≥ 0)) = .ok () :=
    assert_true _ (by simp)
  have ha2 : DJG_ASSERT (decide (width > 0 ∧ height > 0)) = .ok () :=
    assert_true _ (by simp [hw, hh])
  unfold djgm_load_plane
  rw [ha1, ha2]
  show (Except.ok () >>= fun _ => Except.ok () >>= fun _ =>
    djgm__load_plane_vertices djgm__create width height (S : Int) (T : Int) >>= _) = _
  rw [bind_ok, bind_ok, hv, bind_ok]
  show (djgm__load_plane_polygons _ (S : Int) (T : Int) >>= _) = _
  rw [hp, bind_ok]

theorem update_vertex_some {α : Type} (f : djgm_vertex α → djgm_vertex α) (idx : Int)
    (m : djg_mesh α) (vv : List (Option (djgm_vertex α))) (v : djgm_vertex α)
    (vv1 : List (Option (djgm_vertex α))) (hload : load vv idx = .ok v)
    (hstore : store vv idx (f v) = .ok vv1) :
    update_vertex f idx (some { m with vertexv := vv }) = .ok (some { m with vertexv := vv1 }) := by
  unfold update_vertex
  simp only [hload, hstore]

theorem update_vertices_spec {α : Type} (m : djg_mesh α) (S T : Nat)
    (f : djgm_vertex α → djgm_vertex α) (hST : S * T ≤ 65535)
    (hlen : m.vertexv.length = S * T)
    (hinit : ∀ p, p < S * T → ∃ v, m.vertexv[p]? = some (some v)) :
    ∃ vv : List (Option (djgm_vertex α)),
      update_vertices (some m) (S : Int) (T : Int) f = .ok (some { m with vertexv := vv }) ∧
      vv.length = S * T ∧
      ∀ p v, p < S * T → m.vertexv[p]? = some (some v) → vv[p]? = some (some (f v)) := by
  let Inv : Nat → Option (djg_mesh α) → Prop := fun k ms =>
    ∃ vv : List (Option (djgm_vertex α)), ms = some { m with vertexv := vv } ∧
      vv.length = S * T ∧
      (∀ p v, p < k → m.vertexv[p]? = some (some v) → vv[p]? = some (some (f v))) ∧
      (∀ p, k ≤ p → vv[p]? = m.vertexv[p]?)
  have hout := for_loop_inv (S : Int)
    (fun i mesh => for_loop (T : Int) (fun j mesh =>
      update_vertex f (add32 (mul32 i (T : Int)) j) mesh) mesh)
    (fun n ms => Inv (n * T) ms) (some m)
    ⟨m.vertexv, rfl, hlen, fun p v hp => by simp at hp, fun p _ => rfl⟩
    (by
      intro n ms hn hInv
      have hn : n < S := by exact_mod_cast hn
      have hin := for_loop_inv (T : Int)
        (fun j mesh => update_vertex f (add32 (mul32 (n : Int) (T : Int)) j) mesh)
        (fun j ms => Inv (n * T + j) ms) ms (by simpa using hInv)
        (by
          intro j ms1 hj hI
          have hj : j < T := by exact_mod_cast hj
          obtain ⟨vv, rfl, hl, hdone, hrest⟩ := hI
          have hcell := cell_lt S T n j hn hj
          have hnT : (n : Int) * (T : Int) = ((n * T : Nat) : Int) := by push_cast; ring
          have hidx : add32 (mul32 (n : Int) (T : Int)) (j : Int) = ((n * T + j : Nat) : Int) := by
            rw [mul32_of_bounds _ _ (by rw [hnT]; omega) (by rw [hnT]; omega), hnT,
              add32_of_bounds _ _ (by omega) (by omega)]
            push_cast; ring
          obtain ⟨v, hv⟩ := hinit (n * T + j) (by omega)
          have hcur : vv[n * T + j]? = some (some v) := by
            rw [hrest (n * T + j) le_rfl, hv]
          have hload : load vv ((n * T + j : Nat) : Int) = .ok v := by
            unfold load
            rw [if_pos (by omega), Int.toNat_natCast, hcur]
          have hstore : store vv ((n * T + j : Nat) : Int) (f v) =
              .ok (vv.set (n * T + j) (some (f v))) := by
            unfold store
            rw [if_pos ⟨by omega, by rw [Int.toNat_natCast]; omega⟩, Int.toNat_natCast]
          refine ⟨some { m with vertexv := vv.set (n * T + j) (some (f v)) }, ?_, ?_⟩
          · show update_vertex f (add32 (mul32 (n : Int) (T : Int)) (j : Int))
              (some { m with vertexv := vv }) = _
            rw [hidx]
            exact update_vertex_some f _ m vv v _ hload hstore
          · refine ⟨_, rfl, by simpa using hl, ?_, ?_⟩
            · intro p w hp hw
              by_cases hpe : p = n * T + j
              · subst hpe
                rw [hv] at hw
                have : v = w := by simpa using hw
                subst this
                rw [List.getElem?_set_self (by omega)]
              · rw [List.getElem?_set_ne (Ne.symm hpe)]
                exact hdone p w (by omega) hw
            · intro p hp
              rw [List.getElem?_set_ne (by omega)]
              exact hrest p (by omega))
      obtain ⟨ms1, h1, hI1⟩ := hin
      refine ⟨ms1, h1, ?_⟩
      have : (n + 1) * T = n * T + ((T : Int)).toNat := by
        simp only [Int.toNat_natCast]; ring
      show Inv ((n + 1) * T) ms1
      rw [this]; exact hI1)
  obtain ⟨ms, hrun, vv, rfl, hl, hdone, _⟩ := hout
  simp only [Int.toNat_natCast] at hdone
  exact ⟨vv, hrun, hl, fun p v hp hv => hdone p v hp hv⟩

theorem pad_le (S T : Nat) (hvc : (S + 2) * (T + 2) ≤ 65535) :
    S + 2 ≤ 65535 ∧ T + 2 ≤ 65535 := by
  constructor <;> nlinarith

theorem grid_bound (S T a b : Nat) (ha : a ≤ S + 1) (hb : b ≤ T + 1) :
    b + (T + 2) * a + 1 ≤ (S + 2) * (T + 2) := by
  have h1 : (T + 2) * a ≤ (T + 2) * (S + 1) := Nat.mul_le_mul_left _ ha
  have h2 : (S + 2) * (T + 2) = (T + 2) * (S + 1) + (T + 2) := by ring
  omega

theorem grid_index (T a b : Nat) (h : b + (T + 2) * a ≤ 65535) :
    to_u16 (add32 (b : Int) (mul32 ((T + 2 : Nat) : Int) (a : Int))) = b + (T + 2) * a := by
  have hTa : ((T + 2 : Nat) : Int) * (a : Int) = (((T + 2) * a : Nat) : Int) := by push_cast; ring
  rw [mul32_of_bounds _ _ (by rw [hTa]; omega) (by rw [hTa]; omega), hTa,
    add32_of_bounds _ _ (by omega) (by omega)]
  unfold to_u16
  omega

theorem cell_triangles_eq (S T i j : Nat) (hvc : (S + 2) * (T + 2) ≤ 65535)
    (hi : i < S + 1) (hj : j < T + 1) :
    cell_triangles ((T + 1 : Nat) : Int) (i : Int) (j : Int) =
      [j + (T + 2) * i, j + (T + 2) * (i + 1), j + 1 + (T + 2) * i,
       j + 1 + (T + 2) * i, j + (T + 2) * (i + 1), j + 1 + (T + 2) * (i + 1)] := by
  have hT : T + 2 ≤ 65535 := (pad_le S T hvc).2
  have hS : S + 2 ≤ 65535 := (pad_le S T hvc).1
  have h1 : add32 ((T + 1 : Nat) : Int) 1 = ((T + 2 : Nat) : Int) := by
    rw [add32_of_bounds _ _ (by omega) (by omega)]; push_cast; ring
  have h2 : add32 (i : Int) 1 = ((i + 1 : Nat) : Int) := by
    rw [add32_of_bounds _ _ (by omega) (by omega)]; push_cast; ring
  have h3 : add32 (j : Int) 1 = ((j + 1 : Nat) : Int) := by
    rw [add32_of_bounds _ _ (by omega) (by omega)]; push_cast; ring
  have b00 := grid_bound S T i j (by omega) (by omega)
  have b10 := grid_bound S T (i + 1) j (by omega) (by omega)
  have b01 := grid_bound S T i (j + 1) (by omega) (by omega)
  have b11 := grid_bound S T (i + 1) (j + 1) (by omega) (by omega)
  simp only [cell_triangles, h1, h2, h3]
  rw [grid_index T i j (by omega), grid_index T (i + 1) j (by omega),
    grid_index T i (j + 1) (by omega), grid_index T (i + 1) (j + 1) (by omega)]

theorem cell_quad_eq (S T i j : Nat) (hvc : (S + 2) * (T + 2) ≤ 65535)
    (hi : i < S + 1) (hj : j < T + 1) :
    cell_quad ((T + 1 : Nat) : Int) (i : Int) (j : Int) =
      [j + (T + 2) * i, j + (T + 2) * (i + 1), j + 1 + (T + 2) * (i + 1),
       j + 1 + (T + 2) * i] := by
  have hT : T + 2 ≤ 65535 := (pad_le S T hvc).2
  have hS : S + 2 ≤ 65535 := (pad_le S T hvc).1
  have h1 : add32 ((T + 1 : Nat) : Int) 1 = ((T + 2 : Nat) : Int) := by
    rw [add32_of_bounds _ _ (by omega) (by omega)]; push_cast; ring
  have h2 : add32 (i : Int) 1 = ((i + 1 : Nat) : Int) := by
    rw [add32_of_bounds _ _ (by omega) (by omega)]; push_cast; ring
  have h3 : add32 (j : Int) 1 = ((j + 1 : Nat) : Int) := by
    rw [add32_of_bounds _ _ (by omega) (by omega)]; push_cast; ring
  have b00 := grid_bound S T i j (by omega) (by omega)
  have b10 := grid_bound S T (i + 1) j (by omega) (by omega)
  have b01 := grid_bound S T i (j + 1) (by omega) (by omega)
  have b11 := grid_bound S T (i + 1) (j + 1) (by omega) (by omega)
  simp only [cell_quad, h1, h2, h3]
  rw [grid_index T i j (by omega), grid_index T (i + 1) j (by omega),
    grid_index T i (j + 1) (by omega), grid_index T (i + 1) (j + 1) (by omega)]

theorem nat_of_tessellation (slices stacks_ : Int) (hs : 0 ≤ slices) (ht : 0 ≤ stacks_)
    (hvc : (slices + 2) * (stacks_ + 2) ≤ 65535) :
    ∃ S T : Nat, slices = (S : Int) ∧ stacks_ = (T : Int) ∧ (S + 2) * (T + 2) ≤ 65535 := by
  obtain ⟨S, rfl⟩ := Int.eq_ofNat_of_zero_le hs
  obtain ⟨T, rfl⟩ := Int.eq_ofNat_of_zero_le ht
  refine ⟨S, T, rfl, rfl, ?_⟩
  have : (((S + 2) * (T + 2) : Nat) : Int) ≤ 65535 := by push_cast; linarith
  exact_mod_cast this

theorem specialised_spec {α : Type} [LinearOrderedField α] (width height : α)
    (hw : 0 < width) (hh : 0 < height) (f : djgm_vertex α → djgm_vertex α) (S T : Nat)
    (hvc : (S + 2) * (T + 2) ≤ 65535) :
    ∃ (mp : djg_mesh α) (vv : List (Option (djgm_vertex α))),
      djgm_load_plane width height (S : Int) (T : Int) = .ok (some mp) ∧
      plane_mesh_spec width height S T mp ∧
      update_vertices (some mp) (add32 (S : Int) 2) (add32 (T : Int) 2) f =
        .ok (some { mp with vertexv := vv }) ∧
      vv.length = (S + 2) * (T + 2) ∧
      ∀ p, p < (S + 2) * (T + 2) →
        vv[p]? = some (some (f (plane_vertex width height ((S + 2 : Nat) : Int)
          ((T + 2 : Nat) : Int) ((p / (T + 2) : Nat) : Int) ((p % (T + 2) : Nat) : Int)))) := by
  obtain ⟨mp, hmp, hspec⟩ := load_plane_spec width height hw hh S T hvc
  have hS : S + 2 ≤ 65535 := (pad_le S T hvc).1
  have hT : T + 2 ≤ 65535 := (pad_le S T hvc).2
  have e1 : add32 (S : Int) 2 = ((S + 2 : Nat) : Int) := by
    rw [add32_of_bounds _ _ (by omega) (by omega)]; push_cast; ring
  have e2 : add32 (T : Int) 2 = ((T + 2 : Nat) : Int) := by
    rw [add32_of_bounds _ _ (by omega) (by omega)]; push_cast; ring
  obtain ⟨_, _, _, hvl, _, _, hvv, _, _⟩ := id hspec
  obtain ⟨vv, hrun, hl, hval⟩ := update_vertices_spec mp (S + 2) (T + 2) f hvc hvl
    (fun p hp => ⟨_, hvv p hp⟩)
  refine ⟨mp, vv, hmp, hspec, ?_, hl, fun p hp => hval p _ hp (hvv p hp)⟩
  rw [e1, e2]; exact hrun

theorem for_loop_first_error {σ : Type} (n : Int) (body : Int → σ → Exec σ) (s : σ) (e : Fault)
    (hn : 0 < n) (h : body 0 s = .error e) : for_loop n body s = .error e := by
  unfold for_loop
  obtain ⟨k, hk⟩ : ∃ k, n.toNat = k + 1 := ⟨n.toNat - 1, by omega⟩
  rw [hk, List.range_succ_eq_map, List.foldlM_cons]
  have h0 : body (Int.ofNat 0) s = .error e := h
  rw [h0]
  rfl

theorem load_plane_null {α : Type} [LinearOrderedField α] (width height : α)
    (hw : 0 < width) (hh : 0 < height) (S T : Nat) (hS : S ≤ 2147483645) (hT : T ≤ 2147483645)
    (hlo : 65535 < (S + 2) * (T + 2)) (hhi : (S + 2) * (T + 2) < 2147483648) :
    djgm_load_plane width height (S : Int) (T : Int) = .ok none := by
  have e1 : add32 (S : Int) 2 = ((S + 2 : Nat) : Int) := by
    rw [add32_of_bounds _ _ (by omega) (by omega)]; push_cast; ring
  have e2 : add32 (T : Int) 2 = ((T + 2 : Nat) : Int) := by
    rw [add32_of_bounds _ _ (by omega) (by omega)]; push_cast; ring
  have hvcI : (((S + 2 : Nat) : Int)) * ((T + 2 : Nat) : Int) = (((S + 2) * (T + 2) : Nat) : Int) := by
    push_cast; ring
  have e3 : mul32 ((S + 2 : Nat) : Int) ((T + 2 : Nat) : Int) = (((S + 2) * (T + 2) : Nat) : Int) := by
    rw [mul32_of_bounds _ _ (by rw [hvcI]; omega) (by rw [hvcI]; omega), hvcI]
  have hv : djgm__load_plane_vertices (djgm__create : djg_mesh α) width height (S : Int) (T : Int)
      = .ok (false, djgm__create) := by
    unfold djgm__load_plane_vertices
    simp only [e1, e2, e3]
    rw [if_pos (by omega)]
  have ha1 : DJG_ASSERT (decide ((S : Int) ≥ 0 ∧ (T : Int) ≥ 0)) = .ok () :=
    assert_true _ (by simp)
  have ha2 : DJG_ASSERT (decide (width > 0 ∧ height > 0)) = .ok () :=
    assert_true _ (by simp [hw, hh])
  unfold djgm_load_plane
  rw [ha1, ha2]
  show (Except.ok () >>= fun _ => Except.ok () >>= fun _ =>
    djgm__load_plane_vertices djgm__create width height (S : Int) (T : Int) >>= _) = _
  rw [bind_ok, bind_ok, hv, bind_ok]

theorem update_vertices_null {α : Type} (slices stacks_ : Int) (f : djgm_vertex α → djgm_vertex α)
    (hs : 0 < slices) (ht : 0 < stacks_) :
    update_vertices (none : Option (djg_mesh α)) slices stacks_ f = .error Fault.null_deref := by
  unfold update_vertices
  apply for_loop_first_error _ _ _ _ hs
  apply for_loop_first_error _ _ _ _ ht
  rfl

theorem load_disk_spec {α : Type} [LinearOrderedField α] (L : libm α) (radius : α)
    (hr : 0 < radius) (S T : Nat) (hvc : (S + 2) * (T + 2) ≤ 65535) :
    ∃ (mp : djg_mesh α) (vv : List (Option (djgm_vertex α))),
      djgm_load_plane (2 : α) 2 (S : Int) (T : Int) = .ok (some mp) ∧
      plane_mesh_spec (2 : α) 2 S T mp ∧
      djgm_load_disk L radius (S : Int) (T : Int) = .ok (some { mp with vertexv := vv }) ∧
      vv.length = (S + 2) * (T + 2) ∧
      ∀ p, p < (S + 2) * (T + 2) →
        vv[p]? = some (some (disk_vertex L radius (plane_vertex (2 : α) 2 ((S + 2 : Nat) : Int)
          ((T + 2 : Nat) : Int) ((p / (T + 2) : Nat) : Int) ((p % (T + 2) : Nat) : Int)))) := by
  obtain ⟨mp, vv, hmp, hspec, hrun, hl, hval⟩ :=
    specialised_spec (2 : α) 2 (by norm_num) (by norm_num) (disk_vertex L radius) S T hvc
  refine ⟨mp, vv, hmp, hspec, ?_, hl, hval⟩
  have ha : DJG_ASSERT (decide (radius > 0)) = .ok () := assert_true _ (by simp [hr])
  unfold djgm_load_disk
  rw [hmp, ha, bind_ok, bind_ok]
  exact hrun

theorem load_sphere_spec {α : Type} [LinearOrderedField α] (L : libm α) (radius : α)
    (hr : 0 < radius) (S T : Nat) (hvc : (S + 2) * (T + 2) ≤ 65535) :
    ∃ (mp : djg_mesh α) (vv : List (Option (djgm_vertex α))),
      djgm_load_plane (1 : α) 1 (S : Int) (T : Int) = .ok (some mp) ∧
      plane_mesh_spec (1 : α) 1 S T mp ∧
      djgm_load_sphere L radius (S : Int) (T : Int) = .ok (some { mp with vertexv := vv }) ∧
      vv.length = (S + 2) * (T + 2) ∧
      ∀ p, p < (S + 2) * (T + 2) →
        vv[p]? = some (some (sphere_vertex L radius (plane_vertex (1 : α) 1 ((S + 2 : Nat) : Int)
          ((T + 2 : Nat) : Int) ((p / (T + 2) : Nat) : Int) ((p % (T + 2) : Nat) : Int)))) := by
  obtain ⟨mp, vv, hmp, hspec, hrun, hl, hval⟩ :=
    specialised_spec (1 : α) 1 (by norm_num) (by norm_num) (sphere_vertex L radius) S T hvc
  refine ⟨mp, vv, hmp, hspec, ?_, hl, hval⟩
  have ha : DJG_ASSERT (decide (radius > 0)) = .ok () := assert_true _ (by simp [hr])
  unfold djgm_load_sphere
  rw [hmp, ha, bind_ok, bind_ok]
  exact hrun

theorem load_cylinder_spec {α : Type} [LinearOrderedField α] (L : libm α) (radius height : α)
    (hr : 0 < radius) (hh : 0 < height) (S T : Nat) (hvc : (S + 2) * (T + 2) ≤ 65535) :
    ∃ (mp : djg_mesh α) (vv : List (Option (djgm_vertex α))),
      djgm_load_plane (1 : α) 1 (S : Int) (T : Int) = .ok (some mp) ∧
      plane_mesh_spec (1 : α) 1 S T mp ∧
      djgm_load_cylinder L radius height (S : Int) (T : Int) =
        .ok (some { mp with vertexv := vv }) ∧
      vv.length = (S + 2) * (T + 2) ∧
      ∀ p, p < (S + 2) * (T + 2) →
        vv[p]? = some (some (cylinder_vertex L radius height (plane_vertex (1 : α) 1
          ((S + 2 : Nat) : Int) ((T + 2 : Nat) : Int) ((p / (T + 2) : Nat) : Int)
          ((p % (T + 2) : Nat) : Int)))) := by
  obtain ⟨mp, vv, hmp, hspec, hrun, hl, hval⟩ :=
    specialised_spec (1 : α) 1 (by norm_num) (by norm_num) (cylinder_vertex L radius height) S T hvc
  refine ⟨mp, vv, hmp, hspec, ?_, hl, hval⟩
  have ha : DJG_ASSERT (decide (radius > 0 ∧ height > 0)) = .ok () := assert_true _ (by simp [hr, hh])
  unfold djgm_load_cylinder
  rw [hmp, ha, bind_ok, bind_ok]
  exact hrun

theorem load_torus_spec {α : Type} [LinearOrderedField α] (L : libm α)
    (ring_radius pipe_radius : α) (hr : 0 < ring_radius) (hp : 0 < pipe_radius) (S T : Nat)
    (hvc : (S + 2) * (T + 2) ≤ 65535) :
    ∃ (mp : djg_mesh α) (vv : List (Option (djgm_vertex α))),
      djgm_load_plane (1 : α) 1 (S : Int) (T : Int) = .ok (some mp) ∧
      plane_mesh_spec (1 : α) 1 S T mp ∧
      djgm_load_torus L ring_radius (S : Int) pipe_radius (T : Int) =
        .ok (some { mp with vertexv := vv }) ∧
      vv.length = (S + 2) * (T + 2) ∧
      ∀ p, p < (S + 2) * (T + 2) →
        vv[p]? = some (some (torus_vertex L ring_radius pipe_radius (plane_vertex (1 : α) 1
          ((S + 2 : Nat) : Int) ((T + 2 : Nat) : Int) ((p / (T + 2) : Nat) : Int)
          ((p % (T + 2) : Nat) : Int)))) := by
  obtain ⟨mp, vv, hmp, hspec, hrun, hl, hval⟩ :=
    specialised_spec (1 : α) 1 (by norm_num) (by norm_num)
      (torus_vertex L ring_radius pipe_radius) S T hvc
  refine ⟨mp, vv, hmp, hspec, ?_, hl, hval⟩
  have ha : DJG_ASSERT (decide (ring_radius > 0 ∧ pipe_radius > 0)) = .ok () := assert_true _ (by simp [hr, hp])
  unfold djgm_load_torus
  rw [hmp, ha, bind_ok, bind_ok]
  exact hrun

theorem grid_indices_of_spec {α : Type} [LinearOrderedField α] (width height : α) (S T : Nat)
    (hvc : (S + 2) * (T + 2) ≤ 65535) (mp : djg_mesh α) (vv : List (Option (djgm_vertex α)))
    (hspec : plane_mesh_spec width height S T mp) (hl : vv.length = (S + 2) * (T + 2)) :
    grid_indices_valid S T { mp with vertexv := vv } := by
  obtain ⟨hc, _, _, _, hl3, hl4, _, hv3, hv4⟩ := hspec
  refine ⟨hc, hl, ?_, ?_⟩
  · intro p hp
    have hp6 : p < 6 * ((T + 1) * (S + 1)) := by rw [← hl3]; exact hp
    have hcell : p / 6 < (T + 1) * (S + 1) := by omega
    have hi : p / 6 % (S + 1) < S + 1 := Nat.mod_lt _ (by omega)
    have hj : p / 6 / (S + 1) < T + 1 := Nat.div_lt_of_lt_mul (by rw [Nat.mul_comm]; exact hcell)
    have hval := hv3 p hp6
    rw [cell_triangles_eq S T _ _ hvc hi hj] at hval
    have hr : p % 6 < 6 := Nat.mod_lt _ (by omega)
    generalize p / 6 % (S + 1) = i at hi hval
    generalize p / 6 / (S + 1) = j at hj hval
    have b00 := grid_bound S T i j (by omega) (by omega)
    have b10 := grid_bound S T (i + 1) j (by omega) (by omega)
    have b01 := grid_bound S T i (j + 1) (by omega) (by omega)
    have b11 := grid_bound S T (i + 1) (j + 1) (by omega) (by omega)
    show ∃ a b : Nat, a ≤ S + 1 ∧ b ≤ T + 1 ∧
      mp.poly3v[p]? = some (some (b + (T + 2) * a)) ∧ b + (T + 2) * a < (S + 2) * (T + 2)
    generalize p % 6 = r at hr hval
    interval_cases r
    · exact ⟨i, j, by omega, by omega, hval, by omega⟩
    · exact ⟨i + 1, j, by omega, by omega, hval, by omega⟩
    · exact ⟨i, j + 1, by omega, by omega, hval, by omega⟩
    · exact ⟨i, j + 1, by omega, by omega, hval, by omega⟩
    · exact ⟨i + 1, j, by omega, by omega, hval, by omega⟩
    · exact ⟨i + 1, j + 1, by omega, by omega, hval, by omega⟩
  · intro p hp
    have hp4 : p < 4 * ((T + 1) * (S + 1)) := by rw [← hl4]; exact hp
    have hcell : p / 4 < (T + 1) * (S + 1) := by omega
    have hi : p / 4 % (S + 1) < S + 1 := Nat.mod_lt _ (by omega)
    have hj : p / 4 / (S + 1) < T + 1 := Nat.div_lt_of_lt_mul (by rw [Nat.mul_comm]; exact hcell)
    have hval := hv4 p hp4
    rw [cell_quad_eq S T _ _ hvc hi hj] at hval
    have hr : p % 4 < 4 := Nat.mod_lt _ (by omega)
    generalize p / 4 % (S + 1) = i at hi hval
    generalize p / 4 / (S + 1) = j at hj hval
    have b00 := grid_bound S T i j (by omega) (by omega)
    have b10 := grid_bound S T (i + 1) j (by omega) (by omega)
    have b01 := grid_bound S T i (j + 1) (by omega) (by omega)
    have b11 := grid_bound S T (i + 1) (j + 1) (by omega) (by omega)
    show ∃ a b : Nat, a ≤ S + 1 ∧ b ≤ T + 1 ∧
      mp.poly4v[p]? = some (some (b + (T + 2) * a)) ∧ b + (T + 2) * a < (S + 2) * (T + 2)
    generalize p % 4 = r at hr hval
    interval_cases r
    · exact ⟨i, j, by omega, by omega, hval, by omega⟩
    · exact ⟨i + 1, j, by omega, by omega, hval, by omega⟩
    · exact ⟨i + 1, j + 1, by omega, by omega, hval, by omega⟩
    · exact ⟨i, j + 1, by omega, by omega, hval, by omega⟩

/-! ## Mesh generation: counts and index arrays -/

theorem all_written {β : Type} (l : List (Option β)) (f : Nat → Option β)
    (h : ∀ p, p < l.length → l[p]? = some (f p)) (hf : ∀ p, p < l.length → f p ≠ none) :
    ∀ o ∈ l, o ≠ none := by
  intro o ho
  obtain ⟨p, hp, rfl⟩ := List.getElem_of_mem ho
  have := h p hp
  rw [List.getElem?_eq_getElem hp] at this
  have h2 : l[p] = f p := by simpa using this
  rw [h2]; exact hf p hp

/-- C1 (amended): for all `slices >= 0` and `stacks >= 0` whose padded vertex count
`(slices+2)*(stacks+2)` is at most 65535, `djgm_load_plane` returns a mesh with exactly
`(slices+2)*(stacks+2)` vertices, `3 * (2*(slices+1)*(stacks+1))` triangle indices and
`4 * ((slices+1)*(stacks+1))` quad indices, every cell of the three arrays being written. -/
theorem plane_counts {α : Type} [LinearOrderedField α] (width height : α) (slices stacks_ : Int)
    (hw : 0 < width) (hh : 0 < height) (hs : 0 ≤ slices) (ht : 0 ≤ stacks_)
    (hvc : (slices + 2) * (stacks_ + 2) ≤ 65535) :
    ∃ m : djg_mesh α, djgm_load_plane width height slices stacks_ = .ok (some m) ∧
      m.vertexc = (slices + 2) * (stacks_ + 2) ∧
      (m.vertexv.length : Int) = (slices + 2) * (stacks_ + 2) ∧
      (∀ o ∈ m.vertexv, o ≠ none) ∧
      m.poly3c = 3 * (2 * (slices + 1) * (stacks_ + 1)) ∧
      (m.poly3v.length : Int) = 3 * (2 * (slices + 1) * (stacks_ + 1)) ∧
      (∀ o ∈ m.poly3v, o ≠ none) ∧
      m.poly4c = 4 * ((slices + 1) * (stacks_ + 1)) ∧
      (m.poly4v.length : Int) = 4 * ((slices + 1) * (stacks_ + 1)) ∧
      (∀ o ∈ m.poly4v, o ≠ none) := by
  obtain ⟨S, T, rfl, rfl, hvcN⟩ := nat_of_tessellation slices stacks_ hs ht hvc
  obtain ⟨m, hm, hspec⟩ := load_plane_spec width height hw hh S T hvcN
  obtain ⟨hc, hc3, hc4, hlv, hl3, hl4, hv, hv3, hv4⟩ := hspec
  refine ⟨m, hm, ?_, ?_, ?_, ?_, ?_, ?_, ?_, ?_, ?_⟩
  · rw [hc]; push_cast; ring
  · rw [hlv]; push_cast; ring
  · exact all_written _ _ (fun p hp => hv p (by rw [← hlv]; exact hp)) (fun p _ => by simp)
  · rw [hc3]; push_cast; ring
  · rw [hl3]; push_cast; ring
  · refine all_written _ _ (fun p hp => hv3 p (by rw [← hl3]; exact hp)) (fun p hp => ?_)
    have hr : p % 6 < 6 := Nat.mod_lt _ (by omega)
    intro hnone
    have := List.getElem?_eq_none_iff.mp hnone
    simp [cell_triangles] at this
    omega
  · rw [hc4]; push_cast; ring
  · rw [hl4]; push_cast; ring
  · refine all_written _ _ (fun p hp => hv4 p (by rw [← hl4]; exact hp)) (fun p hp => ?_)
    have hr : p % 4 < 4 := Nat.mod_lt _ (by omega)
    intro hnone
    have := List.getElem?_eq_none_iff.mp hnone
    simp [cell_quad] at this
    omega

/-- C1, witness: the smallest plane, `slices = stacks = 0`, has 4 vertices. -/
theorem plane_counts_witness :
    ∃ m : djg_mesh ℚ, djgm_load_plane (1 : ℚ) 1 0 0 = .ok (some m) ∧ m.vertexc = 4 := by
  obtain ⟨m, hm, hc, _⟩ := plane_counts (1 : ℚ) 1 0 0 (by norm_num) (by norm_num)
    (by norm_num) (by norm_num) (by norm_num)
  exact ⟨m, hm, by rw [hc]; norm_num⟩

/-- C1, counterexample: `slices = stacks = 254` has a padded vertex count of exactly
65536, which the claim accepts, and `djgm_load_plane` returns `NULL`. -/
theorem plane_counts_counterexample :
    ((254 : Int) + 2) * (254 + 2) ≤ 65536 ∧
      djgm_load_plane (1 : ℚ) 1 254 254 = .ok none := by
  refine ⟨by norm_num, ?_⟩
  exact load_plane_null (1 : ℚ) 1 (by norm_num) (by norm_num) 254 254 (by norm_num) (by norm_num)
    (by norm_num) (by norm_num)

/-- C2: for every tessellation that the generators accept (`slices, stacks >= 0`, padded
vertex count at most 65535) the plane, disk, sphere, cylinder and torus generators return
a mesh in which every entry of the triangle and of the quad index array is written, is the
untruncated index `b + (stacks+2)*a` of a grid vertex, and lies below the vertex count. -/
theorem generated_indices_valid {α : Type} [LinearOrderedField α] (L : libm α)
    (slices stacks_ : Int) (hs : 0 ≤ slices) (ht : 0 ≤ stacks_)
    (hvc : (slices + 2) * (stacks_ + 2) ≤ 65535) :
    ∃ S T : Nat, slices = (S : Int) ∧ stacks_ = (T : Int) ∧
      (∀ width height : α, 0 < width → 0 < height →
        ∃ m, djgm_load_plane width height slices stacks_ = .ok (some m) ∧
          grid_indices_valid S T m) ∧
      (∀ radius : α, 0 < radius →
        ∃ m, djgm_load_disk L radius slices stacks_ = .ok (some m) ∧
          grid_indices_valid S T m) ∧
      (∀ radius : α, 0 < radius →
        ∃ m, djgm_load_sphere L radius slices stacks_ = .ok (some m) ∧
          grid_indices_valid S T m) ∧
      (∀ radius height : α, 0 < radius → 0 < height →
        ∃ m, djgm_load_cylinder L radius height slices stacks_ = .ok (some m) ∧
          grid_indices_valid S T m) ∧
      (∀ ring_radius pipe_radius : α, 0 < ring_radius → 0 < pipe_radius →
        ∃ m, djgm_load_torus L ring_radius slices pipe_radius stacks_ = .ok (some m) ∧
          grid_indices_valid S T m) := by
  obtain ⟨S, T, rfl, rfl, hvcN⟩ := nat_of_tessellation slices stacks_ hs ht hvc
  refine ⟨S, T, rfl, rfl, ?_, ?_, ?_, ?_, ?_⟩
  · intro width height hw hh
    obtain ⟨m, hm, hspec⟩ := load_plane_spec width height hw hh S T hvcN
    exact ⟨m, hm, grid_indices_of_spec width height S T hvcN m m.vertexv hspec hspec.2.2.2.1⟩
  · intro radius hr
    obtain ⟨mp, vv, _, hspec, hrun, hl, _⟩ := load_disk_spec L radius hr S T hvcN
    exact ⟨_, hrun, grid_indices_of_spec _ _ S T hvcN mp vv hspec hl⟩
  · intro radius hr
    obtain ⟨mp, vv, _, hspec, hrun, hl, _⟩ := load_sphere_spec L radius hr S T hvcN
    exact ⟨_, hrun, grid_indices_of_spec _ _ S T hvcN mp vv hspec hl⟩
  · intro radius height hr hh
    obtain ⟨mp, vv, _, hspec, hrun, hl, _⟩ := load_cylinder_spec L radius height hr hh S T hvcN
    exact ⟨_, hrun, grid_indices_of_spec _ _ S T hvcN mp vv hspec hl⟩
  · intro r1 r2 hr1 hr2
    obtain ⟨mp, vv, _, hspec, hrun, hl, _⟩ := load_torus_spec L r1 r2 hr1 hr2 S T hvcN
    exact ⟨_, hrun, grid_indices_of_spec _ _ S T hvcN mp vv hspec hl⟩

/-- C2, witness: the one-cell plane (`slices = stacks = 0`). -/
theorem generated_indices_valid_witness :
    ∃ m : djg_mesh ℚ, djgm_load_plane (1 : ℚ) 1 0 0 = .ok (some m) ∧
      grid_indices_valid 0 0 m := by
  obtain ⟨S, T, hS, hT, hplane, _⟩ := generated_indices_valid
    (⟨id, id, id, 0⟩ : libm ℚ) 0 0 (by norm_num) (by norm_num) (by norm_num)
  have hS0 : S = 0 := by exact_mod_cast hS.symm
  have hT0 : T = 0 := by exact_mod_cast hT.symm
  subst hS0; subst hT0
  exact hplane 1 1 (by norm_num) (by norm_num)

/-- C15, failing input: for `slices = stacks = 65534` the padded vertex count `65536 * 65536`
exceeds 65536 but wraps around to 0 in 32 bits, the size test passes, and the first vertex
is written outside the empty block just allocated: no `NULL` is returned. -/
theorem plane_wraparound :
    ((65534 : Int) + 2) * (65534 + 2) > 65536 ∧
      djgm_load_plane (1 : ℚ) 1 65534 65534 = .error Fault.out_of_bounds := by
  refine ⟨by norm_num, ?_⟩
  have hv : djgm__load_plane_vertices (djgm__create : djg_mesh ℚ) 1 1 65534 65534 =
      .error Fault.out_of_bounds := by
    unfold djgm__load_plane_vertices
    have e1 : add32 65534 2 = 65536 := by unfold add32 wrap32; decide
    have e3 : mul32 65536 65536 = 0 := by unfold mul32 wrap32; decide
    simp only [e1, e3]
    rw [if_neg (by norm_num)]
    have hloop : for_loop 65536 (fun x (vv : List (Option (djgm_vertex ℚ))) =>
        for_loop 65536 (fun z vv =>
          store vv (add32 (mul32 x 65536) z) (plane_vertex 1 1 65536 65536 x z)) vv)
        (malloc 0) = .error Fault.out_of_bounds := by
      apply for_loop_first_error _ _ _ _ (by norm_num)
      apply for_loop_first_error _ _ _ _ (by norm_num)
      show store (malloc 0) _ _ = _
      unfold store
      rw [if_neg]
      intro h
      have hlen : (malloc (0 : Int) : List (Option (djgm_vertex ℚ))).length = 0 := rfl
      omega
    show (for_loop 65536 _ (malloc 0) >>= _) = _
    rw [hloop]
    rfl
  have ha1 : DJG_ASSERT (decide ((65534 : Int) ≥ 0 ∧ (65534 : Int) ≥ 0)) = .ok () :=
    assert_true _ (by decide)
  have ha2 : DJG_ASSERT (decide ((1 : ℚ) > 0 ∧ (1 : ℚ) > 0)) = .ok () :=
    assert_true _ (by simp)
  unfold djgm_load_plane
  rw [ha1, ha2]
  show (Except.ok () >>= fun _ => Except.ok () >>= fun _ =>
    djgm__load_plane_vertices djgm__create (1 : ℚ) 1 65534 65534 >>= _) = _
  rw [bind_ok, bind_ok, hv]
  rfl

/-- C16, failing input: for `slices = stacks = 254` (padded vertex count 65536) the plane
returns `NULL`, and each specialised generator then reads `mesh->vertexv` through that
`NULL` pointer instead of returning. -/
theorem specialised_null_deref {α : Type} [LinearOrderedField α] (L : libm α) :
    djgm_load_plane (1 : α) 1 254 254 = .ok none ∧
    djgm_load_disk L (1 : α) 254 254 = .error Fault.null_deref ∧
    djgm_load_sphere L (1 : α) 254 254 = .error Fault.null_deref ∧
    djgm_load_cylinder L (1 : α) 1 254 254 = .error Fault.null_deref ∧
    djgm_load_torus L (1 : α) 254 1 254 = .error Fault.null_deref := by
  have h1 : djgm_load_plane (1 : α) 1 ((254 : Nat) : Int) ((254 : Nat) : Int) = .ok none :=
    load_plane_null (1 : α) 1 (by norm_num) (by norm_num) 254 254 (by norm_num) (by norm_num)
      (by norm_num) (by norm_num)
  have h2 : djgm_load_plane (2 : α) 2 ((254 : Nat) : Int) ((254 : Nat) : Int) = .ok none :=
    load_plane_null (2 : α) 2 (by norm_num) (by norm_num) 254 254 (by norm_num) (by norm_num)
      (by norm_num) (by norm_num)
  simp only [Nat.cast_ofNat] at h1 h2
  have e : add32 254 2 = 256 := by unfold add32 wrap32; decide
  have hu : ∀ f : djgm_vertex α → djgm_vertex α,
      update_vertices (none : Option (djg_mesh α)) 256 256 f = .error Fault.null_deref :=
    fun f => update_vertices_null 256 256 f (by norm_num) (by norm_num)
  have ha1 : DJG_ASSERT (decide ((1 : α) > 0)) = .ok () := assert_true _ (by simp)
  have ha2 : DJG_ASSERT (decide ((1 : α) > 0 ∧ (1 : α) > 0)) = .ok () := assert_true _ (by simp)
  refine ⟨h1, ?_, ?_, ?_, ?_⟩
  · unfold djgm_load_disk
    rw [h2, ha1, bind_ok, bind_ok, e]
    exact hu _
  · unfold djgm_load_sphere
    rw [h1, ha1, bind_ok, bind_ok, e]
    exact hu _
  · unfold djgm_load_cylinder
    rw [h1, ha2, bind_ok, bind_ok, e]
    exact hu _
  · unfold djgm_load_torus
    rw [h1, ha2, bind_ok, bind_ok, e]
    exact hu _

/-! ## Mesh generation: vertices -/

theorem same_topology_of_spec {α : Type} [LinearOrderedField α] (w1 h1 w2 h2 : α) (S T : Nat)
    (mp m : djg_mesh α) (vv : List (Option (djgm_vertex α)))
    (hp : plane_mesh_spec w1 h1 S T mp) (hm : plane_mesh_spec w2 h2 S T m)
    (hl : vv.length = (S + 2) * (T + 2)) :
    same_topology mp { m with vertexv := vv } := by
  obtain ⟨a1, a2, a3, a4, a5, a6, _, a8, a9⟩ := hp
  obtain ⟨b1, b2, b3, _, b5, b6, _, b8, b9⟩ := hm
  refine ⟨by rw [b1, a1], by rw [b2, a2], by rw [b3, a3], ?_, ?_, by rw [a4]; exact hl⟩
  · apply List.ext_getElem?
    intro p
    by_cases hlt : p < 6 * ((T + 1) * (S + 1))
    · show m.poly3v[p]? = mp.poly3v[p]?
      rw [a8 p hlt, b8 p hlt]
    · show m.poly3v[p]? = mp.poly3v[p]?
      rw [List.getElem?_eq_none (by omega), List.getElem?_eq_none (by omega)]
  · apply List.ext_getElem?
    intro p
    by_cases hlt : p < 4 * ((T + 1) * (S + 1))
    · show m.poly4v[p]? = mp.poly4v[p]?
      rw [a9 p hlt, b9 p hlt]
    · show m.poly4v[p]? = mp.poly4v[p]?
      rw [List.getElem?_eq_none (by omega), List.getElem?_eq_none (by omega)]

theorem frame_rel_of_spec {α : Type} [LinearOrderedField α] (w1 h1 w2 h2 : α) (S T : Nat)
    (R : djgm_vertex α → djgm_vertex α → Prop) (f : djgm_vertex α → djgm_vertex α)
    (mp m : djg_mesh α) (vv : List (Option (djgm_vertex α)))
    (hp : plane_mesh_spec w1 h1 S T mp) (hm : plane_mesh_spec w2 h2 S T m)
    (hl : vv.length = (S + 2) * (T + 2))
    (hval : ∀ p, p < (S + 2) * (T + 2) →
      vv[p]? = some (some (f (plane_vertex w2 h2 ((S + 2 : Nat) : Int)
        ((T + 2 : Nat) : Int) ((p / (T + 2) : Nat) : Int) ((p % (T + 2) : Nat) : Int)))))
    (hR : ∀ x z : Int, R (plane_vertex w1 h1 ((S + 2 : Nat) : Int) ((T + 2 : Nat) : Int) x z)
      (f (plane_vertex w2 h2 ((S + 2 : Nat) : Int) ((T + 2 : Nat) : Int) x z))) :
    frame_rel R mp { m with vertexv := vv } := by
  refine ⟨same_topology_of_spec w1 h1 w2 h2 S T mp m vv hp hm hl, ?_⟩
  intro p hlt
  have hlt2 : p < (S + 2) * (T + 2) := by rw [← hp.2.2.2.1]; exact hlt
  exact ⟨_, _, hp.2.2.2.2.2.2.1 p hlt2, hval p hlt2, hR _ _⟩

/-- C17 (amended): for every accepted tessellation, the disk, cylinder and torus meshes
have the vertex count and both index arrays of the plane mesh of the same tessellation,
and at every vertex the same `w` components and the same texture coordinates; the sphere
mesh has them too, except that the texture coordinates `s` and `t` are exchanged. -/
theorem specialised_frame {α : Type} [LinearOrderedField α] (L : libm α) (width height : α)
    (S T : Nat) (hw : 0 < width) (hh : 0 < height) (hvc : (S + 2) * (T + 2) ≤ 65535) :
    ∃ mp : djg_mesh α, djgm_load_plane width height (S : Int) (T : Int) = .ok (some mp) ∧
      (∀ radius : α, 0 < radius → ∃ m,
        djgm_load_disk L radius (S : Int) (T : Int) = .ok (some m) ∧
          frame_rel same_w_and_st mp m) ∧
      (∀ radius : α, 0 < radius → ∃ m,
        djgm_load_sphere L radius (S : Int) (T : Int) = .ok (some m) ∧
          frame_rel same_w_swapped_st mp m) ∧
      (∀ radius height : α, 0 < radius → 0 < height → ∃ m,
        djgm_load_cylinder L radius height (S : Int) (T : Int) = .ok (some m) ∧
          frame_rel same_w_and_st mp m) ∧
      (∀ ring_radius pipe_radius : α, 0 < ring_radius → 0 < pipe_radius → ∃ m,
        djgm_load_torus L ring_radius (S : Int) pipe_radius (T : Int) = .ok (some m) ∧
          frame_rel same_w_and_st mp m) := by
  obtain ⟨mp, hmp, hspec⟩ := load_plane_spec width height hw hh S T hvc
  refine ⟨mp, hmp, ?_, ?_, ?_, ?_⟩
  · intro radius hr
    obtain ⟨m0, vv, _, hspec0, hrun, hl, hval⟩ := load_disk_spec L radius hr S T hvc
    exact ⟨_, hrun, frame_rel_of_spec width height 2 2 S T _ _ mp m0 vv hspec hspec0 hl hval
      (fun x z => ⟨rfl, rfl, rfl, rfl⟩)⟩
  · intro radius hr
    obtain ⟨m0, vv, _, hspec0, hrun, hl, hval⟩ := load_sphere_spec L radius hr S T hvc
    exact ⟨_, hrun, frame_rel_of_spec width height 1 1 S T _ _ mp m0 vv hspec hspec0 hl hval
      (fun x z => ⟨rfl, rfl, rfl, rfl, rfl, rfl, rfl⟩)⟩
  · intro radius cheight hr hch
    obtain ⟨m0, vv, _, hspec0, hrun, hl, hval⟩ := load_cylinder_spec L radius cheight hr hch S T hvc
    exact ⟨_, hrun, frame_rel_of_spec width height 1 1 S T _ _ mp m0 vv hspec hspec0 hl hval
      (fun x z => ⟨rfl, rfl, rfl, rfl⟩)⟩
  · intro r1 r2 hr1 hr2
    obtain ⟨m0, vv, _, hspec0, hrun, hl, hval⟩ := load_torus_spec L r1 r2 hr1 hr2 S T hvc
    exact ⟨_, hrun, frame_rel_of_spec width height 1 1 S T _ _ mp m0 vv hspec hspec0 hl hval
      (fun x z => ⟨rfl, rfl, rfl, rfl⟩)⟩

/-- C17, witness: the unit sphere over the one-cell grid against the unit plane. -/
theorem specialised_frame_witness :
    ∃ mp m : djg_mesh ℝ, djgm_load_plane (1 : ℝ) 1 0 0 = .ok (some mp) ∧
      djgm_load_sphere (⟨Real.sin, Real.cos, Real.sqrt, Real.pi⟩ : libm ℝ) 1 0 0 = .ok (some m) ∧
      frame_rel same_w_swapped_st mp m := by
  obtain ⟨mp, hmp, _, hsphere, _⟩ := specialised_frame
    (⟨Real.sin, Real.cos, Real.sqrt, Real.pi⟩ : libm ℝ) 1 1 0 0 (by norm_num) (by norm_num)
    (by norm_num)
  obtain ⟨m, hm, hrel⟩ := hsphere 1 (by norm_num)
  exact ⟨mp, m, by simpa using hmp, by simpa using hm, hrel⟩

/-- C17, counterexample: in the unit sphere over the one-cell grid the vertex of index 1
has texture coordinates `(s, t) = (1, 0)`, the plane vertex of index 1 has `(0, 1)`. -/
theorem specialised_frame_counterexample :
    ∃ (mp m : djg_mesh ℝ) (vp v : djgm_vertex ℝ),
      djgm_load_plane (1 : ℝ) 1 0 0 = .ok (some mp) ∧
      djgm_load_sphere (⟨Real.sin, Real.cos, Real.sqrt, Real.pi⟩ : libm ℝ) 1 0 0 = .ok (some m) ∧
      mp.vertexv[1]? = some (some vp) ∧ m.vertexv[1]? = some (some v) ∧
      vp.st.s = 0 ∧ vp.st.t = 1 ∧ v.st.s = 1 ∧ v.st.t = 0 ∧ ¬ same_w_and_st vp v := by
  obtain ⟨mp, vv, hmp, hspec, hrun, _, hval⟩ := load_sphere_spec
    (⟨Real.sin, Real.cos, Real.sqrt, Real.pi⟩ : libm ℝ) 1 (by norm_num) 0 0 (by norm_num)
  have e : sub32 ((0 + 2 : Nat) : Int) 1 = 1 := by unfold sub32 wrap32; decide
  have hs : (plane_vertex (1 : ℝ) 1 ((0 + 2 : Nat) : Int) ((0 + 2 : Nat) : Int)
      ((1 / (0 + 2) : Nat) : Int) ((1 % (0 + 2) : Nat) : Int)).st.s = 0 := by
    simp [plane_vertex]
  have ht : (plane_vertex (1 : ℝ) 1 ((0 + 2 : Nat) : Int) ((0 + 2 : Nat) : Int)
      ((1 / (0 + 2) : Nat) : Int) ((1 % (0 + 2) : Nat) : Int)).st.t = 1 := by
    simp only [plane_vertex, e]; norm_num
  refine ⟨mp, _, _, _, by simpa using hmp, by simpa using hrun,
    hspec.2.2.2.2.2.2.1 1 (by norm_num), hval 1 (by norm_num), hs, ht, ht, hs, ?_⟩
  intro hsame
  have h4 := congrArg tex4.s hsame.2.2.2
  have h5 : (sphere_vertex (⟨Real.sin, Real.cos, Real.sqrt, Real.pi⟩ : libm ℝ) 1
      (plane_vertex (1 : ℝ) 1 ((0 + 2 : Nat) : Int) ((0 + 2 : Nat) : Int)
      ((1 / (0 + 2) : Nat) : Int) ((1 % (0 + 2) : Nat) : Int))).st.s = 1 := ht
  rw [h5, hs] at h4
  norm_num at h4

theorem plane_st_range {α : Type} [LinearOrderedField α] (width height : α) (S T x z : Nat)
    (hvc : (S + 2) * (T + 2) ≤ 65535) (hx : x < S + 2) (hz : z < T + 2) :
    (plane_vertex width height ((S + 2 : Nat) : Int) ((T + 2 : Nat) : Int) (x : Int) (z : Int)).st.s
        = (x : α) / ((S : α) + 1) ∧
      (plane_vertex width height ((S + 2 : Nat) : Int) ((T + 2 : Nat) : Int) (x : Int)
        (z : Int)).st.t = (z : α) / ((T : α) + 1) ∧
      (0 : α) ≤ (x : α) / ((S : α) + 1) ∧ (x : α) / ((S : α) + 1) ≤ 1 ∧
      (0 : α) ≤ (z : α) / ((T : α) + 1) ∧ (z : α) / ((T : α) + 1) ≤ 1 := by
  have hS : S + 2 ≤ 65535 := (pad_le S T hvc).1
  have hT : T + 2 ≤ 65535 := (pad_le S T hvc).2
  have e1 : sub32 ((S + 2 : Nat) : Int) 1 = ((S + 1 : Nat) : Int) := by
    rw [sub32_of_bounds _ _ (by omega) (by omega)]; push_cast; ring
  have e2 : sub32 ((T + 2 : Nat) : Int) 1 = ((T + 1 : Nat) : Int) := by
    rw [sub32_of_bounds _ _ (by omega) (by omega)]; push_cast; ring
  have hSpos : (0 : α) < (S : α) + 1 := by positivity
  have hTpos : (0 : α) < (T : α) + 1 := by positivity
  have hxS : (x : α) ≤ (S : α) + 1 := by exact_mod_cast (by omega : x ≤ S + 1)
  have hzT : (z : α) ≤ (T : α) + 1 := by exact_mod_cast (by omega : z ≤ T + 1)
  refine ⟨?_, ?_, by positivity, (div_le_one hSpos).mpr hxS, by positivity,
    (div_le_one hTpos).mpr hzT⟩
  · simp only [plane_vertex, e1]; push_cast; rfl
  · simp only [plane_vertex, e2]; push_cast; rfl

theorem line_starts (pre rest : String) : pre.data.isPrefixOf (pre ++ rest).data = true := by
  rw [String.data_append, List.isPrefixOf_iff_prefix]
  exact List.prefix_append _ _

theorem count_lines_append (pre : String) (a b : List String) :
    count_lines pre (a ++ b) = count_lines pre a + count_lines pre b := by
  unfold count_lines
  exact List.countP_append _ _ _

theorem export_vertex_ok {α : Type} [LinearOrderedField α] (L : libm α) (fmt : α → String)
    (v : djgm_vertex α) (h : 0 < normal_length L v) :
    export_vertex L fmt v = .ok (vertex_lines L fmt v) := by
  have ha : DJG_ASSERT (decide (normal_length L v > 0)) = .ok () := assert_true _ (by simpa using h)
  unfold export_vertex
  rw [ha]

theorem data_v : "v ".data = ['v', ' '] := rfl
theorem data_vn : "vn ".data = ['v', 'n', ' '] := rfl
theorem data_vt : "vt ".data = ['v', 't', ' '] := rfl
theorem data_f : "f ".data = ['f', ' '] := rfl

theorem count_vertex_lines {α : Type} [LinearOrderedField α] (L : libm α) (fmt : α → String)
    (v : djgm_vertex α) :
    count_lines "v " (vertex_lines L fmt v) = 1 ∧ count_lines "vn " (vertex_lines L fmt v) = 1 ∧
      count_lines "vt " (vertex_lines L fmt v) = 1 ∧ count_lines "f " (vertex_lines L fmt v) = 0 := by
  simp [count_lines, vertex_lines, List.countP_cons, String.data_append, data_v, data_vn,
    data_vt, data_f, List.isPrefixOf]

theorem count_face_line (rest : String) :
    count_lines "v " ["f " ++ rest] = 0 ∧ count_lines "vn " ["f " ++ rest] = 0 ∧
      count_lines "vt " ["f " ++ rest] = 0 ∧ count_lines "f " ["f " ++ rest] = 1 := by
  simp [count_lines, List.countP_cons, String.data_append, data_v, data_vn,
    data_vt, data_f, List.isPrefixOf]

theorem count_head_lines :
    count_lines "v " ["# Created by the DJGM library (see dj_opengl.h)", "", "# Vertices"] = 0 ∧
    count_lines "vn " ["# Created by the DJGM library (see dj_opengl.h)", "", "# Vertices"] = 0 ∧
    count_lines "vt " ["# Created by the DJGM library (see dj_opengl.h)", "", "# Vertices"] = 0 ∧
    count_lines "f " ["# Created by the DJGM library (see dj_opengl.h)", "", "# Vertices"] = 0 ∧
    count_lines "v " ["# Topology"] = 0 ∧ count_lines "vn " ["# Topology"] = 0 ∧
    count_lines "vt " ["# Topology"] = 0 ∧ count_lines "f " ["# Topology"] = 0 := by
  refine ⟨?_, ?_, ?_, ?_, ?_, ?_, ?_, ?_⟩ <;> rfl

theorem load_written {β : Type} (a : List (Option β)) (i : Nat) (v : β)
    (h : a[i]? = some (some v)) : load a (i : Int) = .ok v := by
  unfold load
  rw [if_pos (by omega), Int.toNat_natCast, h]

theorem written_at {β : Type} (a : List (Option β)) (hw : ∀ o ∈ a, o ≠ none) (i : Nat)
    (hi : i < a.length) : ∃ v, a[i]? = some (some v) := by
  have hmem : a[i] ∈ a := List.getElem_mem hi
  cases hv : a[i] with
  | none => exact absurd hv (hw _ hmem)
  | some v => exact ⟨v, by rw [List.getElem?_eq_getElem hi, hv]⟩

theorem export_vertex_at_ok {α : Type} [LinearOrderedField α] (L : libm α) (fmt : α → String)
    (vertexv : List (Option (djgm_vertex α))) (i : Nat) (pf : List String) (v : djgm_vertex α)
    (hv : vertexv[i]? = some (some v)) (hn : 0 < normal_length L v) :
    export_vertex_at L fmt vertexv (i : Int) pf = .ok (pf ++ vertex_lines L fmt v) := by
  unfold export_vertex_at
  rw [load_written vertexv i v hv, bind_ok, export_vertex_ok L fmt v hn, bind_ok]

theorem export_face_ok (poly3v : List (Option Nat)) (i : Nat)
    (hlen : poly3v.length < 2147483648) (hw : ∀ o ∈ poly3v, o ≠ none)
    (hi : 3 * i + 2 < poly3v.length) :
    ∃ rest : String, export_face poly3v (i : Int) = .ok ("f " ++ rest) := by
  obtain ⟨a, ha⟩ := written_at poly3v hw (3 * i) (by omega)
  obtain ⟨b, hb⟩ := written_at poly3v hw (3 * i + 1) (by omega)
  obtain ⟨c, hc⟩ := written_at poly3v hw (3 * i + 2) (by omega)
  have e0 : mul32 3 (i : Int) = ((3 * i : Nat) : Int) := by
    rw [mul32_of_bounds _ _ (by omega) (by omega)]; push_cast; ring
  have e1 : add32 ((3 * i : Nat) : Int) 1 = ((3 * i + 1 : Nat) : Int) := by
    rw [add32_of_bounds _ _ (by omega) (by omega)]; push_cast; ring
  have e2 : add32 ((3 * i : Nat) : Int) 2 = ((3 * i + 2 : Nat) : Int) := by
    rw [add32_of_bounds _ _ (by omega) (by omega)]; push_cast; ring
  refine ⟨export_corner a ++ " " ++ export_corner b ++ " " ++ export_corner c, ?_⟩
  unfold export_face
  rw [e0, e1, e2, load_written poly3v _ a ha, bind_ok, load_written poly3v _ b hb, bind_ok,
    load_written poly3v _ c hc, bind_ok]

theorem export_face_at_ok (poly3v : List (Option Nat)) (i : Nat) (pf : List String)
    (hlen : poly3v.length < 2147483648) (hw : ∀ o ∈ poly3v, o ≠ none)
    (hi : 3 * i + 2 < poly3v.length) :
    ∃ rest : String, export_face_at poly3v (i : Int) pf = .ok (pf ++ ["f " ++ rest]) := by
  obtain ⟨rest, h⟩ := export_face_ok poly3v i hlen hw hi
  refine ⟨rest, ?_⟩
  unfold export_face_at
  rw [h, bind_ok]

theorem tdiv_three (n : Nat) : Int.tdiv (n : Int) 3 = ((n / 3 : Nat) : Int) := rfl

theorem export_counts {α : Type} [LinearOrderedField α] (L : libm α) (fmt : α → String)
    (m : djg_mesh α) (h : exportable L m) :
    ∃ file : List String, djgm_export_obj_triangles L fmt true (some m) = .ok (true, file) ∧
      count_lines "v " file = m.vertexv.length ∧ count_lines "vn " file = m.vertexv.length ∧
      count_lines "vt " file = m.vertexv.length ∧ count_lines "f " file = m.poly3v.length / 3 := by
  obtain ⟨hc, hinit, hc3, hw3, hlen3⟩ := h
  obtain ⟨h1, h2, h3, h4, h5, h6, h7, h8⟩ := count_head_lines
  have hloop1 := for_loop_inv (m.vertexv.length : Int) (export_vertex_at L fmt m.vertexv)
    (fun k pf => count_lines "v " pf = k ∧ count_lines "vn " pf = k ∧ count_lines "vt " pf = k ∧
      count_lines "f " pf = 0)
    ["# Created by the DJGM library (see dj_opengl.h)", "", "# Vertices"] ⟨h1, h2, h3, h4⟩
    (by
      intro i pf hi hP
      have hi : i < m.vertexv.length := by exact_mod_cast hi
      obtain ⟨v, hv, hn⟩ := hinit _ (List.getElem_mem hi)
      have hget : m.vertexv[i]? = some (some v) := by rw [List.getElem?_eq_getElem hi, hv]
      obtain ⟨c1, c2, c3, c4⟩ := count_vertex_lines L fmt v
      refine ⟨_, export_vertex_at_ok L fmt m.vertexv i pf v hget hn, ?_, ?_, ?_, ?_⟩
      · rw [count_lines_append, hP.1, c1]
      · rw [count_lines_append, hP.2.1, c2]
      · rw [count_lines_append, hP.2.2.1, c3]
      · rw [count_lines_append, hP.2.2.2, c4])
  obtain ⟨pf1, hrun1, p1, p2, p3, p4⟩ := hloop1
  simp only [Int.toNat_natCast] at p1 p2 p3
  have hloop2 := for_loop_inv ((m.poly3v.length / 3 : Nat) : Int) (export_face_at m.poly3v)
    (fun k pf => count_lines "v " pf = m.vertexv.length ∧
      count_lines "vn " pf = m.vertexv.length ∧ count_lines "vt " pf = m.vertexv.length ∧
      count_lines "f " pf = k)
    (pf1 ++ ["# Topology"])
    ⟨by rw [count_lines_append, p1, h5, Nat.add_zero],
      by rw [count_lines_append, p2, h6, Nat.add_zero],
      by rw [count_lines_append, p3, h7, Nat.add_zero], by rw [count_lines_append, p4, h8]⟩
    (by
      intro i pf hi hP
      have hi : i < m.poly3v.length / 3 := by exact_mod_cast hi
      obtain ⟨rest, hrest⟩ := export_face_at_ok m.poly3v i pf hlen3 hw3 (by omega)
      obtain ⟨c1, c2, c3, c4⟩ := count_face_line rest
      refine ⟨_, hrest, ?_, ?_, ?_, ?_⟩
      · rw [count_lines_append, hP.1, c1, Nat.add_zero]
      · rw [count_lines_append, hP.2.1, c2, Nat.add_zero]
      · rw [count_lines_append, hP.2.2.1, c3, Nat.add_zero]
      · rw [count_lines_append, hP.2.2.2, c4])
  obtain ⟨pf2, hrun2, q1, q2, q3, q4⟩ := hloop2
  simp only [Int.toNat_natCast] at q4
  refine ⟨pf2, ?_, q1, q2, q3, q4⟩
  show (if true = false then (Except.ok (false, []) : Exec (Bool × List String))
    else export_lines L fmt m) = _
  rw [if_neg (by decide)]
  unfold export_lines
  rw [hc, hrun1, bind_ok, hc3, tdiv_three, hrun2, bind_ok]

theorem exportable_of_spec {α : Type} [LinearOrderedField α] (L : libm α) (width height : α)
    (S T : Nat) (hvc : (S + 2) * (T + 2) ≤ 65535) (mp : djg_mesh α)
    (vv : List (Option (djgm_vertex α))) (hspec : plane_mesh_spec width height S T mp)
    (hl : vv.length = (S + 2) * (T + 2))
    (hn : ∀ p, p < (S + 2) * (T + 2) → ∃ v, vv[p]? = some (some v) ∧ 0 < normal_length L v) :
    exportable L { mp with vertexv := vv } := by
  obtain ⟨hc, hc3, _, _, hl3, _, _, hv3, _⟩ := hspec
  have hcells := plane_cells_le S T hvc
  refine ⟨?_, ?_, ?_, ?_, ?_⟩
  · show mp.vertexc = (vv.length : Int)
    rw [hc, hl]
  · intro o ho
    obtain ⟨p, hp, rfl⟩ := List.getElem_of_mem ho
    obtain ⟨v, hv, hpos⟩ := hn p (by rw [← hl]; exact hp)
    rw [List.getElem?_eq_getElem hp] at hv
    exact ⟨v, by simpa using hv, hpos⟩
  · show mp.poly3c = (mp.poly3v.length : Int)
    rw [hc3, hl3]
  · show ∀ o ∈ mp.poly3v, o ≠ none
    refine all_written _ _ (fun p hp => hv3 p (by rw [← hl3]; exact hp)) (fun p hp => ?_)
    have hr : p % 6 < 6 := Nat.mod_lt _ (by omega)
    intro hnone
    have := List.getElem?_eq_none_iff.mp hnone
    simp [cell_triangles] at this
    omega
  · show mp.poly3v.length < 2147483648
    omega

theorem sphere_normal (radius : ℝ) (v : djgm_vertex ℝ) :
    normal_length (⟨Real.sin, Real.cos, Real.sqrt, Real.pi⟩ : libm ℝ)
      (sphere_vertex (⟨Real.sin, Real.cos, Real.sqrt, Real.pi⟩ : libm ℝ) radius v) = 1 := by
  have h1 := Real.sin_sq_add_cos_sq (v.st.s * Real.pi)
  have h2 := Real.sin_sq_add_cos_sq (v.st.t * 2 * Real.pi)
  unfold normal_length
  simp only [sphere_vertex]
  rw [show (Real.cos (v.st.s * Real.pi) * Real.sin (v.st.t * 2 * Real.pi) * 0 -
          -Real.sin (v.st.s * Real.pi) * Real.cos (v.st.t * 2 * Real.pi)) *
        (Real.cos (v.st.s * Real.pi) * Real.sin (v.st.t * 2 * Real.pi) * 0 -
          -Real.sin (v.st.s * Real.pi) * Real.cos (v.st.t * 2 * Real.pi)) +
      (-Real.sin (v.st.s * Real.pi) * -Real.sin (v.st.t * 2 * Real.pi) -
          Real.cos (v.st.s * Real.pi) * Real.cos (v.st.t * 2 * Real.pi) * 0) *
        (-Real.sin (v.st.s * Real.pi) * -Real.sin (v.st.t * 2 * Real.pi) -
          Real.cos (v.st.s * Real.pi) * Real.cos (v.st.t * 2 * Real.pi) * 0) +
      (Real.cos (v.st.s * Real.pi) * Real.cos (v.st.t * 2 * Real.pi) *
            Real.cos (v.st.t * 2 * Real.pi) -
          Real.cos (v.st.s * Real.pi) * Real.sin (v.st.t * 2 * Real.pi) *
            -Real.sin (v.st.t * 2 * Real.pi)) *
        (Real.cos (v.st.s * Real.pi) * Real.cos (v.st.t * 2 * Real.pi) *
            Real.cos (v.st.t * 2 * Real.pi) -
          Real.cos (v.st.s * Real.pi) * Real.sin (v.st.t * 2 * Real.pi) *
            -Real.sin (v.st.t * 2 * Real.pi)) = 1 from by
    linear_combination
      (Real.sin (v.st.s * Real.pi) ^ 2 + Real.cos (v.st.s * Real.pi) ^ 2 *
        (Real.sin (v.st.t * 2 * Real.pi) ^ 2 + Real.cos (v.st.t * 2 * Real.pi) ^ 2 + 1)) * h2 + h1]
  exact Real.sqrt_one

theorem sphere_exportable (radius : ℝ) (hr : 0 < radius) (S T : Nat)
    (hvc : (S + 2) * (T + 2) ≤ 65535) :
    ∃ m : djg_mesh ℝ,
      djgm_load_sphere (⟨Real.sin, Real.cos, Real.sqrt, Real.pi⟩ : libm ℝ) radius (S : Int)
        (T : Int) = .ok (some m) ∧
      exportable (⟨Real.sin, Real.cos, Real.sqrt, Real.pi⟩ : libm ℝ) m ∧
      m.vertexv.length = (S + 2) * (T + 2) ∧ m.poly3v.length = 6 * ((T + 1) * (S + 1)) := by
  obtain ⟨mp, vv, _, hspec, hrun, hl, hval⟩ := load_sphere_spec
    (⟨Real.sin, Real.cos, Real.sqrt, Real.pi⟩ : libm ℝ) radius hr S T hvc
  refine ⟨_, hrun, ?_, hl, hspec.2.2.2.2.1⟩
  refine exportable_of_spec _ 1 1 S T hvc mp vv hspec hl (fun p hp => ⟨_, hval p hp, ?_⟩)
  rw [sphere_normal]
  norm_num

/-- C9 (amended): when the file can be opened, for every mesh whose counts are those of
its arrays, whose cells are all written and whose vertices all have a non-degenerate
normal, `djgm_export_obj_triangles` returns true and writes exactly `vertexc` lines
beginning with `v `, as many beginning with `vn ` and with `vt `, and exactly
`poly3c / 3` lines beginning with `f `; for the unit sphere with `slices = stacks = 8`
that is 100 `v` lines and 162 `f` lines. -/
theorem export_line_counts :
    (∀ (α : Type) [LinearOrderedField α] (L : libm α) (fmt : α → String) (m : djg_mesh α),
      exportable L m →
      ∃ file : List String, djgm_export_obj_triangles L fmt true (some m) = .ok (true, file) ∧
        (count_lines "v " file : Int) = m.vertexc ∧ (count_lines "vn " file : Int) = m.vertexc ∧
        (count_lines "vt " file : Int) = m.vertexc ∧
        (count_lines "f " file : Int) = Int.tdiv m.poly3c 3) ∧
    (∀ fmt : ℝ → String, ∃ (m : djg_mesh ℝ) (file : List String),
      djgm_load_sphere (⟨Real.sin, Real.cos, Real.sqrt, Real.pi⟩ : libm ℝ) 1 8 8 = .ok (some m) ∧
      djgm_export_obj_triangles (⟨Real.sin, Real.cos, Real.sqrt, Real.pi⟩ : libm ℝ) fmt true
        (some m) = .ok (true, file) ∧
      count_lines "v " file = 100 ∧ count_lines "f " file = 162) := by
  constructor
  · intro α _ L fmt m hm
    obtain ⟨file, hrun, c1, c2, c3, c4⟩ := export_counts L fmt m hm
    obtain ⟨hc, _, hc3, _, _⟩ := hm
    exact ⟨file, hrun, by rw [c1, hc], by rw [c2, hc], by rw [c3, hc],
      by rw [c4, hc3, tdiv_three]⟩
  · intro fmt
    obtain ⟨m, hm, hexp, hl, hl3⟩ := sphere_exportable 1 (by norm_num) 8 8 (by norm_num)
    obtain ⟨file, hrun, c1, _, _, c4⟩ := export_counts _ fmt m hexp
    exact ⟨m, file, by simpa using hm, hrun, by rw [c1, hl], by rw [c4, hl3]⟩

/-- C9, witness: the export of the unit sphere with `slices = stacks = 8`. -/
theorem export_line_counts_witness :
    ∃ (m : djg_mesh ℝ) (file : List String),
      djgm_load_sphere (⟨Real.sin, Real.cos, Real.sqrt, Real.pi⟩ : libm ℝ) 1 8 8 = .ok (some m) ∧
      djgm_export_obj_triangles (⟨Real.sin, Real.cos, Real.sqrt, Real.pi⟩ : libm ℝ)
        (fun _ => "0.000000") true (some m) = .ok (true, file) ∧
      count_lines "v " file = 100 ∧ count_lines "f " file = 162 :=
  export_line_counts.2 (fun _ => "0.000000")

/-- C9, counterexample: when `fopen` fails, the export of the one-cell plane (4 vertices)
returns false and writes no line at all. -/
theorem export_line_counts_counterexample :
    ∃ m : djg_mesh ℚ, djgm_load_plane (1 : ℚ) 1 0 0 = .ok (some m) ∧ m.vertexc = 4 ∧
      djgm_export_obj_triangles (⟨id, id, id, 0⟩ : libm ℚ) (fun _ => "0.000000") false (some m)
        = .ok (false, []) ∧
      count_lines "v " [] = 0 := by
  obtain ⟨m, hm, hspec⟩ := load_plane_spec (1 : ℚ) 1 (by norm_num) (by norm_num) 0 0
    (by norm_num)
  exact ⟨m, by simpa using hm, by rw [hspec.1]; norm_num, rfl, rfl⟩

theorem for_loop_error_at {σ : Type} (n : Int) (k : Nat) (body : Int → σ → Exec σ) (s : σ)
    (e : Fault) (hk : (k : Int) < n) (hpre : ∃ sk, for_loop (k : Int) body s = .ok sk)
    (herr : ∀ sk, body (k : Int) sk = .error e) : for_loop n body s = .error e := by
  obtain ⟨sk, hsk⟩ := hpre
  unfold for_loop at hsk ⊢
  rw [Int.toNat_natCast] at hsk
  obtain ⟨r, hr⟩ : ∃ r, n.toNat = k + (r + 1) := ⟨n.toNat - k - 1, by omega⟩
  rw [hr, List.range_add, List.foldlM_append, hsk, List.range_succ_eq_map, List.map_cons,
    bind_ok, List.foldlM_cons]
  have h0 : body (Int.ofNat (k + 0)) sk = .error e := herr sk
  rw [h0]
  rfl

theorem disk_rho_ne_zero (r1 r2 : ℝ) (h : ¬ (r1 = 0 ∧ r2 = 0)) :
    (if r1 = 0 ∧ r2 = 0 then (0 : ℝ) else if r1 * r1 > r2 * r2 then r1 else r2) ≠ 0 := by
  rw [if_neg h]
  split_ifs with h2
  · intro h0; rw [h0] at h2; nlinarith [mul_self_nonneg r2]
  · intro h0
    apply h
    refine ⟨?_, h0⟩
    rw [h0] at h2
    have : r1 * r1 ≤ 0 := by linarith
    nlinarith [mul_self_nonneg r1]

theorem disk_normal (radius : ℝ) (v : djgm_vertex ℝ) :
    normal_length (⟨Real.sin, Real.cos, Real.sqrt, Real.pi⟩ : libm ℝ)
      (disk_vertex (⟨Real.sin, Real.cos, Real.sqrt, Real.pi⟩ : libm ℝ) radius v) =
    |if 2 * v.st.s - 1 = 0 ∧ 2 * v.st.t - 1 = 0 then (0 : ℝ)
      else if (2 * v.st.s - 1) * (2 * v.st.s - 1) > (2 * v.st.t - 1) * (2 * v.st.t - 1)
        then 2 * v.st.s - 1 else 2 * v.st.t - 1| := by
  unfold normal_length
  simp only [disk_vertex]
  generalize (if 2 * v.st.s - 1 = 0 ∧ 2 * v.st.t - 1 = 0 then (0 : ℝ)
      else if (2 * v.st.s - 1) * (2 * v.st.s - 1) > (2 * v.st.t - 1) * (2 * v.st.t - 1)
        then 2 * v.st.s - 1 else 2 * v.st.t - 1) = rho
  generalize (if 2 * v.st.s - 1 = 0 ∧ 2 * v.st.t - 1 = 0 then (0 : ℝ)
      else if (2 * v.st.s - 1) * (2 * v.st.s - 1) > (2 * v.st.t - 1) * (2 * v.st.t - 1) then
        Real.pi / 4 * ((2 * v.st.t - 1) / (2 * v.st.s - 1))
      else Real.pi / 2 - (2 * v.st.s - 1) / (2 * v.st.t - 1) * (Real.pi / 4)) = phi
  have h1 := Real.sin_sq_add_cos_sq phi
  rw [← Real.sqrt_sq_eq_abs]
  congr 1
  linear_combination (rho ^ 2 * (Real.sin phi ^ 2 + Real.cos phi ^ 2 + 1)) * h1

theorem assert_false (c : Bool) (h : c = false) : DJG_ASSERT c = .error Fault.assertion := by
  subst h; rfl

theorem export_vertex_degenerate {α : Type} [LinearOrderedField α] (L : libm α)
    (fmt : α → String) (v : djgm_vertex α) (h : normal_length L v = 0) :
    export_vertex L fmt v = .error Fault.assertion := by
  have ha : DJG_ASSERT (decide (normal_length L v > 0)) = .error Fault.assertion :=
    assert_false _ (by rw [h]; simp)
  unfold export_vertex
  rw [ha]

theorem export_vertex_at_degenerate {α : Type} [LinearOrderedField α] (L : libm α)
    (fmt : α → String) (vertexv : List (Option (djgm_vertex α))) (i : Nat) (pf : List String)
    (v : djgm_vertex α) (hv : vertexv[i]? = some (some v)) (hn : normal_length L v = 0) :
    export_vertex_at L fmt vertexv (i : Int) pf = .error Fault.assertion := by
  unfold export_vertex_at
  rw [load_written vertexv i v hv, bind_ok, export_vertex_degenerate L fmt v hn]
  rfl

/-- C23, failing input: in the unit disk with `slices = stacks = 1` the centre vertex
(index 4) has a zero bitangent, so the cross product of its tangents has length 0, and
`djgm_export_obj_triangles` stops in its `Invalid normal` assertion on that mesh. -/
theorem disk_centre_degenerate (fmt : ℝ → String) :
    ∃ (m : djg_mesh ℝ) (v : djgm_vertex ℝ),
      djgm_load_disk (⟨Real.sin, Real.cos, Real.sqrt, Real.pi⟩ : libm ℝ) 1 1 1 = .ok (some m) ∧
      m.vertexv[4]? = some (some v) ∧
      v.dpdt.x = 0 ∧ v.dpdt.y = 0 ∧ v.dpdt.z = 0 ∧
      normal_length (⟨Real.sin, Real.cos, Real.sqrt, Real.pi⟩ : libm ℝ) v = 0 ∧
      djgm_export_obj_triangles (⟨Real.sin, Real.cos, Real.sqrt, Real.pi⟩ : libm ℝ) fmt true
        (some m) = .error Fault.assertion := by
  obtain ⟨mp, vv, _, hspec, hrun, hl, hval⟩ := load_disk_spec
    (⟨Real.sin, Real.cos, Real.sqrt, Real.pi⟩ : libm ℝ) 1 (by norm_num) 1 1 (by norm_num)
  have hst : ∀ p, p < 9 → ∃ v0 : djgm_vertex ℝ,
      vv[p]? = some (some (disk_vertex (⟨Real.sin, Real.cos, Real.sqrt, Real.pi⟩ : libm ℝ) 1 v0)) ∧
      v0.st.s = ((p / 3 : Nat) : ℝ) / 2 ∧ v0.st.t = ((p % 3 : Nat) : ℝ) / 2 := by
    intro p hp
    obtain ⟨es, et, _⟩ := plane_st_range (2 : ℝ) 2 1 1 (p / 3) (p % 3) (by norm_num)
      (by omega) (by omega)
    refine ⟨_, hval p (by omega), ?_, ?_⟩
    · rw [es]; norm_num
    · rw [et]; norm_num
  obtain ⟨v4, hv4, hs4, ht4⟩ := hst 4 (by norm_num)
  have hs4b : 2 * v4.st.s - 1 = 0 := by rw [hs4]; norm_num
  have ht4b : 2 * v4.st.t - 1 = 0 := by rw [ht4]; norm_num
  have hrho : (if 2 * v4.st.s - 1 = 0 ∧ 2 * v4.st.t - 1 = 0 then (0 : ℝ)
      else if (2 * v4.st.s - 1) * (2 * v4.st.s - 1) > (2 * v4.st.t - 1) * (2 * v4.st.t - 1)
        then 2 * v4.st.s - 1 else 2 * v4.st.t - 1) = 0 := if_pos ⟨hs4b, ht4b⟩
  have hn4 : normal_length (⟨Real.sin, Real.cos, Real.sqrt, Real.pi⟩ : libm ℝ)
      (disk_vertex (⟨Real.sin, Real.cos, Real.sqrt, Real.pi⟩ : libm ℝ) 1 v4) = 0 := by
    rw [disk_normal, hrho, abs_zero]
  refine ⟨_, _, hrun, hv4, ?_, ?_, rfl, hn4, ?_⟩
  · show -(if 2 * v4.st.s - 1 = 0 ∧ 2 * v4.st.t - 1 = 0 then (0 : ℝ)
      else if (2 * v4.st.s - 1) * (2 * v4.st.s - 1) > (2 * v4.st.t - 1) * (2 * v4.st.t - 1)
        then 2 * v4.st.s - 1 else 2 * v4.st.t - 1) * Real.sin _ = 0
    rw [hrho]; ring
  · show (if 2 * v4.st.s - 1 = 0 ∧ 2 * v4.st.t - 1 = 0 then (0 : ℝ)
      else if (2 * v4.st.s - 1) * (2 * v4.st.s - 1) > (2 * v4.st.t - 1) * (2 * v4.st.t - 1)
        then 2 * v4.st.s - 1 else 2 * v4.st.t - 1) * Real.cos _ = 0
    rw [hrho]; ring
  · show (if true = false then (Except.ok (false, []) : Exec (Bool × List String))
      else export_lines _ fmt { mp with vertexv := vv }) = _
    rw [if_neg (by decide)]
    unfold export_lines
    have hc : ({ mp with vertexv := vv } : djg_mesh ℝ).vertexc = 9 := by
      show mp.vertexc = 9
      rw [hspec.1]; norm_num
    have hloop : for_loop 9 (export_vertex_at (⟨Real.sin, Real.cos, Real.sqrt, Real.pi⟩ : libm ℝ)
        fmt vv) ["# Created by the DJGM library (see dj_opengl.h)", "", "# Vertices"]
        = .error Fault.assertion := by
      apply for_loop_error_at 9 4 _ _ _ (by norm_num)
      · obtain ⟨s1, h1, _⟩ := for_loop_inv ((4 : Nat) : Int)
          (export_vertex_at (⟨Real.sin, Real.cos, Real.sqrt, Real.pi⟩ : libm ℝ) fmt vv)
          (fun _ _ => True)
          ["# Created by the DJGM library (see dj_opengl.h)", "", "# Vertices"] trivial
          (by
            intro i pf hi _
            have hi : i < 4 := by exact_mod_cast hi
            obtain ⟨v0, hv0, hs0, ht0⟩ := hst i (by omega)
            refine ⟨_, export_vertex_at_ok _ fmt vv i pf _ hv0 ?_, trivial⟩
            rw [disk_normal]
            apply abs_pos.mpr
            apply disk_rho_ne_zero
            rintro ⟨ha, hb⟩
            have hcase : i / 3 = 0 ∨ i % 3 = 0 := by omega
            rcases hcase with h0 | h0
            · rw [hs0, h0] at ha; norm_num at ha
            · rw [ht0, h0] at hb; norm_num at hb)
        exact ⟨s1, h1⟩
      · intro sk
        exact export_vertex_at_degenerate _ fmt vv 4 sk _ hv4 hn4
    show (for_loop ({ mp with vertexv := vv } : djg_mesh ℝ).vertexc _ _ >>= _) = _
    rw [hc, hloop]
    rfl

/-! ## Stream buffer -/

theorem upload_orphan (b : djg_buffer) (mapped : Bool)
    (h : add32 b.offset b.size > b.capacity) :
    djgb_gl_upload b mapped =
      if mapped = false then
        { ret := false, offset := none, buffer := { b with offset := 0 }, orphaned := true,
          calls := [gl_call.glBindBuffer b.gl, gl_call.glBufferData b.capacity,
            gl_call.glBindBuffer 0, gl_call.glBindBuffer b.gl, gl_call.glMapBufferRange 0 b.size] }
      else
        { ret := true, offset := some 0, buffer := { b with offset := add32 0 b.size },
          orphaned := true,
          calls := [gl_call.glBindBuffer b.gl, gl_call.glBufferData b.capacity,
            gl_call.glBindBuffer 0, gl_call.glBindBuffer b.gl, gl_call.glMapBufferRange 0 b.size,
            gl_call.glUnmapBuffer] } := by
  unfold djgb_gl_upload
  simp [h]

theorem upload_no_orphan (b : djg_buffer) (mapped : Bool)
    (h : ¬ add32 b.offset b.size > b.capacity) :
    djgb_gl_upload b mapped =
      if mapped = false then
        { ret := false, offset := none, buffer := b, orphaned := false,
          calls := [gl_call.glBindBuffer b.gl, gl_call.glMapBufferRange b.offset b.size] }
      else
        { ret := true, offset := some b.offset,
          buffer := { b with offset := add32 b.offset b.size }, orphaned := false,
          calls := [gl_call.glBindBuffer b.gl, gl_call.glMapBufferRange b.offset b.size,
            gl_call.glUnmapBuffer] } := by
  unfold djgb_gl_upload
  simp [h]

theorem succ_mod_cases (j K : Nat) (hK : 1 < K) :
    (j % K + 1 = K ∧ (j + 1) % K = 0) ∨ (j % K + 1 < K ∧ (j + 1) % K = j % K + 1) := by
  have hlt : j % K < K := Nat.mod_lt _ (by omega)
  by_cases h : j % K + 1 = K
  · left
    refine ⟨h, ?_⟩
    rw [Nat.add_mod, Nat.mod_eq_of_lt hK, h, Nat.mod_self]
  · right
    refine ⟨by omega, ?_⟩
    rw [Nat.add_mod, Nat.mod_eq_of_lt hK, Nat.mod_eq_of_lt (by omega)]

theorem ring_facts (C s : Nat) (hs : 0 < s) (h8 : 8 * s < C) :
    8 ≤ C / s ∧ C / s * s ≤ C ∧ C < C / s * s + s := by
  refine ⟨?_, Nat.div_mul_le_self C s, Nat.lt_div_mul_add hs⟩
  rw [Nat.le_div_iff_mul_le hs]
  omega

theorem upload_step_ok (C s j : Nat) (b : djg_buffer) (hs : 0 < s) (h8 : 8 * s < C)
    (hC : C + s < 2147483648) (hinv : ring_inv C s j b) :
    (djgb_gl_upload b true).ret = true ∧
    (djgb_gl_upload b true).offset = some ((j % (C / s) * s : Nat) : Int) ∧
    ring_inv C s (j + 1) (djgb_gl_upload b true).buffer ∧
    (djgb_gl_upload b true).buffer.offset ≠ 0 ∧
    ((djgb_gl_upload b true).orphaned = true ↔ (j % (C / s) = 0 ∧ b.offset ≠ 0)) := by
  obtain ⟨hcap, hsize, h0, h1⟩ := hinv
  obtain ⟨hK8, hKle, hKlt⟩ := ring_facts C s hs h8
  have hs0 : add32 0 (s : Int) = (s : Int) := by
    rw [add32_of_bounds _ _ (by omega) (by omega)]; ring
  rcases succ_mod_cases j (C / s) (by omega) with ⟨hq, hnext⟩ | ⟨hq, hnext⟩
  · -- last slot: `j % K = K - 1`
    have hne : j % (C / s) ≠ 0 := by omega
    have hoff := h1 hne
    have hmul : (j % (C / s) + 1) * s = C / s * s := by rw [hq]
    have hmul2 : (j % (C / s) + 1) * s = j % (C / s) * s + s := by ring
    have hadd : add32 b.offset b.size = ((j % (C / s) * s + s : Nat) : Int) := by
      rw [hoff, hsize, add32_of_bounds _ _ (by omega) (by omega)]; push_cast; ring
    have hno : ¬ add32 b.offset b.size > b.capacity := by rw [hadd, hcap]; omega
    rw [upload_no_orphan b true hno]
    simp only [Bool.true_eq_false, if_false]
    refine ⟨trivial, by rw [hoff], ⟨hcap, hsize, fun _ => Or.inr ?_, fun h => absurd hnext h⟩,
      ?_, ?_⟩
    · show 0 ≤ add32 b.offset b.size ∧ add32 b.offset b.size ≤ (C : Int) ∧
        (C : Int) < add32 b.offset b.size + (s : Int)
      rw [hadd]; omega
    · show add32 b.offset b.size ≠ 0
      rw [hadd]; omega
    · constructor
      · intro h; exact absurd h (by decide)
      · intro h; exact absurd h.1 hne
  · by_cases hz : j % (C / s) = 0
    · -- slot 0
      have hcase := h0 hz
      have hnew : ((j + 1) % (C / s) * s : Nat) = s := by rw [hnext, hz]; ring
      rcases hcase with hoff | ⟨hlo, hle, hgt⟩
      · have hadd : add32 b.offset b.size = (s : Int) := by rw [hoff, hsize, hs0]
        have hno : ¬ add32 b.offset b.size > b.capacity := by rw [hadd, hcap]; omega
        rw [upload_no_orphan b true hno]
        simp only [Bool.true_eq_false, if_false]
        refine ⟨trivial, by rw [hoff, hz]; simp,
          ⟨hcap, hsize, fun h => absurd h (by omega), fun _ => ?_⟩, ?_, ?_⟩
        · show add32 b.offset b.size = _
          rw [hadd, hnew]
        · show add32 b.offset b.size ≠ 0
          rw [hadd]; omega
        · constructor
          · intro h; exact absurd h (by decide)
          · intro h; exact absurd hoff h.2
      · have hadd : add32 b.offset b.size = b.offset + (s : Int) := by
          rw [hsize, add32_of_bounds _ _ (by omega) (by omega)]
        have hyes : add32 b.offset b.size > b.capacity := by rw [hadd, hcap]; omega
        rw [upload_orphan b true hyes]
        simp only [Bool.true_eq_false, if_false]
        refine ⟨trivial, by rw [hz]; simp,
          ⟨hcap, hsize, fun h => absurd h (by omega), fun _ => ?_⟩, ?_, ?_⟩
        · show add32 0 b.size = _
          rw [hsize, hs0, hnew]
        · show add32 0 b.size ≠ 0
          rw [hsize, hs0]; omega
        · constructor
          · intro _; exact ⟨hz, by omega⟩
          · intro _; trivial
    · -- inner slot
      have hoff := h1 hz
      have hmul : (j % (C / s) + 1) * s ≤ C / s * s := Nat.mul_le_mul_right s (by omega)
      have hmul2 : (j % (C / s) + 1) * s = j % (C / s) * s + s := by ring
      have hadd : add32 b.offset b.size = ((j % (C / s) * s + s : Nat) : Int) := by
        rw [hoff, hsize, add32_of_bounds _ _ (by omega) (by omega)]; push_cast; ring
      have hno : ¬ add32 b.offset b.size > b.capacity := by rw [hadd, hcap]; omega
      rw [upload_no_orphan b true hno]
      simp only [Bool.true_eq_false, if_false]
      refine ⟨trivial, by rw [hoff],
        ⟨hcap, hsize, fun h => absurd h (by omega), fun _ => ?_⟩, ?_, ?_⟩
      · show add32 b.offset b.size = _
        rw [hadd, hnext, ← hmul2]
      · show add32 b.offset b.size ≠ 0
        rw [hadd]; omega
      · constructor
        · intro h; exact absurd h (by decide)
        · intro h; exact absurd h.1 hz

theorem upload_step_fail (C s j : Nat) (b : djg_buffer) (hs : 0 < s) (h8 : 8 * s < C)
    (hC : C + s < 2147483648) (hinv : ring_inv C s j b) :
    (djgb_gl_upload b false).ret = false ∧ (djgb_gl_upload b false).offset = none ∧
    ring_inv C s j (djgb_gl_upload b false).buffer := by
  obtain ⟨hcap, hsize, h0, h1⟩ := hinv
  by_cases hyes : add32 b.offset b.size > b.capacity
  · rw [upload_orphan b false hyes]
    simp only [if_true]
    refine ⟨trivial, trivial, hcap, hsize, fun _ => Or.inl rfl, fun hz => ?_⟩
    exfalso
    obtain ⟨hK8, hKle, hKlt⟩ := ring_facts C s hs h8
    have hoff := h1 hz
    have hlt : j % (C / s) < C / s := Nat.mod_lt _ (by omega)
    have hmul : (j % (C / s) + 1) * s ≤ C / s * s := Nat.mul_le_mul_right s (by omega)
    have hmul2 : (j % (C / s) + 1) * s = j % (C / s) * s + s := by ring
    have hadd : add32 b.offset b.size = ((j % (C / s) * s + s : Nat) : Int) := by
      rw [hoff, hsize, add32_of_bounds _ _ (by omega) (by omega)]; push_cast; ring
    rw [hadd, hcap] at hyes
    omega
  · rw [upload_no_orphan b false hyes]
    simp only [if_true]
    exact ⟨trivial, trivial, hcap, hsize, h0, h1⟩

theorem create_ok (data_size : Int) (name : Nat) (h1 : 0 < data_size) (h2 : 8 * data_size < 1048576) :
    djgb_create data_size name =
      .ok { gl := name, capacity := 1048576, size := data_size, offset := 1048576 } := by
  have hm : mul32 8 data_size = 8 * data_size := mul32_of_bounds _ _ (by omega) (by omega)
  have ha : DJG_ASSERT (decide (data_size > 0) && decide ((1048576 : Int) > mul32 8 data_size))
      = .ok () := assert_true _ (by rw [hm]; simp; omega)
  unfold djgb_create
  simp only [ha]

theorem create_inv (s : Nat) (name : Nat) (hs : 0 < s) (h8 : 8 * s < 1048576) :
    ∃ b, djgb_create (s : Int) name = .ok b ∧ ring_inv 1048576 s 0 b ∧ b.offset = 1048576 ∧
      b.capacity = 1048576 ∧ b.size = (s : Int) := by
  refine ⟨_, create_ok (s : Int) name (by omega) (by omega), ⟨rfl, rfl, fun _ => Or.inr ?_, ?_⟩,
    rfl, rfl, rfl⟩
  · show (0 : Int) ≤ 1048576 ∧ (1048576 : Int) ≤ ((1048576 : Nat) : Int) ∧
      ((1048576 : Nat) : Int) < 1048576 + (s : Int)
    omega
  · intro h
    exact absurd (Nat.zero_mod _) h

theorem uploads_cons (b : djg_buffer) (m : Bool) (ms : List Bool) :
    djgb_uploads b (m :: ms) = djgb_gl_upload b m :: djgb_uploads (djgb_gl_upload b m).buffer ms :=
  rfl

theorem uploads_all_mapped (C s : Nat) (hs : 0 < s) (h8 : 8 * s < C) (hC : C + s < 2147483648) :
    ∀ (N j : Nat) (b : djg_buffer), ring_inv C s j b → b.offset ≠ 0 →
      ∀ n, n < N →
        ∃ r, (djgb_uploads b (List.replicate N true))[n]? = some r ∧ r.ret = true ∧
          r.offset = some (((j + n) % (C / s) * s : Nat) : Int) ∧
          (r.orphaned = true ↔ r.offset = some 0) := by
  intro N
  induction N with
  | zero => intro j b _ _ n hn; omega
  | succ N ih =>
    intro j b hinv hb n hn
    obtain ⟨hret, hoff, hinv1, hne1, horph⟩ := upload_step_ok C s j b hs h8 hC hinv
    cases n with
    | zero =>
      refine ⟨djgb_gl_upload b true, ?_, hret, by simpa using hoff, ?_⟩
      · rw [List.replicate_succ, uploads_cons, List.getElem?_cons_zero]
      rw [horph, hoff]
      constructor
      · intro h; rw [h.1]; simp
      · intro h
        have h0 : ((j % (C / s) * s : Nat) : Int) = 0 := by simpa using h
        have h1 : j % (C / s) * s = 0 := by exact_mod_cast h0
        rcases Nat.mul_eq_zero.mp h1 with h2 | h2
        · exact ⟨h2, hb⟩
        · omega
    | succ n =>
      obtain ⟨r, hr, h1, h2, h3⟩ := ih (j + 1) _ hinv1 hne1 n (by omega)
      refine ⟨r, ?_, h1, ?_, h3⟩
      · rw [List.replicate_succ, uploads_cons, List.getElem?_cons_succ]; exact hr
      · rw [h2]
        have : j + 1 + n = j + (n + 1) := by ring
        rw [this]

/-- C3: for a stream buffer created with chunk size `s` (`0 < s`, `8 * s < C` for the
capacity `C = 2^20` that `djgb_create` gives), when every mapping succeeds, the `n`-th
upload (`n = 0, 1, ...`) returns true and the offset `(n mod (C / s)) * s`, and it
orphans the backing store exactly when the offset it returns is 0. -/
theorem upload_offsets (s N n name : Nat) (hs : 0 < s) (h8 : 8 * s < 1048576) (hn : n < N) :
    ∃ b r, djgb_create (s : Int) name = .ok b ∧ b.capacity = 1048576 ∧
      (djgb_uploads b (List.replicate N true))[n]? = some r ∧ r.ret = true ∧
      r.offset = some ((n % (1048576 / s) * s : Nat) : Int) ∧
      (r.orphaned = true ↔ r.offset = some 0) := by
  obtain ⟨b, hb, hinv, hoff, hcap, _⟩ := create_inv s name hs h8
  obtain ⟨r, hr, h1, h2, h3⟩ := uploads_all_mapped 1048576 s hs h8 (by omega) N 0 b hinv
    (by rw [hoff]; norm_num) n hn
  exact ⟨b, r, hb, hcap, hr, h1, by simpa using h2, h3⟩

/-- C3, witness: the ninth upload (`n = 8`) of chunks of 131071 bytes wraps to offset 0. -/
theorem upload_offsets_witness :
    ∃ b r, djgb_create 131071 7 = .ok b ∧
      (djgb_uploads b (List.replicate 9 true))[8]? = some r ∧ r.offset = some 0 ∧
      r.orphaned = true := by
  obtain ⟨b, r, hb, _, hr, _, hoff, horph⟩ := upload_offsets 131071 9 8 7 (by norm_num)
    (by norm_num) (by norm_num)
  have h0 : r.offset = some 0 := by rw [hoff]; norm_num
  exact ⟨b, r, hb, hr, h0, horph.mpr h0⟩

theorem ring_inv_bounds (C s j : Nat) (b : djg_buffer) (hs : 0 < s) (h8 : 8 * s < C)
    (hinv : ring_inv C s j b) : 0 ≤ b.offset ∧ b.offset ≤ (C : Int) := by
  obtain ⟨_, _, h0, h1⟩ := hinv
  obtain ⟨hK8, hKle, _⟩ := ring_facts C s hs h8
  by_cases hz : j % (C / s) = 0
  · rcases h0 hz with h | h
    · rw [h]; omega
    · exact ⟨h.1, h.2.1⟩
  · rw [h1 hz]
    have hlt : j % (C / s) < C / s := Nat.mod_lt _ (by omega)
    have hle : j % (C / s) * s ≤ C / s * s := Nat.mul_le_mul_right s (by omega)
    constructor
    · exact Int.natCast_nonneg _
    · exact_mod_cast le_trans hle hKle

/-- One upload, mapped or not: the calls it makes and the cursor it leaves. -/
theorem upload_step_any (C s j : Nat) (b : djg_buffer) (m : Bool) (hs : 0 < s) (h8 : 8 * s < C)
    (hC : C + s < 2147483648) (hinv : ring_inv C s j b) :
    ∃ o : Int, 0 ≤ o ∧ o + (s : Int) ≤ (C : Int) ∧
      (djgb_gl_upload b m).calls =
        (if (djgb_gl_upload b m).orphaned = true then
          [gl_call.glBindBuffer b.gl, gl_call.glBufferData (C : Int), gl_call.glBindBuffer 0]
         else []) ++
        [gl_call.glBindBuffer b.gl, gl_call.glMapBufferRange o (s : Int)] ++
        (if m = true then [gl_call.glUnmapBuffer] else []) ∧
      ((djgb_gl_upload b m).orphaned = false → o = b.offset) ∧
      ((djgb_gl_upload b m).orphaned = true → o = 0) ∧
      0 ≤ (djgb_gl_upload b m).buffer.offset ∧
      (djgb_gl_upload b m).buffer.offset ≤ (C : Int) ∧
      (djgb_gl_upload b m).buffer.capacity = (C : Int) ∧
      (djgb_gl_upload b m).ret = m := by
  obtain ⟨hb0, hb1⟩ := ring_inv_bounds C s j b hs h8 hinv
  obtain ⟨hcap, hsize, _, _⟩ := hinv
  have hs0 : add32 0 (s : Int) = (s : Int) := by
    rw [add32_of_bounds _ _ (by omega) (by omega)]; ring
  have hadd : add32 b.offset b.size = b.offset + (s : Int) := by
    rw [hsize, add32_of_bounds _ _ (by omega) (by omega)]
  have hadd2 : add32 b.offset (s : Int) = b.offset + (s : Int) := by
    rw [add32_of_bounds _ _ (by omega) (by omega)]
  by_cases hyes : add32 b.offset b.size > b.capacity
  · rw [upload_orphan b m hyes]
    refine ⟨0, le_refl _, by omega, ?_⟩
    cases m
    · refine ⟨?_, ?_, ?_, ?_, ?_, ?_, ?_⟩ <;>
        first
        | (simp [hcap, hsize, hs0]; done)
        | (simp [hcap, hsize, hs0]; omega)
    · refine ⟨?_, ?_, ?_, ?_, ?_, ?_, ?_⟩ <;>
        first
        | (simp [hcap, hsize, hs0]; done)
        | (simp [hcap, hsize, hs0]; omega)
  · rw [upload_no_orphan b m hyes]
    rw [hadd, hcap] at hyes
    refine ⟨b.offset, hb0, by omega, ?_⟩
    cases m
    · refine ⟨?_, ?_, ?_, ?_, ?_, ?_, ?_⟩ <;>
        first
        | (simp [hcap, hsize, hadd2]; done)
        | (simp [hcap, hsize, hadd2]; omega)
    · refine ⟨?_, ?_, ?_, ?_, ?_, ?_, ?_⟩ <;>
        first
        | (simp [hcap, hsize, hadd2]; done)
        | (simp [hcap, hsize, hadd2]; omega)

theorem upload_step_inv (C s j : Nat) (b : djg_buffer) (m : Bool) (hs : 0 < s) (h8 : 8 * s < C)
    (hC : C + s < 2147483648) (hinv : ring_inv C s j b) :
    ring_inv C s (j + (if m = true then 1 else 0)) (djgb_gl_upload b m).buffer := by
  cases m
  · exact (upload_step_fail C s j b hs h8 hC hinv).2.2
  · exact (upload_step_ok C s j b hs h8 hC hinv).2.2.1

theorem upload_gl (b : djg_buffer) (m : Bool) : (djgb_gl_upload b m).buffer.gl = b.gl := by
  by_cases hyes : add32 b.offset b.size > b.capacity
  · rw [upload_orphan b m hyes]; cases m <;> rfl
  · rw [upload_no_orphan b m hyes]; cases m <;> rfl

/-- Every result of a sequence of uploads is one call of `djgb_gl_upload` on a buffer in
ring state, after as many successful uploads as there are successes before it. -/
theorem uploads_run (C s : Nat) (hs : 0 < s) (h8 : 8 * s < C) (hC : C + s < 2147483648) :
    ∀ (flags : List Bool) (j : Nat) (b : djg_buffer), ring_inv C s j b →
      ∀ (i : Nat) (r : upload_result), (djgb_uploads b flags)[i]? = some r →
        ∃ m b1, flags[i]? = some m ∧ ring_inv C s (j + (flags.take i).count true) b1 ∧
          r = djgb_gl_upload b1 m ∧ b1.gl = b.gl := by
  intro flags
  induction flags with
  | nil =>
    intro j b _ i r hr
    have : djgb_uploads b [] = [] := rfl
    rw [this] at hr
    simp at hr
  | cons m ms ih =>
    intro j b hinv i r hr
    rw [uploads_cons] at hr
    cases i with
    | zero =>
      rw [List.getElem?_cons_zero] at hr
      refine ⟨m, b, List.getElem?_cons_zero, ?_, ?_, rfl⟩
      · simpa using hinv
      · exact (Option.some.inj hr).symm
    | succ i =>
      rw [List.getElem?_cons_succ] at hr
      obtain ⟨m1, b1, h1, h2, h3, h4⟩ := ih _ _ (upload_step_inv C s j b m hs h8 hC hinv) i r hr
      refine ⟨m1, b1, by rw [List.getElem?_cons_succ]; exact h1, ?_, h3, by rw [h4, upload_gl]⟩
      have hcount : (List.take (i + 1) (m :: ms)).count true =
          (if m = true then 1 else 0) + (ms.take i).count true := by
        rw [List.take_succ_cons, List.count_cons]
        cases m <;> simp [Nat.add_comm]
      rw [hcount, ← Nat.add_assoc]
      exact h2

theorem uploads_length (b : djg_buffer) (flags : List Bool) :
    (djgb_uploads b flags).length = flags.length := by
  induction flags generalizing b with
  | nil => rfl
  | cons m ms ih => rw [uploads_cons, List.length_cons, List.length_cons, ih]

/-- C10, counterexample: the chunk size 131072 is positive and the capacity `2^20` is at
least `8 * 131072`, yet `djgb_create` rejects it: its assertion is the strict
`buf_capacity > 8 * data_size`. -/
theorem create_rejects_eighth :
    (0 : Int) < 131072 ∧ (1048576 : Int) ≥ 8 * 131072 ∧
      djgb_create 131072 7 = .error Fault.assertion := by
  refine ⟨by norm_num, by norm_num, ?_⟩
  have hm : mul32 8 131072 = 8 * 131072 := mul32_of_bounds _ _ (by norm_num) (by norm_num)
  have ha : DJG_ASSERT (decide ((131072 : Int) > 0) && decide ((1048576 : Int) > mul32 8 131072))
      = .error Fault.assertion := assert_false _ (by rw [hm]; decide)
  unfold djgb_create
  simp only [ha]

/-- C10 (amended): for every chunk size below `2^28` (where `8 * data_size` is computed
without 32-bit overflow), `djgb_create` succeeds if and only if `data_size > 0` and the
capacity `2^20` is strictly greater than `8 * data_size`. -/
theorem create_accepts (data_size : Int) (name : Nat) (hlo : -2147483648 ≤ data_size)
    (hhi : data_size < 268435456) :
    (∃ b, djgb_create data_size name = .ok b) ↔ (0 < data_size ∧ 8 * data_size < 1048576) := by
  constructor
  · rintro ⟨b, hb⟩
    by_contra hcon
    have hf : (decide (data_size > 0) && decide ((1048576 : Int) > mul32 8 data_size)) = false := by
      by_cases hpos : 0 < data_size
      · have hm : mul32 8 data_size = 8 * data_size :=
          mul32_of_bounds _ _ (by omega) (by omega)
        rw [hm]
        have : ¬ (8 * data_size < 1048576) := fun h => hcon ⟨hpos, h⟩
        simp [hpos]; omega
      · simp [hpos]
    have ha := assert_false _ hf
    unfold djgb_create at hb
    simp only [ha] at hb
    exact absurd hb (by simp)
  · rintro ⟨h1, h2⟩
    exact ⟨_, create_ok data_size name h1 h2⟩

/-- C10, witness: 131071 is accepted, 131072 is not. -/
theorem create_accepts_witness :
    (∃ b, djgb_create 131071 7 = .ok b) ∧ ¬ (∃ b, djgb_create 131072 7 = .ok b) :=
  ⟨(create_accepts 131071 7 (by norm_num) (by norm_num)).mpr ⟨by norm_num, by norm_num⟩,
   fun h => absurd ((create_accepts 131072 7 (by norm_num) (by norm_num)).mp h).2 (by norm_num)⟩

/-- C26: for a stream buffer created with `0 < s` and `8 * s < capacity`, `djgb_create`
allocates no storage and leaves the cursor at the capacity; in every sequence of uploads
each upload maps exactly one range `[o, o + s)` with `0 ≤ o` and `o + s ≤ capacity`
(preceded, when it orphans, by the allocation of the whole store), and the first upload
always orphans, so the store is allocated before the first write. -/
theorem upload_ranges (s name : Nat) (hs : 0 < s) (h8 : 8 * s < 1048576) :
    ∃ b, djgb_create (s : Int) name = .ok b ∧ b.offset = b.capacity ∧
      (∀ n, gl_call.glBufferData n ∉ djgb_create_calls name) ∧
      (∀ (flags : List Bool) (i : Nat) (r : upload_result),
        (djgb_uploads b flags)[i]? = some r →
          ∃ o : Int, 0 ≤ o ∧ o + (s : Int) ≤ b.capacity ∧
            r.calls =
              (if r.orphaned = true then
                [gl_call.glBindBuffer name, gl_call.glBufferData b.capacity,
                  gl_call.glBindBuffer 0]
               else []) ++
              [gl_call.glBindBuffer name, gl_call.glMapBufferRange o (s : Int)] ++
              (if r.ret = true then [gl_call.glUnmapBuffer] else [])) ∧
      (∀ (m : Bool) (ms : List Bool),
        ∃ r, (djgb_uploads b (m :: ms))[0]? = some r ∧ r.orphaned = true) := by
  obtain ⟨b, hb, hinv, hoff, hcap, hsize⟩ := create_inv s name hs h8
  have hgl : b.gl = name := by
    have h := create_ok (s : Int) name (by omega) (by omega)
    rw [hb] at h
    rw [Except.ok.inj h]
  refine ⟨b, hb, by rw [hoff, hcap], ?_, ?_, ?_⟩
  · intro n hn
    unfold djgb_create_calls at hn
    simp at hn
  · intro flags i r hr
    obtain ⟨m, b1, _, hinv1, hr1, hgl1⟩ :=
      uploads_run 1048576 s hs h8 (by omega) flags 0 b hinv i r hr
    obtain ⟨o, ho0, ho1, hcalls, _, _, _, _, _, hret⟩ :=
      upload_step_any 1048576 s _ b1 m hs h8 (by omega) hinv1
    refine ⟨o, ho0, by rw [hcap]; exact ho1, ?_⟩
    rw [hr1, hcalls, hret, hgl1, hgl, hcap]
    rfl
  · intro m ms
    refine ⟨djgb_gl_upload b m, by rw [uploads_cons, List.getElem?_cons_zero], ?_⟩
    have hyes : add32 b.offset b.size > b.capacity := by
      rw [hoff, hsize, hcap, add32_of_bounds _ _ (by omega) (by omega)]
      omega
    rw [upload_orphan b m hyes]
    cases m <;> rfl

/-- C26, witness: chunks of 4 bytes. -/
theorem upload_ranges_witness :
    ∃ b, djgb_create 4 7 = .ok b ∧ b.offset = b.capacity ∧
      ∀ (m : Bool) (ms : List Bool),
        ∃ r, (djgb_uploads b (m :: ms))[0]? = some r ∧ r.orphaned = true := by
  obtain ⟨b, hb, h1, _, _, h2⟩ := upload_ranges 4 7 (by norm_num) (by norm_num)
  exact ⟨b, hb, h1, h2⟩

theorem count_length (program : djg_program) (h : program.length < 2147483647) :
    djgp__count program = (program.length : Int) := by
  induction program with
  | nil => rfl
  | cons a it ih =>
    have hl : (a :: it).length = it.length + 1 := rfl
    rw [hl] at h
    show add32 (djgp__count it) 1 = _
    rw [ih (by omega), add32_of_bounds _ _ (by omega) (by omega), hl]
    push_cast
    rfl

theorem set_source_pointers_spec (program : djg_program) :
    ∀ (pre : List (Option String)) (post : List (Option String)),
      post.length = program.length → pre.length + program.length < 2147483647 →
      set_source_pointers (pre ++ post) program (pre.length : Int) =
        .ok (pre ++ program.map some) := by
  induction program with
  | nil =>
    intro pre post hpost _
    have : post = [] := List.length_eq_zero.mp hpost
    subst this
    rfl
  | cons a it ih =>
    intro pre post hpost hlen
    have hl : (a :: it).length = it.length + 1 := rfl
    rw [hl] at hpost hlen
    obtain ⟨x, post1, rfl⟩ : ∃ x post1, post = x :: post1 := by
      cases post with
      | nil => simp at hpost
      | cons x post1 => exact ⟨x, post1, rfl⟩
    have hp1 : post1.length = it.length := by simpa using hpost
    have hst : store (pre ++ x :: post1) (pre.length : Int) a =
        .ok ((pre ++ [some a]) ++ post1) := by
      unfold store
      rw [if_pos]
      · have : ((pre.length : Int)).toNat = pre.length := Int.toNat_natCast _
        rw [this, List.set_append_right _ _ (le_refl _)]
        simp
      · refine ⟨Int.natCast_nonneg _, ?_⟩
        rw [Int.toNat_natCast, List.length_append, List.length_cons]
        omega
    have hadd : add32 (pre.length : Int) 1 = ((pre ++ [some a]).length : Int) := by
      rw [add32_of_bounds _ _ (by omega) (by omega)]
      simp
    rw [set_source_pointers, hst]
    show set_source_pointers ((pre ++ [some a]) ++ post1) it (add32 (pre.length : Int) 1) = _
    rw [hadd, ih (pre ++ [some a]) post1 hp1 (by simp; omega)]
    simp

theorem sources_prepared (program : djg_program) (h : program.length < 2147483646) :
    set_source_pointers (malloc (add32 (djgp__count program) 1)) program 1 =
      .ok (none :: program.map some) := by
  rw [count_length program (by omega), add32_of_bounds _ _ (by omega) (by omega)]
  have hm : (malloc ((program.length : Int) + 1) : List (Option String)) =
      [none] ++ List.replicate program.length none := by
    unfold malloc
    have : ((program.length : Int) + 1).toNat = program.length + 1 := by omega
    rw [this]
    rfl
  rw [hm]
  exact set_source_pointers_spec program [none] _ (by simp) (by simp; omega)

theorem load_last (program : djg_program) (hne : program ≠ []) (o : Option String) :
    load (o :: program.map some) (program.length - 1 + 1 : Nat) = .ok (program.getLast hne) := by
  have hpos : 0 < program.length := List.length_pos.mpr hne
  unfold load
  rw [if_pos (Int.natCast_nonneg _), Int.toNat_natCast, List.getElem?_cons_succ,
    List.getElem?_map]
  have : program[program.length - 1]? = some (program.getLast hne) := by
    rw [List.getLast_eq_getElem, List.getElem?_eq_getElem]
  rw [this]
  rfl

theorem load_some {β : Type} (a : List (Option β)) (i : Nat) (v : β)
    (h : a[i]? = some (some v)) : load a (i : Int) = .ok v := by
  unfold load
  rw [if_pos (Int.natCast_nonneg _), Int.toNat_natCast, h]

theorem read_sources_spec (h0 : String) (program : djg_program)
    (h : program.length < 2147483646) :
    read_sources (some h0 :: program.map some) ((program.length : Int) + 1) =
      .ok (h0 :: program) := by
  have hn : ((program.length : Int) + 1).toNat = program.length + 1 := by omega
  obtain ⟨s1, hs1, hP⟩ := for_loop_inv ((program.length : Int) + 1)
    (fun i acc =>
      match load (some h0 :: program.map some) i with
      | .error e => .error e
      | .ok src => .ok (acc ++ [src]))
    (fun k acc => acc = (h0 :: program).take k) [] rfl
    (by
      intro i s hi hs
      have hi1 : i < (h0 :: program).length := by
        rw [List.length_cons]; omega
      have hget : (some h0 :: program.map some)[i]? = some (some ((h0 :: program)[i])) := by
        have : (some h0 :: program.map some) = (h0 :: program).map some := rfl
        rw [this, List.getElem?_map, List.getElem?_eq_getElem hi1]
        rfl
      refine ⟨s ++ [(h0 :: program)[i]], ?_, ?_⟩
      · simp only [load_some _ i _ hget]
      · show s ++ [(h0 :: program)[i]] = List.take (i + 1) (h0 :: program)
        rw [hs, List.take_succ, List.getElem?_eq_getElem hi1]
        rfl)
  unfold read_sources
  rw [hs1, hP, hn]
  have : (h0 :: program).length = program.length + 1 := rfl
  rw [← this, List.take_length]

theorem attach_shader_spec (D : gl_driver) (glprogram : Nat) (t : shader_type)
    (h0 : String) (program : djg_program) (h : program.length < 2147483646) :
    djgp__attach_shader D glprogram t ((program.length : Int) + 1)
        (some h0 :: program.map some) =
      .ok (D.compile_status t (h0 :: program),
        [gl_call.glCreateShader t (D.glCreateShader t),
         gl_call.glShaderSource (D.glCreateShader t) (h0 :: program),
         gl_call.glCompileShader (D.glCreateShader t)] ++
        (if D.compile_status t (h0 :: program) = true then
          [gl_call.glAttachShader glprogram (D.glCreateShader t),
           gl_call.glDeleteShader (D.glCreateShader t)]
         else [gl_call.glDeleteShader (D.glCreateShader t)])) := by
  unfold djgp__attach_shader
  rw [read_sources_spec h0 program h]
  cases hc : D.compile_status t (h0 :: program)
  · simp [hc]
  · simp [hc]

theorem look_for_stages_mask (last : String) :
    look_for_stages last = stage_mask (strstr last "VERTEX_SHADER")
      (strstr last "FRAGMENT_SHADER") (strstr last "GEOMETRY_SHADER")
      (strstr last "TESS_CONTROL_SHADER") (strstr last "TESS_EVALUATION_SHADER")
      (strstr last "COMPUTE_SHADER") := rfl

theorem stage_mask_bits (b1 b2 b3 b4 b5 b6 : Bool) :
    (stage_mask b1 b2 b3 b4 b5 b6 &&& 1 = 0 ↔ b1 = false) ∧
    (stage_mask b1 b2 b3 b4 b5 b6 &&& 2 = 0 ↔ b2 = false) ∧
    (stage_mask b1 b2 b3 b4 b5 b6 &&& 4 = 0 ↔ b3 = false) ∧
    (stage_mask b1 b2 b3 b4 b5 b6 &&& 8 = 0 ↔ b4 = false) ∧
    (stage_mask b1 b2 b3 b4 b5 b6 &&& 16 = 0 ↔ b5 = false) ∧
    (stage_mask b1 b2 b3 b4 b5 b6 &&& 32 = 0 ↔ b6 = false) ∧
    (stage_mask b1 b2 b3 b4 b5 b6 = 0 ↔
      b1 = false ∧ b2 = false ∧ b3 = false ∧ b4 = false ∧ b5 = false ∧ b6 = false) := by
  cases b1 <;> cases b2 <;> cases b3 <;> cases b4 <;> cases b5 <;> cases b6 <;> decide

theorem stage_bits (last : String) (t : shader_type) :
    look_for_stages last &&& stage_bit t = 0 ↔ strstr last (stage_token t) = false := by
  rw [look_for_stages_mask]
  obtain ⟨h1, h2, h3, h4, h5, h6, _⟩ := stage_mask_bits (strstr last "VERTEX_SHADER")
      (strstr last "FRAGMENT_SHADER") (strstr last "GEOMETRY_SHADER")
      (strstr last "TESS_CONTROL_SHADER") (strstr last "TESS_EVALUATION_SHADER")
      (strstr last "COMPUTE_SHADER")
  cases t
  · exact h1
  · exact h2
  · exact h3
  · exact h4
  · exact h5
  · exact h6

theorem no_stage (last : String) :
    look_for_stages last = 0 ↔ ∀ t, strstr last (stage_token t) = false := by
  rw [look_for_stages_mask]
  have h := (stage_mask_bits (strstr last "VERTEX_SHADER")
      (strstr last "FRAGMENT_SHADER") (strstr last "GEOMETRY_SHADER")
      (strstr last "TESS_CONTROL_SHADER") (strstr last "TESS_EVALUATION_SHADER")
      (strstr last "COMPUTE_SHADER")).2.2.2.2.2.2
  rw [h]
  constructor
  · rintro ⟨h1, h2, h3, h4, h5, h6⟩ t
    cases t
    · exact h1
    · exact h2
    · exact h3
    · exact h4
    · exact h5
    · exact h6
  · intro ht
    exact ⟨ht shader_type.GL_VERTEX_SHADER, ht shader_type.GL_FRAGMENT_SHADER,
      ht shader_type.GL_GEOMETRY_SHADER, ht shader_type.GL_TESS_CONTROL_SHADER,
      ht shader_type.GL_TESS_EVALUATION_SHADER, ht shader_type.GL_COMPUTE_SHADER⟩

theorem store_head (o : Option String) (rest : List (Option String)) (h0 : String) :
    store (o :: rest) 0 h0 = .ok (some h0 :: rest) := by
  unfold store
  rw [if_pos]
  · rfl
  · exact ⟨le_refl _, by simp⟩

/-- One expansion of `DJGP__ATTACH_SHADER` that is compiled in, on a prepared source
array, is the pure step. -/
theorem attach_step (H : gl_headers) (D : gl_driver) (glprogram : Nat) (version : Int)
    (compatible : Bool) (program : djg_program) (last : String) (t : shader_type)
    (st : attach_state) (hlen : program.length < 2147483646)
    (hsrcv : ∃ o, st.srcv = o :: program.map some) (hdef : header_defines H t = true) :
    ∃ st1, DJGP__ATTACH_SHADER D glprogram (look_for_stages last) version compatible
        ((program.length : Int) + 1) t (stage_token t) (stage_bit t) st = .ok st1 ∧
      (∃ o, st1.srcv = o :: program.map some) ∧
      (st1.returned, st1.calls) =
        attach_pure H D glprogram version compatible program last (st.returned, st.calls) t := by
  obtain ⟨o, ho⟩ := hsrcv
  unfold DJGP__ATTACH_SHADER attach_pure
  by_cases hr : st.returned = true
  · rw [if_pos hr]
    exact ⟨st, rfl, ⟨o, ho⟩, by rw [if_pos hr]⟩
  · rw [if_neg hr]
    by_cases hb : look_for_stages last &&& stage_bit t = 0
    · rw [if_pos hb]
      refine ⟨st, rfl, ⟨o, ho⟩, ?_⟩
      have hen : stage_enabled H last t = false := by
        unfold stage_enabled
        rw [(stage_bits last t).mp hb]
        rfl
      rw [if_neg hr, if_pos hen]
    · rw [if_neg hb]
      have hen : ¬ stage_enabled H last t = false := by
        unfold stage_enabled
        rw [hdef]
        intro h
        apply hb
        rw [stage_bits]
        simpa using h
      rw [ho, store_head]
      have hspec := attach_shader_spec D glprogram t
        (shader_head version compatible (stage_token t)) program hlen
      have hrf : st.returned = false := by
        cases h : st.returned
        · rfl
        · exact absurd h hr
      cases hc : D.compile_status t (shader_head version compatible (stage_token t) :: program)
      · rw [hc] at hspec
        refine ⟨attach_state.mk true
            (some (shader_head version compatible (stage_token t)) :: program.map some)
            (st.calls ++ shader_unit_failed D glprogram version compatible program t),
          ?_, ⟨_, rfl⟩, ?_⟩
        · simp only [hspec]
          simp [shader_unit_failed, stage_sources]
        · rw [if_neg hr, if_neg hen]
          have : ¬ D.compile_status t (stage_sources version compatible program t) = true := by
            unfold stage_sources; rw [hc]; simp
          rw [if_neg this]
      · rw [hc] at hspec
        refine ⟨attach_state.mk false
            (some (shader_head version compatible (stage_token t)) :: program.map some)
            (st.calls ++ shader_unit D glprogram version compatible program t),
          ?_, ⟨_, rfl⟩, ?_⟩
        · simp only [hspec]
          simp [shader_unit, stage_sources]
        · rw [if_neg hr, if_neg hen]
          have : D.compile_status t (stage_sources version compatible program t) = true := by
            unfold stage_sources; rw [hc]
          rw [if_pos this]

/-- One expansion of `DJGP__ATTACH_SHADER` under `#if defined(...)`. -/
theorem attach_step_opt (H : gl_headers) (D : gl_driver) (glprogram : Nat) (version : Int)
    (compatible : Bool) (program : djg_program) (last : String) (t : shader_type)
    (st : attach_state) (hlen : program.length < 2147483646)
    (hsrcv : ∃ o, st.srcv = o :: program.map some) :
    ∃ st1, (if header_defines H t = true then
        DJGP__ATTACH_SHADER D glprogram (look_for_stages last) version compatible
          ((program.length : Int) + 1) t (stage_token t) (stage_bit t) st
        else .ok st) = .ok st1 ∧
      (∃ o, st1.srcv = o :: program.map some) ∧
      (st1.returned, st1.calls) =
        attach_pure H D glprogram version compatible program last (st.returned, st.calls) t := by
  by_cases hdef : header_defines H t = true
  · rw [if_pos hdef]
    exact attach_step H D glprogram version compatible program last t st hlen hsrcv hdef
  · rw [if_neg hdef]
    refine ⟨st, rfl, hsrcv, ?_⟩
    unfold attach_pure
    have hen : stage_enabled H last t = false := by
      unfold stage_enabled
      cases h : header_defines H t
      · simp
      · exact absurd h hdef
    by_cases hr : st.returned = true
    · rw [if_pos hr]
    · rw [if_neg hr, if_pos hen]

/-- The six expansions of `DJGP__ATTACH_SHADER` are the fold of the pure step over the six
shader types. -/
theorem attach_shaders_refines (H : gl_headers) (D : gl_driver) (glprogram : Nat)
    (version : Int) (compatible : Bool) (program : djg_program) (last : String)
    (st : attach_state) (hlen : program.length < 2147483646)
    (hsrcv : ∃ o, st.srcv = o :: program.map some) :
    ∃ st1, attach_shaders H D glprogram (look_for_stages last) version compatible
        ((program.length : Int) + 1) st = .ok st1 ∧
      (st1.returned, st1.calls) =
        shader_stages.foldl (attach_pure H D glprogram version compatible program last)
          (st.returned, st.calls) := by
  obtain ⟨s1, h1, r1, e1⟩ := attach_step H D glprogram version compatible program last
    shader_type.GL_VERTEX_SHADER st hlen hsrcv rfl
  obtain ⟨s2, h2, r2, e2⟩ := attach_step H D glprogram version compatible program last
    shader_type.GL_FRAGMENT_SHADER s1 hlen r1 rfl
  obtain ⟨s3, h3, r3, e3⟩ := attach_step_opt H D glprogram version compatible program last
    shader_type.GL_GEOMETRY_SHADER s2 hlen r2
  obtain ⟨s4, h4, r4, e4⟩ := attach_step_opt H D glprogram version compatible program last
    shader_type.GL_TESS_CONTROL_SHADER s3 hlen r3
  obtain ⟨s5, h5, r5, e5⟩ := attach_step_opt H D glprogram version compatible program last
    shader_type.GL_TESS_EVALUATION_SHADER s4 hlen r4
  obtain ⟨s6, h6, _, e6⟩ := attach_step_opt H D glprogram version compatible program last
    shader_type.GL_COMPUTE_SHADER s5 hlen r5
  refine ⟨s6, ?_, ?_⟩
  · have g1 : DJGP__ATTACH_SHADER D glprogram (look_for_stages last) version compatible
        ((program.length : Int) + 1) shader_type.GL_VERTEX_SHADER "VERTEX_SHADER"
        DJGP__STAGE_VERTEX_BIT st = .ok s1 := h1
    have g2 : DJGP__ATTACH_SHADER D glprogram (look_for_stages last) version compatible
        ((program.length : Int) + 1) shader_type.GL_FRAGMENT_SHADER "FRAGMENT_SHADER"
        DJGP__STAGE_FRAGMENT_BIT s1 = .ok s2 := h2
    have g3 : (if H.GL_GEOMETRY_SHADER = true then
        DJGP__ATTACH_SHADER D glprogram (look_for_stages last) version compatible
          ((program.length : Int) + 1) shader_type.GL_GEOMETRY_SHADER "GEOMETRY_SHADER"
          DJGP__STAGE_GEOMETRY_BIT s2
        else .ok s2) = .ok s3 := h3
    have g4 : (if H.GL_TESS_CONTROL_SHADER = true then
        DJGP__ATTACH_SHADER D glprogram (look_for_stages last) version compatible
          ((program.length : Int) + 1) shader_type.GL_TESS_CONTROL_SHADER "TESS_CONTROL_SHADER"
          DJGP__STAGE_TESS_CONTROL_BIT s3
        else .ok s3) = .ok s4 := h4
    have g5 : (if H.GL_TESS_EVALUATION_SHADER = true then
        DJGP__ATTACH_SHADER D glprogram (look_for_stages last) version compatible
          ((program.length : Int) + 1) shader_type.GL_TESS_EVALUATION_SHADER
          "TESS_EVALUATION_SHADER" DJGP__STAGE_TESS_EVALUATION_BIT s4
        else .ok s4) = .ok s5 := h5
    have g6 : (if H.GL_COMPUTE_SHADER = true then
        DJGP__ATTACH_SHADER D glprogram (look_for_stages last) version compatible
          ((program.length : Int) + 1) shader_type.GL_COMPUTE_SHADER "COMPUTE_SHADER"
          DJGP__STAGE_COMPUTE_BIT s5
        else .ok s5) = .ok s6 := h6
    unfold attach_shaders
    rw [g1, bind_ok, g2, bind_ok, g3, bind_ok, g4, bind_ok, g5, bind_ok, g6]
  · show (s6.returned, s6.calls) =
      attach_pure H D glprogram version compatible program last
        (attach_pure H D glprogram version compatible program last
          (attach_pure H D glprogram version compatible program last
            (attach_pure H D glprogram version compatible program last
              (attach_pure H D glprogram version compatible program last
                (attach_pure H D glprogram version compatible program last
                  (st.returned, st.calls) shader_type.GL_VERTEX_SHADER)
                shader_type.GL_FRAGMENT_SHADER)
              shader_type.GL_GEOMETRY_SHADER)
            shader_type.GL_TESS_CONTROL_SHADER)
          shader_type.GL_TESS_EVALUATION_SHADER)
        shader_type.GL_COMPUTE_SHADER
    rw [e6, e5, e4, e3, e2, e1]

/-- The function `djgp_gl_upload` on a non-empty fragment list returns, and returns what
`upload_outcome` computes from the last fragment. -/
theorem upload_spec (H : gl_headers) (D : gl_driver) (program : djg_program) (version : Int)
    (compatible link : Bool) (gl : Nat) (hne : program ≠ [])
    (hlen : program.length < 2147483646) :
    djgp_gl_upload H D program version compatible link gl =
      .ok (upload_outcome H D program version compatible link gl (program.getLast hne)) := by
  have hpos : 0 < program.length := List.length_pos.mpr hne
  have hsrcc : add32 (djgp__count program) 1 = (program.length : Int) + 1 := by
    rw [count_length program (by omega), add32_of_bounds _ _ (by omega) (by omega)]
  have hprep := sources_prepared program hlen
  rw [hsrcc] at hprep
  have hidx : sub32 ((program.length : Int) + 1) 1 = ((program.length - 1 + 1 : Nat) : Int) := by
    rw [sub32_of_bounds _ _ (by omega) (by omega)]
    omega
  have hload : load (none :: program.map some) (sub32 ((program.length : Int) + 1) 1) =
      .ok (program.getLast hne) := by
    rw [hidx]
    exact load_last program hne none
  obtain ⟨st1, hst1, hfold⟩ := attach_shaders_refines H D D.glCreateProgram version compatible
    program (program.getLast hne)
    (attach_state.mk false (none :: program.map some)
      [gl_call.glCreateProgram D.glCreateProgram]) hlen ⟨none, rfl⟩
  unfold djgp_gl_upload upload_outcome
  simp only [hsrcc, hprep, hload, hst1]
  rw [← hfold]
  by_cases h0 : look_for_stages (program.getLast hne) = 0
  · simp only [h0, if_true]
  · by_cases hp : D.glIsProgram D.glCreateProgram = false
    · simp only [h0, hp, if_true, if_false]
    · cases hr : st1.returned
      · cases link <;> cases hl : D.link_status D.glCreateProgram <;>
          cases hg : D.glIsProgram gl <;> simp [h0, hp]
      · simp [h0, hp]

theorem attach_pure_cases (H : gl_headers) (D : gl_driver) (p : Nat) (version : Int)
    (compatible : Bool) (program : djg_program) (last : String) (s : Bool × List gl_call)
    (t : shader_type) :
    (attach_pure H D p version compatible program last s t = s ∧
      (s.1 = true ∨ stage_enabled H last t = false)) ∨
    (s.1 = false ∧ stage_enabled H last t = true ∧
      D.compile_status t (stage_sources version compatible program t) = true ∧
      attach_pure H D p version compatible program last s t =
        (false, s.2 ++ shader_unit D p version compatible program t)) ∨
    (s.1 = false ∧ stage_enabled H last t = true ∧
      D.compile_status t (stage_sources version compatible program t) = false ∧
      attach_pure H D p version compatible program last s t =
        (true, s.2 ++ shader_unit_failed D p version compatible program t)) := by
  unfold attach_pure
  by_cases hr : s.1 = true
  · left; rw [if_pos hr]; exact ⟨rfl, Or.inl hr⟩
  · have hrf : s.1 = false := by
      cases h : s.1
      · rfl
      · exact absurd h hr
    rw [if_neg hr]
    by_cases he : stage_enabled H last t = false
    · left; rw [if_pos he]; exact ⟨rfl, Or.inr he⟩
    · have het : stage_enabled H last t = true := by
        cases h : stage_enabled H last t
        · exact absurd h he
        · rfl
      rw [if_neg he]
      by_cases hc : D.compile_status t (stage_sources version compatible program t) = true
      · right; left; rw [if_pos hc]; exact ⟨hrf, het, hc, rfl⟩
      · right; right; rw [if_neg hc]
        refine ⟨hrf, het, ?_, rfl⟩
        cases h : D.compile_status t (stage_sources version compatible program t)
        · rfl
        · exact absurd h hc

theorem fold_attach_inv (H : gl_headers) (D : gl_driver) (p : Nat) (version : Int)
    (compatible : Bool) (program : djg_program) (last : String)
    (P : Bool × List gl_call → Prop)
    (hstep : ∀ s t, P s → P (attach_pure H D p version compatible program last s t))
    (ts : List shader_type) :
    ∀ s, P s → P (ts.foldl (attach_pure H D p version compatible program last) s) := by
  induction ts with
  | nil => intro s hs; exact hs
  | cons t ts ih => intro s hs; exact ih _ (hstep s t hs)

/-- When the expansions do not return early, their calls are the units of the enabled
stages, in order. -/
theorem fold_attach_ok (H : gl_headers) (D : gl_driver) (p : Nat) (version : Int)
    (compatible : Bool) (program : djg_program) (last : String) (ts : List shader_type) :
    ∀ s, (ts.foldl (attach_pure H D p version compatible program last) s).1 = false →
      s.1 = false ∧
      (∀ t, t ∈ ts → stage_enabled H last t = true →
        D.compile_status t (stage_sources version compatible program t) = true) ∧
      (ts.foldl (attach_pure H D p version compatible program last) s).2 =
        s.2 ++ (ts.filter (stage_enabled H last)).flatMap
          (shader_unit D p version compatible program) := by
  induction ts with
  | nil => intro s hs; exact ⟨hs, by simp, by simp⟩
  | cons t ts ih =>
    intro s hs
    rw [List.foldl_cons] at hs ⊢
    obtain ⟨h1, h2, h3⟩ := ih _ hs
    rcases attach_pure_cases H D p version compatible program last s t with
      ⟨he, hc⟩ | ⟨hr, het, hc, he⟩ | ⟨hr, het, hc, he⟩
    · rw [he] at h1 h3
      rcases hc with hc | hc
      · rw [hc] at h1; exact absurd h1 (by simp)
      · refine ⟨h1, ?_, ?_⟩
        · intro u hu hue
          rcases List.mem_cons.mp hu with rfl | hu
          · rw [hc] at hue; exact absurd hue (by simp)
          · exact h2 u hu hue
        · rw [he, h3, List.filter_cons_of_neg (by rw [hc]; simp)]
    · refine ⟨hr, ?_, ?_⟩
      · intro u hu hue
        rcases List.mem_cons.mp hu with rfl | hu
        · exact hc
        · exact h2 u hu hue
      · rw [h3, he, List.filter_cons_of_pos het, List.flatMap_cons, List.append_assoc]
    · rw [he] at h1
      exact absurd h1 (by simp)

/-- The expansions return early exactly when an enabled stage does not compile. -/
theorem fold_attach_returned (H : gl_headers) (D : gl_driver) (p : Nat) (version : Int)
    (compatible : Bool) (program : djg_program) (last : String) (ts : List shader_type) :
    ∀ s, s.1 = false →
      (∀ t, t ∈ ts → stage_enabled H last t = true →
        D.compile_status t (stage_sources version compatible program t) = true) →
      (ts.foldl (attach_pure H D p version compatible program last) s).1 = false := by
  induction ts with
  | nil => intro s hs _; exact hs
  | cons t ts ih =>
    intro s hs hall
    rw [List.foldl_cons]
    apply ih
    · rcases attach_pure_cases H D p version compatible program last s t with
        ⟨he, _⟩ | ⟨_, _, _, he⟩ | ⟨_, het, hc, _⟩
      · rw [he]; exact hs
      · rw [he]
      · rw [hall t (List.mem_cons_self _ _) het] at hc
        exact absurd hc (by simp)
    · intro u hu hue
      exact hall u (List.mem_cons_of_mem _ hu) hue

/-- The program releases among the calls of the expansions: none while they go on, the
new program, and only it, once one of them returned. -/
theorem fold_attach_delete (H : gl_headers) (D : gl_driver) (p : Nat) (version : Int)
    (compatible : Bool) (program : djg_program) (last : String) (ts : List shader_type)
    (c : List gl_call) (hc : ∀ q, gl_call.glDeleteProgram q ∉ c) :
    ((ts.foldl (attach_pure H D p version compatible program last) (false, c)).1 = false →
      ∀ q, gl_call.glDeleteProgram q ∉
        (ts.foldl (attach_pure H D p version compatible program last) (false, c)).2) ∧
    ((ts.foldl (attach_pure H D p version compatible program last) (false, c)).1 = true →
      gl_call.glDeleteProgram p ∈
        (ts.foldl (attach_pure H D p version compatible program last) (false, c)).2 ∧
      ∀ q, gl_call.glDeleteProgram q ∈
        (ts.foldl (attach_pure H D p version compatible program last) (false, c)).2 → q = p) := by
  apply fold_attach_inv H D p version compatible program last
    (fun s => (s.1 = false → ∀ q, gl_call.glDeleteProgram q ∉ s.2) ∧
      (s.1 = true → gl_call.glDeleteProgram p ∈ s.2 ∧
        ∀ q, gl_call.glDeleteProgram q ∈ s.2 → q = p))
  · intro s t hs
    rcases attach_pure_cases H D p version compatible program last s t with
      ⟨he, _⟩ | ⟨hr, _, _, he⟩ | ⟨hr, _, _, he⟩
    · rw [he]; exact hs
    · rw [he]
      refine ⟨fun _ q hq => ?_, fun h => absurd h (by simp)⟩
      rcases List.mem_append.mp hq with hq | hq
      · exact hs.1 hr q hq
      · simp [shader_unit] at hq
    · rw [he]
      refine ⟨fun h => absurd h (by simp), fun _ => ⟨?_, fun q hq => ?_⟩⟩
      · simp [shader_unit_failed]
      · rcases List.mem_append.mp hq with hq | hq
        · exact absurd hq (hs.1 hr q)
        · simpa [shader_unit_failed] using hq
  · exact ⟨fun _ => hc, fun h => absurd h (by simp)⟩

theorem created_units (D : gl_driver) (p : Nat) (version : Int) (compatible : Bool)
    (program : djg_program) (l : List shader_type) :
    created_stages (l.flatMap (shader_unit D p version compatible program)) = l ∧
    compile_count (l.flatMap (shader_unit D p version compatible program)) = l.length := by
  induction l with
  | nil => exact ⟨rfl, rfl⟩
  | cons t l ih =>
    unfold created_stages compile_count at ih ⊢
    rw [List.flatMap_cons, List.filterMap_append, List.countP_append, ih.1, ih.2]
    constructor
    · simp [shader_unit]
    · simp [shader_unit, List.countP_cons]
      omega

/-- The five ways in which `djgp_gl_upload` ends on a non-empty fragment list. -/
theorem outcome_cases (H : gl_headers) (D : gl_driver) (program : djg_program) (version : Int)
    (compatible link : Bool) (gl : Nat) (last : String) :
    ((∀ t, strstr last (stage_token t) = false) ∧
      upload_outcome H D program version compatible link gl last = (false, gl, [])) ∨
    ((∃ t, strstr last (stage_token t) = true) ∧ D.glIsProgram D.glCreateProgram = false ∧
      upload_outcome H D program version compatible link gl last =
        (false, gl, [gl_call.glCreateProgram D.glCreateProgram])) ∨
    ((∃ t, strstr last (stage_token t) = true) ∧ D.glIsProgram D.glCreateProgram = true ∧
      (shader_stages.foldl (attach_pure H D D.glCreateProgram version compatible program last)
        (false, [gl_call.glCreateProgram D.glCreateProgram])).1 = true ∧
      upload_outcome H D program version compatible link gl last =
        (false, gl,
          (shader_stages.foldl
            (attach_pure H D D.glCreateProgram version compatible program last)
            (false, [gl_call.glCreateProgram D.glCreateProgram])).2)) ∨
    ((∃ t, strstr last (stage_token t) = true) ∧ D.glIsProgram D.glCreateProgram = true ∧
      (shader_stages.foldl (attach_pure H D D.glCreateProgram version compatible program last)
        (false, [gl_call.glCreateProgram D.glCreateProgram])).1 = false ∧
      link = true ∧ D.link_status D.glCreateProgram = false ∧
      upload_outcome H D program version compatible link gl last =
        (false, gl,
          (shader_stages.foldl
            (attach_pure H D D.glCreateProgram version compatible program last)
            (false, [gl_call.glCreateProgram D.glCreateProgram])).2 ++
          [gl_call.glLinkProgram D.glCreateProgram,
            gl_call.glDeleteProgram D.glCreateProgram])) ∨
    ((∃ t, strstr last (stage_token t) = true) ∧ D.glIsProgram D.glCreateProgram = true ∧
      (shader_stages.foldl (attach_pure H D D.glCreateProgram version compatible program last)
        (false, [gl_call.glCreateProgram D.glCreateProgram])).1 = false ∧
      (link = true → D.link_status D.glCreateProgram = true) ∧
      upload_outcome H D program version compatible link gl last =
        (true, D.glCreateProgram,
          (shader_stages.foldl
            (attach_pure H D D.glCreateProgram version compatible program last)
            (false, [gl_call.glCreateProgram D.glCreateProgram])).2 ++
          (if link = true then [gl_call.glLinkProgram D.glCreateProgram] else []) ++
          (if D.glIsProgram gl = true then [gl_call.glDeleteProgram gl] else []))) := by
  unfold upload_outcome
  by_cases h0 : look_for_stages last = 0
  · left
    exact ⟨(no_stage last).mp h0, by rw [if_pos h0]⟩
  · right
    have hex : ∃ t, strstr last (stage_token t) = true := by
      by_contra hcon
      apply h0
      rw [no_stage]
      intro t
      cases h : strstr last (stage_token t)
      · rfl
      · exact absurd ⟨t, h⟩ hcon
    rw [if_neg h0]
    by_cases hp : D.glIsProgram D.glCreateProgram = false
    · left
      exact ⟨hex, hp, by rw [if_pos hp]⟩
    · right
      have hpt : D.glIsProgram D.glCreateProgram = true := by
        cases h : D.glIsProgram D.glCreateProgram
        · exact absurd h hp
        · rfl
      rw [if_neg hp]
      generalize shader_stages.foldl
        (attach_pure H D D.glCreateProgram version compatible program last)
        (false, [gl_call.glCreateProgram D.glCreateProgram]) = s
      cases hr : s.1
      · right
        cases link
        · right
          refine ⟨hex, hpt, rfl, fun h => absurd h (by simp), ?_⟩
          simp [hr]
        · cases hl : D.link_status D.glCreateProgram
          · left
            refine ⟨hex, hpt, rfl, rfl, rfl, ?_⟩
            simp [hr, hl]
          · right
            refine ⟨hex, hpt, rfl, fun _ => rfl, ?_⟩
            simp [hr, hl]
      · left
        refine ⟨hex, hpt, rfl, ?_⟩
        simp [hr]

/-- C28, failing input: on a program to which no fragment was pushed, `djgp_gl_upload`
inspects `srcv[srcc - 1] = srcv[0]`, a slot that the source loop never sets: the read of
an uninitialised pointer makes the call fault instead of returning false. -/
theorem empty_program_reads_unset_slot (H : gl_headers) (D : gl_driver) (version : Int)
    (compatible link : Bool) (gl : Nat) :
    djgp_gl_upload H D djgp_create version compatible link gl = .error Fault.uninitialised := by
  have h1 : add32 (djgp__count djgp_create) 1 = 1 := by
    show add32 0 1 = 1
    unfold add32 wrap32; decide
  have h2 : sub32 1 1 = 0 := by unfold sub32 wrap32; decide
  unfold djgp_gl_upload
  simp only [h1, h2]
  rfl

/-- C4: for every non-empty fragment list (of fewer than `2^31 - 2` fragments) whose last
fragment contains none of the six stage marker tokens, `djgp_gl_upload` returns false,
makes no OpenGL call (so creates no program or shader object) and leaves the handle slot
as it was. -/
theorem no_marker_fails (H : gl_headers) (D : gl_driver) (program : djg_program)
    (version : Int) (compatible link : Bool) (gl : Nat) (hne : program ≠ [])
    (hlen : program.length < 2147483646)
    (hno : ∀ t, strstr (program.getLast hne) (stage_token t) = false) :
    djgp_gl_upload H D program version compatible link gl = .ok (false, gl, []) := by
  rw [upload_spec H D program version compatible link gl hne hlen]
  unfold upload_outcome
  rw [if_pos ((no_stage _).mpr hno)]

/-- C4, witness: two fragments, the last one without any marker (the first one has one). -/
theorem no_marker_fails_witness :
    djgp_gl_upload all_headers sample_driver ["#ifdef VERTEX_SHADER", "void main()"] 450 false
      true 9 = .ok (false, 9, []) :=
  no_marker_fails all_headers sample_driver ["#ifdef VERTEX_SHADER", "void main()"] 450 false
    true 9 (by simp) (by simp) (by intro t; cases t <;> rfl)

theorem created_stages_append (a b : List gl_call) :
    created_stages (a ++ b) = created_stages a ++ created_stages b := by
  unfold created_stages
  rw [List.filterMap_append]

theorem compile_count_append (a b : List gl_call) :
    compile_count (a ++ b) = compile_count a + compile_count b := by
  unfold compile_count
  rw [List.countP_append]

/-- C5, counterexample: the last fragment holds the two markers `VERTEX_SHADER` and
`FRAGMENT_SHADER` and no compile fails, but `glCreateProgram` fails: `djgp_gl_upload`
returns before the first expansion of `DJGP__ATTACH_SHADER`, no unit is compiled. -/
theorem creation_failure_compiles_nothing :
    (shader_stages.filter (fun t =>
      strstr "#ifdef VERTEX_SHADER #endif #ifdef FRAGMENT_SHADER #endif" (stage_token t))).length
      = 2 ∧
    ∃ calls, djgp_gl_upload all_headers no_program_driver
        ["#ifdef VERTEX_SHADER #endif #ifdef FRAGMENT_SHADER #endif"] 450 false true 9 =
          .ok (false, 9, calls) ∧
      compile_count calls = 0 := by
  refine ⟨by rfl, [gl_call.glCreateProgram 0], ?_, by rfl⟩
  rw [upload_spec all_headers no_program_driver _ 450 false true 9 (by simp) (by simp)]
  rfl

/-- C5 (amended): for every non-empty fragment list, when the program object is created,
the headers define every optional shader type and every compile succeeds,
`djgp_gl_upload` creates and compiles exactly one shader unit per marker token that occurs
in the last fragment, in the order vertex, fragment, geometry, tessellation control,
tessellation evaluation, compute. -/
theorem compiled_units (H : gl_headers) (D : gl_driver) (program : djg_program)
    (version : Int) (compatible link : Bool) (gl : Nat) (hne : program ≠ [])
    (hlen : program.length < 2147483646)
    (hprog : D.glIsProgram D.glCreateProgram = true)
    (hdef : ∀ t, header_defines H t = true)
    (hcomp : ∀ t, D.compile_status t (stage_sources version compatible program t) = true) :
    ∃ ret gl1 calls,
      djgp_gl_upload H D program version compatible link gl = .ok (ret, gl1, calls) ∧
      created_stages calls =
        shader_stages.filter (fun t => strstr (program.getLast hne) (stage_token t)) ∧
      compile_count calls =
        (shader_stages.filter
          (fun t => strstr (program.getLast hne) (stage_token t))).length := by
  rw [upload_spec H D program version compatible link gl hne hlen]
  have hen : stage_enabled H (program.getLast hne) =
      fun t => strstr (program.getLast hne) (stage_token t) := by
    funext t
    unfold stage_enabled
    rw [hdef t, Bool.and_true]
  have hret := fold_attach_returned H D D.glCreateProgram version compatible program
    (program.getLast hne) shader_stages (false, [gl_call.glCreateProgram D.glCreateProgram])
    rfl (fun t _ _ => hcomp t)
  obtain ⟨_, _, hcalls⟩ := fold_attach_ok H D D.glCreateProgram version compatible program
    (program.getLast hne) shader_stages (false, [gl_call.glCreateProgram D.glCreateProgram])
    hret
  rw [hen] at hcalls
  obtain ⟨hcr, hcc⟩ := created_units D D.glCreateProgram version compatible program
    (shader_stages.filter (fun t => strstr (program.getLast hne) (stage_token t)))
  have e0 : created_stages [gl_call.glCreateProgram D.glCreateProgram] = [] := rfl
  have e1 : created_stages [gl_call.glLinkProgram D.glCreateProgram,
      gl_call.glDeleteProgram D.glCreateProgram] = [] := rfl
  have e2 : created_stages ([] : List gl_call) = [] := rfl
  have e3 : created_stages [gl_call.glLinkProgram D.glCreateProgram] = [] := rfl
  have e4 : created_stages [gl_call.glDeleteProgram gl] = [] := rfl
  have c0 : compile_count [gl_call.glCreateProgram D.glCreateProgram] = 0 := rfl
  have c1 : compile_count [gl_call.glLinkProgram D.glCreateProgram,
      gl_call.glDeleteProgram D.glCreateProgram] = 0 := rfl
  have c2 : compile_count ([] : List gl_call) = 0 := rfl
  have c3 : compile_count [gl_call.glLinkProgram D.glCreateProgram] = 0 := rfl
  have c4 : compile_count [gl_call.glDeleteProgram gl] = 0 := rfl
  rcases outcome_cases H D program version compatible link gl (program.getLast hne) with
    ⟨hno, he⟩ | ⟨_, hp, _⟩ | ⟨_, _, hr, _⟩ | ⟨_, _, _, _, _, he⟩ | ⟨_, _, _, _, he⟩
  · refine ⟨_, _, _, congrArg Except.ok he, ?_, ?_⟩
    · rw [List.filter_eq_nil_iff.mpr (fun t _ => by rw [hno t]; simp)]
      rfl
    · rw [List.filter_eq_nil_iff.mpr (fun t _ => by rw [hno t]; simp)]
      rfl
  · rw [hprog] at hp
    exact absurd hp (by simp)
  · rw [hret] at hr
    exact absurd hr (by simp)
  · refine ⟨_, _, _, congrArg Except.ok he, ?_, ?_⟩
    · rw [hcalls, created_stages_append, created_stages_append, hcr, e1]
      simp [e0]
    · rw [hcalls, compile_count_append, compile_count_append, hcc, c1]
      simp [c0]
  · refine ⟨_, _, _, congrArg Except.ok he, ?_, ?_⟩
    · rw [hcalls, created_stages_append, created_stages_append, created_stages_append, hcr]
      cases link <;> cases D.glIsProgram gl <;> simp [e0, e2, e3, e4]
    · rw [hcalls, compile_count_append, compile_count_append, compile_count_append, hcc]
      cases link <;> cases D.glIsProgram gl <;> simp [c0, c2, c3, c4]

/-- C5, witness: a last fragment with exactly `VERTEX_SHADER` and `FRAGMENT_SHADER`
compiles exactly two units, the vertex one first. -/
theorem compiled_units_witness :
    ∃ ret gl1 calls, djgp_gl_upload all_headers sample_driver
        ["#ifdef VERTEX_SHADER #endif #ifdef FRAGMENT_SHADER #endif"] 450 false true 9 =
          .ok (ret, gl1, calls) ∧
      created_stages calls = [shader_type.GL_VERTEX_SHADER, shader_type.GL_FRAGMENT_SHADER] ∧
      compile_count calls = 2 :=
  compiled_units all_headers sample_driver
    ["#ifdef VERTEX_SHADER #endif #ifdef FRAGMENT_SHADER #endif"] 450 false true 9
    (by simp) (by simp) rfl (by intro t; cases t <;> rfl) (fun _ => rfl)

theorem mem_shader_stages (t : shader_type) : t ∈ shader_stages := by
  cases t <;> simp [shader_stages]

/-- C11: on every non-empty fragment list `djgp_gl_upload` returns; when it returns false
the handle slot keeps its value, when it returns true the slot holds the program created
by this call; and it returns true exactly when a stage is detected, the program object
is created, every unit that is run compiles, and the link, when requested, succeeds. -/
theorem handle_slot (H : gl_headers) (D : gl_driver) (program : djg_program)
    (version : Int) (compatible link : Bool) (gl : Nat) (hne : program ≠ [])
    (hlen : program.length < 2147483646) :
    ∃ ret gl1 calls,
      djgp_gl_upload H D program version compatible link gl = .ok (ret, gl1, calls) ∧
      (ret = false → gl1 = gl) ∧ (ret = true → gl1 = D.glCreateProgram) ∧
      (ret = true ↔
        ((∃ t, strstr (program.getLast hne) (stage_token t) = true) ∧
          D.glIsProgram D.glCreateProgram = true ∧
          (∀ t, stage_enabled H (program.getLast hne) t = true →
            D.compile_status t (stage_sources version compatible program t) = true) ∧
          (link = true → D.link_status D.glCreateProgram = true))) := by
  rw [upload_spec H D program version compatible link gl hne hlen]
  rcases outcome_cases H D program version compatible link gl (program.getLast hne) with
    ⟨hno, he⟩ | ⟨_, hp, he⟩ | ⟨_, _, hr, he⟩ | ⟨_, _, _, hl, hls, he⟩ | ⟨hex, hp, hr, hl, he⟩
  · refine ⟨_, _, _, congrArg Except.ok he, fun _ => rfl, fun h => absurd h (by simp), ?_⟩
    constructor
    · intro h; exact absurd h (by simp)
    · rintro ⟨⟨t, ht⟩, _⟩
      rw [hno t] at ht
      exact absurd ht (by simp)
  · refine ⟨_, _, _, congrArg Except.ok he, fun _ => rfl, fun h => absurd h (by simp), ?_⟩
    constructor
    · intro h; exact absurd h (by simp)
    · rintro ⟨_, hp1, _⟩
      rw [hp] at hp1
      exact absurd hp1 (by simp)
  · refine ⟨_, _, _, congrArg Except.ok he, fun _ => rfl, fun h => absurd h (by simp), ?_⟩
    constructor
    · intro h; exact absurd h (by simp)
    · rintro ⟨_, _, hall, _⟩
      have := fold_attach_returned H D D.glCreateProgram version compatible program
        (program.getLast hne) shader_stages
        (false, [gl_call.glCreateProgram D.glCreateProgram]) rfl (fun t _ ht => hall t ht)
      rw [this] at hr
      exact absurd hr (by simp)
  · refine ⟨_, _, _, congrArg Except.ok he, fun _ => rfl, fun h => absurd h (by simp), ?_⟩
    constructor
    · intro h; exact absurd h (by simp)
    · rintro ⟨_, _, _, hl1⟩
      rw [hl1 hl] at hls
      exact absurd hls (by simp)
  · refine ⟨_, _, _, congrArg Except.ok he, fun h => absurd h (by simp), fun _ => rfl, ?_⟩
    constructor
    · intro _
      obtain ⟨_, hall, _⟩ := fold_attach_ok H D D.glCreateProgram version compatible program
        (program.getLast hne) shader_stages
        (false, [gl_call.glCreateProgram D.glCreateProgram]) hr
      exact ⟨hex, hp, fun t ht => hall t (mem_shader_stages t) ht, hl⟩
    · intro _; rfl

/-- C11, witness: a link failure leaves the handle 9 in the slot. -/
theorem handle_slot_witness :
    ∃ ret gl1 calls, djgp_gl_upload all_headers no_link_driver ["#ifdef VERTEX_SHADER"] 450
        false true 9 = .ok (ret, gl1, calls) ∧ ret = false ∧ gl1 = 9 := by
  obtain ⟨ret, gl1, calls, h, h1, _, h3⟩ := handle_slot all_headers no_link_driver
    ["#ifdef VERTEX_SHADER"] 450 false true 9 (by simp) (by simp)
  have hret : ret = false := by
    cases hr : ret
    · rfl
    · have := (h3.mp hr).2.2.2 rfl
      exact absurd this (by decide)
  exact ⟨ret, gl1, calls, h, hret, h1 hret⟩

/-- C24: when a build fails after the program object was created, that object has been
released and no other program has (in particular not the one held in the slot); when the
build succeeds, the program held in the slot before has been released exactly when it
was a valid program, and no other program has. -/
theorem program_release (H : gl_headers) (D : gl_driver) (program : djg_program)
    (version : Int) (compatible link : Bool) (gl : Nat) (hne : program ≠ [])
    (hlen : program.length < 2147483646) :
    ∃ ret gl1 calls,
      djgp_gl_upload H D program version compatible link gl = .ok (ret, gl1, calls) ∧
      (ret = false → gl_call.glCreateProgram D.glCreateProgram ∈ calls →
        D.glIsProgram D.glCreateProgram = true →
        gl_call.glDeleteProgram D.glCreateProgram ∈ calls ∧
        ∀ q, q ≠ D.glCreateProgram → gl_call.glDeleteProgram q ∉ calls) ∧
      (ret = true →
        (gl_call.glDeleteProgram gl ∈ calls ↔ D.glIsProgram gl = true) ∧
        ∀ q, q ≠ gl → gl_call.glDeleteProgram q ∉ calls) := by
  rw [upload_spec H D program version compatible link gl hne hlen]
  obtain ⟨hd0, hd1⟩ := fold_attach_delete H D D.glCreateProgram version compatible program
    (program.getLast hne) shader_stages [gl_call.glCreateProgram D.glCreateProgram]
    (by intro q hq; simp at hq)
  rcases outcome_cases H D program version compatible link gl (program.getLast hne) with
    ⟨_, he⟩ | ⟨_, hp, he⟩ | ⟨_, _, hr, he⟩ | ⟨_, _, hr, _, _, he⟩ | ⟨_, _, hr, _, he⟩
  · refine ⟨_, _, _, congrArg Except.ok he, fun _ h => ?_, fun h => absurd h (by simp)⟩
    simp at h
  · refine ⟨_, _, _, congrArg Except.ok he, fun _ _ h => ?_, fun h => absurd h (by simp)⟩
    rw [hp] at h
    exact absurd h (by simp)
  · refine ⟨_, _, _, congrArg Except.ok he, fun _ _ _ => ?_, fun h => absurd h (by simp)⟩
    obtain ⟨h1, h2⟩ := hd1 hr
    exact ⟨h1, fun q hq hmem => hq (h2 q hmem)⟩
  · refine ⟨_, _, _, congrArg Except.ok he, fun _ _ _ => ?_, fun h => absurd h (by simp)⟩
    refine ⟨by simp, fun q hq hmem => ?_⟩
    rcases List.mem_append.mp hmem with hmem | hmem
    · exact hd0 hr q hmem
    · simp at hmem
      exact hq hmem
  · refine ⟨_, _, _, congrArg Except.ok he, fun h => absurd h (by simp), fun _ => ⟨?_, ?_⟩⟩
    · constructor
      · intro hmem
        rcases List.mem_append.mp hmem with hmem | hmem
        · rcases List.mem_append.mp hmem with hmem | hmem
          · exact absurd hmem (hd0 hr gl)
          · cases link <;> simp at hmem
        · cases hg : D.glIsProgram gl
          · rw [hg] at hmem; simp at hmem
          · rfl
      · intro hg
        rw [hg]
        simp
    · intro q hq hmem
      rcases List.mem_append.mp hmem with hmem | hmem
      · rcases List.mem_append.mp hmem with hmem | hmem
        · exact hd0 hr q hmem
        · cases link <;> simp at hmem
      · cases hg : D.glIsProgram gl
        · rw [hg] at hmem; simp at hmem
        · rw [hg] at hmem
          simp at hmem
          exact hq hmem

/-- C24, witness: after a link failure the new program 1 has been released, the program 9
of the slot has not. -/
theorem program_release_witness :
    ∃ ret gl1 calls, djgp_gl_upload all_headers no_link_driver ["#ifdef VERTEX_SHADER"] 450
        false true 9 = .ok (ret, gl1, calls) ∧ ret = false ∧
      gl_call.glDeleteProgram 1 ∈ calls ∧ gl_call.glDeleteProgram 9 ∉ calls := by
  obtain ⟨ret, gl1, calls, h, h1, _⟩ := program_release all_headers no_link_driver
    ["#ifdef VERTEX_SHADER"] 450 false true 9 (by simp) (by simp)
  have hspec := upload_spec all_headers no_link_driver ["#ifdef VERTEX_SHADER"] 450 false true 9
    (by simp) (by simp)
  rw [hspec] at h
  have hval : upload_outcome all_headers no_link_driver ["#ifdef VERTEX_SHADER"] 450 false true 9
      "#ifdef VERTEX_SHADER" = (false, 9,
        gl_call.glCreateProgram 1 ::
          (shader_unit no_link_driver 1 450 false ["#ifdef VERTEX_SHADER"]
            shader_type.GL_VERTEX_SHADER ++
          [gl_call.glLinkProgram 1, gl_call.glDeleteProgram 1])) := by rfl
  have heq : (ret, gl1, calls) = (false, 9,
        gl_call.glCreateProgram 1 ::
          (shader_unit no_link_driver 1 450 false ["#ifdef VERTEX_SHADER"]
            shader_type.GL_VERTEX_SHADER ++
          [gl_call.glLinkProgram 1, gl_call.glDeleteProgram 1])) := by
    rw [← hval]
    exact (Except.ok.inj h).symm
  have hret : ret = false := congrArg Prod.fst heq
  have hcalls : calls = _ := congrArg (fun x => x.2.2) heq
  have hcreate : gl_call.glCreateProgram no_link_driver.glCreateProgram ∈ calls := by
    rw [hcalls]
    exact List.mem_cons_self _ _
  obtain ⟨hdel, hnot⟩ := h1 hret hcreate rfl
  exact ⟨ret, gl1, calls, by rw [hspec]; exact h, hret, hdel, hnot 9 (by decide)⟩

theorem project_qf_eq {α : Type} [LinearOrderedField α] (std pivot : Vector α)
    (hs : dot std std = 1) :
    project_qf std pivot = (std.x - pivot.x) * (std.x - pivot.x) +
      (std.y - pivot.y) * (std.y - pivot.y) + (std.z - pivot.z) * (std.z - pivot.z) := by
  unfold dot at hs
  unfold project_qf cross dot
  simp only
  linear_combination (pivot.x * pivot.x + pivot.y * pivot.y + pivot.z * pivot.z - 1) * hs

theorem project_qf_pos {α : Type} [LinearOrderedField α] (std pivot : Vector α)
    (hs : dot std std = 1) (hp : dot pivot pivot < 1) : 0 < project_qf std pivot := by
  rw [project_qf_eq std pivot hs]
  have h1 := mul_self_nonneg (std.x - pivot.x)
  have h2 := mul_self_nonneg (std.y - pivot.y)
  have h3 := mul_self_nonneg (std.z - pivot.z)
  rcases lt_or_eq_of_le (add_nonneg (add_nonneg h1 h2) h3) with h | h
  · exact h
  · exfalso
    have e1 : (std.x - pivot.x) * (std.x - pivot.x) = 0 := by
      apply le_antisymm _ h1
      rw [h]
      linarith
    have e2 : (std.y - pivot.y) * (std.y - pivot.y) = 0 := by
      apply le_antisymm _ h2
      rw [h]
      linarith
    have e3 : (std.z - pivot.z) * (std.z - pivot.z) = 0 := by
      apply le_antisymm _ h3
      rw [h]
      linarith
    have x1 : std.x = pivot.x := sub_eq_zero.mp (mul_self_eq_zero.mp e1)
    have y1 : std.y = pivot.y := sub_eq_zero.mp (mul_self_eq_zero.mp e2)
    have z1 : std.z = pivot.z := sub_eq_zero.mp (mul_self_eq_zero.mp e3)
    unfold dot at hs hp
    rw [x1, y1, z1] at hs
    rw [hs] at hp
    exact lt_irrefl _ hp

/-- C30: over an ordered field (the reals in particular), for every unit vector `std` and
every `pivot` of length less than 1, the denominator `qf` of
`PivotPhaseFunction::project` is strictly positive and `project std pivot` is a unit
vector. -/
theorem project_unit {α : Type} [LinearOrderedField α] (std pivot : Vector α)
    (hs : dot std std = 1) (hp : dot pivot pivot < 1) :
    0 < project_qf std pivot ∧ dot (project std pivot) (project std pivot) = 1 := by
  have hq := project_qf_pos std pivot hs hp
  refine ⟨hq, ?_⟩
  have hne : project_qf std pivot ≠ 0 := ne_of_gt hq
  have hproj : project std pivot =
      Vector.div (Vector.sub (Vector.scale (dot std pivot - 1) (Vector.sub std pivot))
        (cross (Vector.sub std pivot) (cross std pivot))) (project_qf std pivot) := rfl
  rw [hproj]
  generalize hQ : project_qf std pivot = Q at hne
  have hQ2 : Q = 1 - 2 * (std.x * pivot.x + std.y * pivot.y + std.z * pivot.z) +
      (pivot.x * pivot.x + pivot.y * pivot.y + pivot.z * pivot.z) := by
    rw [← hQ, project_qf_eq std pivot hs]
    unfold dot at hs
    linear_combination hs
  unfold dot at hs
  unfold Vector.div Vector.sub Vector.scale cross dot
  simp only
  field_simp
  rw [hQ2]
  linear_combination
    (((pivot.x * pivot.x + pivot.y * pivot.y + pivot.z * pivot.z) - 1) ^ 2 + 2 * (((pivot.x * pivot.x + pivot.y * pivot.y + pivot.z * pivot.z) - 1) * (std.x * pivot.x + std.y * pivot.y + std.z * pivot.z) + (2 - 2 * (std.x * pivot.x + std.y * pivot.y + std.z * pivot.z)) * (pivot.x * pivot.x + pivot.y * pivot.y + pivot.z * pivot.z)) +
    ((std.x * std.x + std.y * std.y + std.z * std.z) - 1) * (pivot.x * pivot.x + pivot.y * pivot.y + pivot.z * pivot.z)) * hs

/-- C30, witness: over the reals, `std = (0, 0, 1)` and the pivot `(0, 0, 1/2)` of the
phase function with `g = 1/2`. -/
theorem project_unit_witness :
    0 < project_qf (Vector.mk (0 : ℝ) 0 1) (Vector.mk 0 0 (1 / 2)) ∧
    dot (project (Vector.mk (0 : ℝ) 0 1) (Vector.mk 0 0 (1 / 2)))
      (project (Vector.mk (0 : ℝ) 0 1) (Vector.mk 0 0 (1 / 2))) = 1 :=
  project_unit (Vector.mk (0 : ℝ) 0 1) (Vector.mk 0 0 (1 / 2))
    (by unfold dot; norm_num) (by unfold dot; norm_num)

/-- One round `x | x >> w` of the bit smearing doubles the window of set bits. -/
theorem smear_step (n a w : Nat)
    (ha : ∀ k, a.testBit k = true ↔ ∃ j, j < w ∧ n.testBit (k + j) = true) :
    ∀ k, (a ||| a >>> w).testBit k = true ↔ ∃ j, j < 2 * w ∧ n.testBit (k + j) = true := by
  intro k
  rw [Nat.testBit_lor, Nat.testBit_shiftRight, Bool.or_eq_true, ha, ha]
  constructor
  · rintro (⟨j, hj, h⟩ | ⟨j, hj, h⟩)
    · exact ⟨j, by omega, h⟩
    · refine ⟨w + j, by omega, ?_⟩
      rw [← Nat.add_assoc, Nat.add_comm k w]
      exact h
  · rintro ⟨j, hj, h⟩
    by_cases hjw : j < w
    · exact Or.inl ⟨j, hjw, h⟩
    · refine Or.inr ⟨j - w, by omega, ?_⟩
      have : w + k + (j - w) = k + j := by omega
      rw [this]
      exact h

/-- The five rounds of bit smearing set every bit below the highest set bit. -/
theorem smear_spec (n : Nat) (hn : n < 2 ^ 32) :
    [1, 2, 4, 8, 16].foldl (fun (x : Nat) (i : Nat) => x ||| x >>> i) n = 2 ^ n.size - 1 := by
  have h0 : ∀ k, n.testBit k = true ↔ ∃ j, j < 1 ∧ n.testBit (k + j) = true := by
    intro k
    constructor
    · intro h; exact ⟨0, by omega, h⟩
    · rintro ⟨j, hj, h⟩
      have : j = 0 := by omega
      subst this
      exact h
  have h1 := smear_step n _ 1 h0
  have h2 := smear_step n _ 2 h1
  have h3 := smear_step n _ 4 h2
  have h4 := smear_step n _ 8 h3
  have h5 := smear_step n _ 16 h4
  apply Nat.eq_of_testBit_eq
  intro k
  rw [Nat.testBit_two_pow_sub_one]
  show ((((((n ||| n >>> 1) ||| (n ||| n >>> 1) >>> 2) ||| _ >>> 4) ||| _ >>> 8) ||| _ >>> 16)).testBit k = _
  by_cases hk : k < n.size
  · rw [decide_eq_true hk, h5]
    have hpos : 0 < n.size := by omega
    have hn0 : n ≠ 0 := by
      intro h; rw [h] at hpos; simp at hpos
    have hsz : n.size ≤ 32 := Nat.size_le.mpr hn
    have htop : n.testBit (n.size - 1) = true := by
      have h1 : 2 ^ (n.size - 1) ≤ n := Nat.lt_size.mp (by omega)
      have h2 : n < 2 ^ (n.size - 1 + 1) := by
        have := Nat.lt_size_self n
        rwa [Nat.sub_add_cancel hpos]
      have hdiv : n / 2 ^ (n.size - 1) = 1 :=
        Nat.div_eq_of_lt_le (by rw [Nat.one_mul]; exact h1)
          (by rw [pow_succ] at h2; omega)
      rw [Nat.testBit_to_div_mod, hdiv]
      rfl
    refine ⟨n.size - 1 - k, by omega, ?_⟩
    have : k + (n.size - 1 - k) = n.size - 1 := by omega
    rw [this]
    exact htop
  · rw [decide_eq_false hk]
    cases hb : (((((n ||| n >>> 1) ||| (n ||| n >>> 1) >>> 2) ||| _ >>> 4) ||| _ >>> 8) ||| _ >>> 16).testBit k
    · rfl
    · exfalso
      obtain ⟨j, _, hj⟩ := (h5 k).mp hb
      have hlt : n < 2 ^ (k + j) := by
        have := Nat.lt_size_self n
        exact lt_of_lt_of_le this (Nat.pow_le_pow_right (by norm_num) (by omega))
      rw [Nat.testBit_lt_two_pow hlt] at hj
      exact absurd hj (by simp)

theorem smear_cast (n : Nat) :
    [1, 2, 4, 8, 16].foldl (fun (x : Int) (i : Nat) => Int.lor x (Int.shiftRight x i)) (n : Int) =
      (([1, 2, 4, 8, 16].foldl (fun (x : Nat) (i : Nat) => x ||| x >>> i) n : Nat) : Int) := rfl

theorem size_pred_eq_clog (m : Nat) (hm : 1 ≤ m) : (m - 1).size = Nat.clog 2 m := by
  apply le_antisymm
  · rw [Nat.size_le]
    have := Nat.le_pow_clog (by norm_num : 1 < 2) m
    omega
  · apply (Nat.le_pow_iff_clog_le (by norm_num)).mp
    have := Nat.lt_size_self (m - 1)
    omega

/-- The function `djgt__exp2` returns the least power of two that is at least `m`. -/
theorem exp2_spec (m : Nat) (h1 : 1 ≤ m) (h2 : m ≤ 2 ^ 30) :
    djgt__exp2 (m : Int) = ((2 ^ Nat.clog 2 m : Nat) : Int) ∧ Nat.clog 2 m ≤ 30 := by
  have hle : Nat.clog 2 m ≤ 30 := (Nat.le_pow_iff_clog_le (by norm_num)).mp h2
  refine ⟨?_, hle⟩
  have hsub : sub32 (m : Int) 1 = ((m - 1 : Nat) : Int) := by
    rw [sub32_of_bounds _ _ (by omega) (by omega)]
    omega
  have hlt : m - 1 < 2 ^ 32 := by omega
  have hpow : 2 ^ Nat.clog 2 m ≤ 2 ^ 30 := Nat.pow_le_pow_right (by norm_num) hle
  have hpos : 0 < 2 ^ Nat.clog 2 m := pow_pos (by norm_num) _
  unfold djgt__exp2
  simp only [hsub]
  rw [smear_cast, smear_spec (m - 1) hlt, size_pred_eq_clog m h1,
    add32_of_bounds _ _ (by omega) (by omega)]
  omega

/-- The loop of `djgt__log2` on a power of two `2 ^ k` ends after `k` iterations. -/
theorem log2_loop_spec (k : Nat) :
    ∀ (fuel : Nat) (e : Nat), k < fuel → e + k < 2147483648 →
      djgt__log2_loop fuel ((2 ^ k : Nat) : Int) (e : Int) = .ok ((e + k : Nat) : Int) := by
  induction k with
  | zero =>
    intro fuel e hf _
    obtain ⟨f, rfl⟩ : ∃ f, fuel = f + 1 := ⟨fuel - 1, by omega⟩
    unfold djgt__log2_loop
    have : Int.land ((2 ^ 0 : Nat) : Int) 1 ≠ 0 := by decide
    rw [if_neg this]
    rfl
  | succ k ih =>
    intro fuel e hf he
    obtain ⟨f, rfl⟩ : ∃ f, fuel = f + 1 := ⟨fuel - 1, by omega⟩
    unfold djgt__log2_loop
    have hland : Int.land ((2 ^ (k + 1) : Nat) : Int) 1 = 0 := by
      show (((2 ^ (k + 1) &&& 1 : Nat)) : Int) = 0
      rw [Nat.and_one_is_mod, pow_succ, Nat.mul_mod_left]
      rfl
    have hshift : Int.shiftRight ((2 ^ (k + 1) : Nat) : Int) 1 = ((2 ^ k : Nat) : Int) := by
      show (((2 ^ (k + 1) >>> 1 : Nat)) : Int) = _
      rw [Nat.shiftRight_eq_div_pow, pow_succ]
      simp
    have hadd : add32 (e : Int) 1 = ((e + 1 : Nat) : Int) := by
      rw [add32_of_bounds _ _ (by omega) (by omega)]
      rfl
    rw [if_pos hland, hshift, hadd, ih f (e + 1) (by omega) (by omega)]
    congr 2
    omega

theorem max3_eq (x y z : Int) : djgt__max3 x y z = max (max x y) z := by
  unfold djgt__max3
  simp only
  by_cases h1 : x < y
  · rw [if_pos h1, max_eq_right (le_of_lt h1)]
    by_cases h2 : y < z
    · rw [if_pos h2, max_eq_right (le_of_lt h2)]
    · rw [if_neg h2, max_eq_left (not_lt.mp h2)]
  · rw [if_neg h1, max_eq_left (not_lt.mp h1)]
    by_cases h2 : x < z
    · rw [if_pos h2, max_eq_right (le_of_lt h2)]
    · rw [if_neg h2, max_eq_left (not_lt.mp h2)]

/-- The function `djgt__mipcnt` returns, for dimensions whose maximum `m` lies in
`[1, 2^30]`, the exponent of the least power of two that is at least `m`, plus one. -/
theorem mipcnt_spec (fuel : Nat) (x y z : Int) (m : Nat) (hm : djgt__max3 x y z = (m : Int))
    (h1 : 1 ≤ m) (h2 : m ≤ 2 ^ 30) (hfuel : 31 ≤ fuel) :
    djgt__mipcnt fuel x y z = .ok ((Nat.clog 2 m + 1 : Nat) : Int) := by
  obtain ⟨hexp, hle⟩ := exp2_spec m h1 h2
  unfold djgt__mipcnt djgt__log2
  rw [hm, hexp]
  have hloop := log2_loop_spec (Nat.clog 2 m) fuel 0 (by omega) (by omega)
  have h0 : ((0 : Nat) : Int) = 0 := rfl
  rw [h0] at hloop
  simp only [hloop]
  rw [add32_of_bounds _ _ (by omega) (by omega)]
  simp

/-- C27, failing input: for a texture of 3 x 3 texels `djgt__mipcnt` returns 3, while a
complete mip chain of that size has `floor(log2 3) + 1 = 2` levels (3 x 3 and 1 x 1):
`djgt__exp2` rounds up to the next power of two. -/
theorem mipcnt_rounds_up :
    djgt__mipcnt 32 3 3 0 = .ok 3 ∧ Nat.log 2 3 + 1 = 2 := by
  constructor
  · have h := mipcnt_spec 32 3 3 0 3 (by rw [max3_eq]; rfl) (by norm_num) (by norm_num)
      (by norm_num)
    have hc : Nat.clog 2 3 = 2 := by
      apply le_antisymm
      · exact (Nat.le_pow_iff_clog_le (by norm_num)).mp (by norm_num)
      · exact (Nat.pow_lt_iff_lt_clog (by norm_num)).mp (by norm_num)
    rw [hc] at h
    exact h
  · have : Nat.log 2 3 = 1 := by
      rw [Nat.log_eq_iff (by norm_num)]
      norm_num
    rw [this]

theorem set_glpus_eq (state : djgt__glpss) (g : gl_state) :
    djgt__set_glpus state g = { g with unpack := state } := rfl

/-- What `djgt__glTexSubImage1D` leaves behind. -/
theorem sub1D_spec (D : gl_tex_driver) (texture : djg_texture) (target : gl_target)
    (xoffset : Int) (g : gl_state) :
    (djgt__glTexSubImage1D D texture target xoffset g).2.unpack = g.unpack ∧
    (djgt__glTexSubImage1D D texture target xoffset g).2.calls =
      g.calls ++ [tex_call.glTexSubImage1D target xoffset texture.x
        (djgt__glformat texture) (djgt__gltype texture) texture.texels] ∧
    (djgt__glTexSubImage1D D texture target xoffset g).2.error = false ∧
    (djgt__glTexSubImage1D D texture target xoffset g).1 =
      !(g.error || D.raises g.calls (tex_call.glTexSubImage1D target xoffset texture.x
        (djgt__glformat texture) (djgt__gltype texture) texture.texels)) := by
  unfold djgt__glTexSubImage1D djgt__validate djgt__get_glpus
  by_cases h : pus = g.unpack
  · simp [h, gl_do]
  · simp [h, gl_do, set_glpus_eq]

/-- What `djgt__glTexSubImage2D` leaves behind. -/
theorem sub2D_spec (D : gl_tex_driver) (texture : djg_texture) (target : gl_target)
    (xoffset yoffset : Int) (g : gl_state) :
    (djgt__glTexSubImage2D D texture target xoffset yoffset g).2.unpack = g.unpack ∧
    (djgt__glTexSubImage2D D texture target xoffset yoffset g).2.calls =
      g.calls ++ [tex_call.glTexSubImage2D target xoffset yoffset texture.x texture.y
        (djgt__glformat texture) (djgt__gltype texture) texture.texels] ∧
    (djgt__glTexSubImage2D D texture target xoffset yoffset g).2.error = false ∧
    (djgt__glTexSubImage2D D texture target xoffset yoffset g).1 =
      !(g.error || D.raises g.calls (tex_call.glTexSubImage2D target xoffset yoffset
        texture.x texture.y (djgt__glformat texture) (djgt__gltype texture)
        texture.texels)) := by
  unfold djgt__glTexSubImage2D djgt__validate djgt__get_glpus
  by_cases h : pus = g.unpack
  · simp [h, gl_do]
  · simp [h, gl_do, set_glpus_eq]

/-- What `djgt__glTexSubImage3D` leaves behind. -/
theorem sub3D_spec (D : gl_tex_driver) (texture : djg_texture) (target : gl_target)
    (xoffset yoffset zoffset : Int) (g : gl_state) :
    (djgt__glTexSubImage3D D texture target xoffset yoffset zoffset g).2.unpack = g.unpack ∧
    (djgt__glTexSubImage3D D texture target xoffset yoffset zoffset g).2.calls =
      g.calls ++ [tex_call.glTexSubImage3D target xoffset yoffset zoffset texture.x texture.y
        1 (djgt__glformat texture) (djgt__gltype texture) texture.texels] ∧
    (djgt__glTexSubImage3D D texture target xoffset yoffset zoffset g).2.error = false ∧
    (djgt__glTexSubImage3D D texture target xoffset yoffset zoffset g).1 =
      !(g.error || D.raises g.calls (tex_call.glTexSubImage3D target xoffset yoffset zoffset
        texture.x texture.y 1 (djgt__glformat texture) (djgt__gltype texture)
        texture.texels)) := by
  unfold djgt__glTexSubImage3D djgt__validate djgt__get_glpus
  by_cases h : pus = g.unpack
  · simp [h, gl_do]
  · simp [h, gl_do, set_glpus_eq]

theorem upload_rows_unpack (D : gl_tex_driver) (first : djg_texture) (target : gl_target)
    (it : List djg_texture) :
    ∀ (i : Int) (v : Bool) (g : gl_state),
      (upload_rows D first target it i v g).2.unpack = g.unpack := by
  induction it with
  | nil => intro i v g; rfl
  | cons a it ih =>
    intro i v g
    rw [upload_rows, ih]
    exact (sub2D_spec D first target 0 i g).1

theorem upload_faces_unpack (D : gl_tex_driver) (it : List djg_texture) :
    ∀ (i : Int) (v : Bool) (g : gl_state),
      (upload_faces D it i v g).2.unpack = g.unpack := by
  induction it with
  | nil => intro i v g; rfl
  | cons a it ih =>
    intro i v g
    rw [upload_faces]
    by_cases h : i < 6 ∧ v = true
    · rw [if_pos h, ih]
      exact (sub2D_spec D a (gl_target.cube_face i) 0 0 g).1
    · rw [if_neg h]

theorem upload_layers_unpack (D : gl_tex_driver) (target : gl_target) (z : Int)
    (it : List djg_texture) :
    ∀ (i : Int) (v : Bool) (g : gl_state) (r : Bool × gl_state),
      upload_layers D target z it i v g = .ok r → r.2.unpack = g.unpack := by
  induction it with
  | nil =>
    intro i v g r h
    rw [upload_layers] at h
    by_cases hc : i < z ∧ v = true
    · rw [if_pos hc] at h; exact absurd h (by simp)
    · rw [if_neg hc] at h
      rw [← Except.ok.inj h]
  | cons a it ih =>
    intro i v g r h
    rw [upload_layers] at h
    by_cases hc : i < z ∧ v = true
    · rw [if_pos hc] at h
      rw [ih _ _ _ r h]
      exact (sub3D_spec D a target 0 0 i g).1
    · rw [if_neg hc] at h
      rw [← Except.ok.inj h]

theorem upload_slices_unpack (D : gl_tex_driver) (target : gl_target) (z : Int)
    (it : List djg_texture) :
    ∀ (i : Int) (v : Bool) (g : gl_state) (r : Bool × gl_state),
      upload_slices D target z it i v g = .ok r → r.2.unpack = g.unpack := by
  induction it with
  | nil =>
    intro i v g r h
    rw [upload_slices] at h
    by_cases hc : i < z ∧ v = true
    · rw [if_pos hc] at h; exact absurd h (by simp)
    · rw [if_neg hc] at h
      rw [← Except.ok.inj h]
  | cons a it ih =>
    intro i v g r h
    rw [upload_slices] at h
    by_cases hc : i < z ∧ v = true
    · rw [if_pos hc] at h
      rw [ih _ _ _ r h]
      exact (sub3D_spec D a target 0 0 z g).1
    · rw [if_neg hc] at h
      rw [← Except.ok.inj h]

theorem gl_do_fold_unpack (D : gl_tex_driver) (cs : List tex_call) :
    ∀ g : gl_state, (cs.foldl (fun g c => gl_do D c g) g).unpack = g.unpack := by
  induction cs with
  | nil => intro g; rfl
  | cons c cs ih => intro g; rw [List.foldl_cons, ih]; rfl

theorem allocate_unpack (D : gl_tex_driver) (fuel : Nat) (immutable : Bool) (x y z : Int)
    (storage : Int → tex_call) (image : List tex_call) (g g1 : gl_state)
    (h : allocate D fuel immutable x y z storage image g = .ok g1) : g1.unpack = g.unpack := by
  unfold allocate at h
  cases immutable
  · rw [if_neg (by simp)] at h
    rw [← Except.ok.inj h]
    exact gl_do_fold_unpack D image g
  · rw [if_pos rfl] at h
    cases hm : djgt__mipcnt fuel x y z with
    | error e => rw [hm] at h; exact absurd h (by simp)
    | ok levels =>
      rw [hm] at h
      rw [← Except.ok.inj h]
      rfl

theorem bind_ok_inv {β γ : Type} (a : Exec β) (f : β → Exec γ) (c : γ)
    (h : (a >>= f) = .ok c) : ∃ b, a = .ok b ∧ f b = .ok c := by
  cases a with
  | error e => exact absurd h (by simp [bind, Except.bind])
  | ok b => exact ⟨b, rfl, h⟩

theorem switch_case_pure (g : gl_state) (alloc : Exec gl_state)
    (F : gl_state → Bool × gl_state) (v : Bool) (g1 : gl_state)
    (hF : ∀ g2, (F g2).2.unpack = g2.unpack)
    (halloc : ∀ g2, alloc = .ok g2 → g2.unpack = g.unpack)
    (h : (alloc >>= fun g2 => Except.ok (some (F g2))) = .ok (some (v, g1))) :
    g1.unpack = g.unpack := by
  obtain ⟨g2, ha, hb⟩ := bind_ok_inv _ _ _ h
  have hb1 : F g2 = (v, g1) := Option.some.inj (Except.ok.inj hb)
  have := hF g2
  rw [hb1] at this
  rw [← halloc g2 ha]
  exact this

theorem switch_case_loop (g : gl_state) (alloc : Exec gl_state)
    (F : gl_state → Exec (Bool × gl_state)) (v : Bool) (g1 : gl_state)
    (hF : ∀ g2 r, F g2 = .ok r → r.2.unpack = g2.unpack)
    (halloc : ∀ g2, alloc = .ok g2 → g2.unpack = g.unpack)
    (h : (alloc >>= fun g2 => F g2 >>= fun r => Except.ok (some r)) = .ok (some (v, g1))) :
    g1.unpack = g.unpack := by
  obtain ⟨g2, ha, hb⟩ := bind_ok_inv _ _ _ h
  obtain ⟨r, hc, hd⟩ := bind_ok_inv _ _ _ hb
  have hd1 : r = (v, g1) := Option.some.inj (Except.ok.inj hd)
  have := hF g2 r hc
  rw [hd1] at this
  rw [← halloc g2 ha]
  exact this

theorem upload_switch_unpack (D : gl_tex_driver) (fuel : Nat) (texture : djg_texture_list)
    (first : djg_texture) (target : gl_target) (internalformat : Int) (immutable : Bool)
    (g : gl_state) (v : Bool) (g1 : gl_state)
    (h : upload_switch D fuel texture first target internalformat immutable g =
      .ok (some (v, g1))) : g1.unpack = g.unpack := by
  have hal : ∀ x y z storage image g2,
      allocate D fuel immutable x y z storage image g = .ok g2 → g2.unpack = g.unpack :=
    fun x y z storage image g2 ha => allocate_unpack D fuel immutable x y z storage image g g2 ha
  unfold upload_switch at h
  cases target
  case GL_TEXTURE_1D =>
    exact switch_case_pure g _ (fun g2 => (true, (djgt__glTexSubImage1D D first _ 0 g2).2)) v g1
      (fun g2 => (sub1D_spec D first _ 0 g2).1) (hal _ _ _ _ _) h
  case GL_PROXY_TEXTURE_1D =>
    exact switch_case_pure g _ (fun g2 => (true, (djgt__glTexSubImage1D D first _ 0 g2).2)) v g1
      (fun g2 => (sub1D_spec D first _ 0 g2).1) (hal _ _ _ _ _) h
  case GL_TEXTURE_1D_ARRAY =>
    exact switch_case_pure g _ (fun g2 => upload_rows D first _ texture.next 0 true g2) v g1
      (fun g2 => upload_rows_unpack D first _ _ _ _ g2) (hal _ _ _ _ _) h
  case GL_PROXY_TEXTURE_1D_ARRAY =>
    exact switch_case_pure g _ (fun g2 => upload_rows D first _ texture.next 0 true g2) v g1
      (fun g2 => upload_rows_unpack D first _ _ _ _ g2) (hal _ _ _ _ _) h
  case GL_TEXTURE_2D =>
    exact switch_case_pure g _ (fun g2 => djgt__glTexSubImage2D D first _ 0 0 g2) v g1
      (fun g2 => (sub2D_spec D first _ 0 0 g2).1) (hal _ _ _ _ _) h
  case GL_TEXTURE_RECTANGLE =>
    exact switch_case_pure g _ (fun g2 => djgt__glTexSubImage2D D first _ 0 0 g2) v g1
      (fun g2 => (sub2D_spec D first _ 0 0 g2).1) (hal _ _ _ _ _) h
  case GL_PROXY_TEXTURE_2D =>
    exact switch_case_pure g _ (fun g2 => djgt__glTexSubImage2D D first _ 0 0 g2) v g1
      (fun g2 => (sub2D_spec D first _ 0 0 g2).1) (hal _ _ _ _ _) h
  case GL_PROXY_TEXTURE_RECTANGLE =>
    exact switch_case_pure g _ (fun g2 => djgt__glTexSubImage2D D first _ 0 0 g2) v g1
      (fun g2 => (sub2D_spec D first _ 0 0 g2).1) (hal _ _ _ _ _) h
  case GL_TEXTURE_CUBE_MAP =>
    exact switch_case_pure g _ (fun g2 => upload_faces D texture.next 0 true g2) v g1
      (fun g2 => upload_faces_unpack D _ _ _ g2) (hal _ _ _ _ _) h
  case GL_TEXTURE_2D_ARRAY =>
    exact switch_case_loop g _
      (fun g2 => upload_layers D _ (djgt__count texture) texture.next 0 true g2) v g1
      (fun g2 r hr => upload_layers_unpack D _ _ _ _ _ g2 r hr) (hal _ _ _ _ _) h
  case GL_PROXY_TEXTURE_2D_ARRAY =>
    exact switch_case_loop g _
      (fun g2 => upload_layers D _ (djgt__count texture) texture.next 0 true g2) v g1
      (fun g2 r hr => upload_layers_unpack D _ _ _ _ _ g2 r hr) (hal _ _ _ _ _) h
  case GL_TEXTURE_3D =>
    exact switch_case_loop g _
      (fun g2 => upload_slices D _ (djgt__count texture) texture.next 0 true g2) v g1
      (fun g2 r hr => upload_slices_unpack D _ _ _ _ _ g2 r hr) (hal _ _ _ _ _) h
  case GL_PROXY_TEXTURE_3D =>
    exact switch_case_loop g _
      (fun g2 => upload_slices D _ (djgt__count texture) texture.next 0 true g2) v g1
      (fun g2 r hr => upload_slices_unpack D _ _ _ _ _ g2 r hr) (hal _ _ _ _ _) h
  case cube_face i => exact absurd h (by simp)
  case other n => exact absurd h (by simp)

/-- The tail of `djgt_gl_upload`, after the `switch`, keeps the unpack state. -/
theorem upload_unpack (D : gl_tex_driver) (fuel : Nat) (texture : djg_texture_list)
    (target : gl_target) (internalformat : Int) (immutable mipmap : Bool) (gl : Nat)
    (g : gl_state) (r : Bool × Nat × gl_state)
    (h : djgt_gl_upload D fuel texture target internalformat immutable mipmap gl g = .ok r) :
    r.2.2.unpack = g.unpack := by
  unfold djgt_gl_upload at h
  by_cases hc : djgt__count texture = 0
  · simp only [hc, if_true] at h
    rw [← Except.ok.inj h]
    rfl
  · simp only [hc, if_false] at h
    cases hn : texture.next with
    | nil =>
      rw [hn] at h
      exact absurd h (by simp)
    | cons first rest =>
      rw [hn] at h
      simp only at h
      obtain ⟨r0, hs, hb⟩ := bind_ok_inv _ _ _ h
      cases r0 with
      | none =>
        simp only at hb
        rw [← Except.ok.inj hb]
        rfl
      | some p =>
        obtain ⟨v, g3⟩ := p
        have hu := upload_switch_unpack D fuel texture first target internalformat immutable
          _ v g3 hs
        simp only at hb
        have hu4 : (if (mipmap && v) = true then gl_do D (tex_call.glGenerateMipmap target) g3
            else g3).unpack = g3.unpack := by
          split <;> rfl
        generalize (if (mipmap && v) = true then gl_do D (tex_call.glGenerateMipmap target) g3
            else g3) = g4 at hb hu4
        by_cases hv : (v && (djgt__validate g4).1) = false
        · rw [if_pos hv] at hb
          rw [← Except.ok.inj hb]
          have e : (djgt__validate g4).2.unpack = g4.unpack := rfl
          show (djgt__validate g4).2.unpack = _
          rw [e, hu4, hu]
          rfl
        · rw [if_neg hv] at hb
          rw [← Except.ok.inj hb]
          have e : (if D.glIsTexture gl = true then
              gl_do D (tex_call.glDeleteTextures gl) (djgt__validate g4).2
              else (djgt__validate g4).2).unpack = g4.unpack := by
            split <;> rfl
          show (if D.glIsTexture gl = true then
            gl_do D (tex_call.glDeleteTextures gl) (djgt__validate g4).2
            else (djgt__validate g4).2).unpack = _
          rw [e, hu4, hu]
          rfl

/-- C22: each of the three sub-image helpers, and every call of `djgt_gl_upload` that
returns, leaves the nine pixel unpack store parameters as it found them, whether they
equalled the values `pus` needed by the upload (nothing is written) or not (they are set
to `pus`, then set back). -/
theorem unpack_state_preserved (D : gl_tex_driver) (layer : djg_texture) (target : gl_target)
    (xoffset yoffset zoffset : Int) (fuel : Nat) (texture : djg_texture_list)
    (internalformat : Int) (immutable mipmap : Bool) (gl : Nat) (g : gl_state) :
    (djgt__glTexSubImage1D D layer target xoffset g).2.unpack = g.unpack ∧
    (djgt__glTexSubImage2D D layer target xoffset yoffset g).2.unpack = g.unpack ∧
    (djgt__glTexSubImage3D D layer target xoffset yoffset zoffset g).2.unpack = g.unpack ∧
    ∀ r, djgt_gl_upload D fuel texture target internalformat immutable mipmap gl g = .ok r →
      r.2.2.unpack = g.unpack :=
  ⟨(sub1D_spec D layer target xoffset g).1, (sub2D_spec D layer target xoffset yoffset g).1,
    (sub3D_spec D layer target xoffset yoffset zoffset g).1,
    fun r h => upload_unpack D fuel texture target internalformat immutable mipmap gl g r h⟩

theorem count_nodes_length (l : List djg_texture) (h : l.length < 2147483647) :
    djgt__count_nodes l = (l.length : Int) := by
  induction l with
  | nil => rfl
  | cons a it ih =>
    have hl : (a :: it).length = it.length + 1 := rfl
    rw [hl] at h
    show add32 (djgt__count_nodes it) 1 = _
    rw [ih (by omega), add32_of_bounds _ _ (by omega) (by omega), hl]
    push_cast
    rfl

theorem sub_image_calls_append (a b : List tex_call) :
    sub_image_calls (a ++ b) = sub_image_calls a ++ sub_image_calls b := by
  unfold sub_image_calls
  rw [List.filter_append]

theorem gl_do_quiet (D : gl_tex_driver) (hD : ∀ h c, D.raises h c = false) (c : tex_call)
    (g : gl_state) :
    (gl_do D c g).calls = g.calls ++ [c] ∧ (gl_do D c g).error = g.error := by
  unfold gl_do
  simp [hD]

/-- The loop over the faces of a cubemap, when no call raises an error: one upload per
layer, to the face with the number of the layer, for the first six layers. -/
theorem upload_faces_spec (D : gl_tex_driver) (hD : ∀ h c, D.raises h c = false)
    (it : List djg_texture) :
    ∀ (n : Nat) (g : gl_state), g.error = false → n ≤ 6 →
      (upload_faces D it (n : Int) true g).1 = true ∧
      (upload_faces D it (n : Int) true g).2.error = false ∧
      (upload_faces D it (n : Int) true g).2.calls =
        g.calls ++ ((it.take (6 - n)).enumFrom n).map face_upload := by
  induction it with
  | nil =>
    intro n g hg _
    refine ⟨rfl, hg, ?_⟩
    show g.calls = _
    simp
  | cons a it ih =>
    intro n g hg hn
    rw [upload_faces]
    by_cases h6 : n < 6
    · have hc : (n : Int) < 6 ∧ true = true := ⟨by omega, rfl⟩
      rw [if_pos hc]
      obtain ⟨_, h2, h3, h4⟩ := sub2D_spec D a (gl_target.cube_face (n : Int)) 0 0 g
      have hr : (djgt__glTexSubImage2D D a (gl_target.cube_face (n : Int)) 0 0 g).1 = true := by
        rw [h4, hg, hD]
        rfl
      have hadd : add32 (n : Int) 1 = ((n + 1 : Nat) : Int) := by
        rw [add32_of_bounds _ _ (by omega) (by omega)]
        rfl
      simp only [hr, hadd, Bool.and_self]
      obtain ⟨i1, i2, i3⟩ := ih (n + 1) _ h3 (by omega)
      refine ⟨i1, i2, ?_⟩
      rw [i3, h2]
      have h6n : 6 - n = (6 - (n + 1)) + 1 := by omega
      rw [h6n, List.take_succ_cons, List.enumFrom_cons, List.map_cons, List.append_assoc]
      rfl
    · have hc : ¬ ((n : Int) < 6 ∧ true = true) := by
        intro h
        omega
      rw [if_neg hc]
      refine ⟨rfl, hg, ?_⟩
      have : 6 - n = 0 := by omega
      rw [this]
      simp

theorem gl_do_fold_quiet (D : gl_tex_driver) (hD : ∀ h c, D.raises h c = false)
    (cs : List tex_call) :
    ∀ g : gl_state, (cs.foldl (fun g c => gl_do D c g) g).calls = g.calls ++ cs ∧
      (cs.foldl (fun g c => gl_do D c g) g).error = g.error := by
  induction cs with
  | nil => intro g; exact ⟨by simp, rfl⟩
  | cons c cs ih =>
    intro g
    rw [List.foldl_cons]
    obtain ⟨h1, h2⟩ := ih (gl_do D c g)
    obtain ⟨h3, h4⟩ := gl_do_quiet D hD c g
    rw [h1, h2, h3, h4]
    exact ⟨by simp, rfl⟩

/-- The storage allocation returns when the mip count is defined, and transfers no
texels. -/
theorem allocate_quiet (D : gl_tex_driver) (hD : ∀ h c, D.raises h c = false) (fuel : Nat)
    (immutable : Bool) (x y z : Int) (storage : Int → tex_call) (image : List tex_call)
    (g : gl_state)
    (hst : ∀ l, sub_image_calls [storage l] = [])
    (him : sub_image_calls image = [])
    (himm : immutable = true → ∃ m : Nat, djgt__max3 x y z = (m : Int) ∧ 1 ≤ m ∧ m ≤ 2 ^ 30 ∧
      31 ≤ fuel) :
    ∃ g1, allocate D fuel immutable x y z storage image g = .ok g1 ∧ g1.error = g.error ∧
      sub_image_calls g1.calls = sub_image_calls g.calls := by
  unfold allocate
  cases immutable
  · rw [if_neg (by simp)]
    obtain ⟨h1, h2⟩ := gl_do_fold_quiet D hD image g
    refine ⟨_, rfl, h2, ?_⟩
    rw [h1, sub_image_calls_append, him, List.append_nil]
  · rw [if_pos rfl]
    obtain ⟨m, hm, h1, h2, hf⟩ := himm rfl
    rw [mipcnt_spec fuel x y z m hm h1 h2 hf]
    obtain ⟨h3, h4⟩ := gl_do_quiet D hD (storage ((Nat.clog 2 m + 1 : Nat) : Int)) g
    refine ⟨_, rfl, h4, ?_⟩
    rw [h3, sub_image_calls_append, hst, List.append_nil]

/-- The part of `djgt_gl_upload` around the `switch`, when no call raises an error and
the `switch` ends with `v` true. -/
theorem upload_quiet (D : gl_tex_driver) (hD : ∀ h c, D.raises h c = false) (fuel : Nat)
    (texture : djg_texture_list) (target : gl_target) (internalformat : Int)
    (immutable mipmap : Bool) (gl : Nat) (g g2 : gl_state) (first : djg_texture)
    (rest : List djg_texture) (hnext : texture.next = first :: rest)
    (hlen : texture.next.length < 2147483647)
    (hs : upload_switch D fuel texture first target internalformat immutable
      (gl_do D (tex_call.glBindTexture target D.glGenTextures)
        (gl_do D (tex_call.glGenTextures D.glGenTextures) (djgt__validate g).2)) =
        .ok (some (true, g2)))
    (he : g2.error = false) :
    ∃ g3, djgt_gl_upload D fuel texture target internalformat immutable mipmap gl g =
        .ok (true, D.glGenTextures, g3) ∧
      sub_image_calls g3.calls = sub_image_calls g2.calls := by
  have hcount : ¬ djgt__count texture = 0 := by
    unfold djgt__count
    rw [count_nodes_length _ hlen, hnext]
    simp
    omega
  unfold djgt_gl_upload
  simp only [hcount, if_false, hnext, hs, bind_ok]
  obtain ⟨m1, m2⟩ := gl_do_quiet D hD (tex_call.glGenerateMipmap target) g2
  have hg4 : ∀ g4 : gl_state, g4 = (if (mipmap && true) = true then
      gl_do D (tex_call.glGenerateMipmap target) g2 else g2) →
      g4.error = false ∧ sub_image_calls g4.calls = sub_image_calls g2.calls := by
    intro g4 h4
    cases mipmap
    · rw [h4]; exact ⟨he, rfl⟩
    · rw [h4]
      refine ⟨?_, ?_⟩
      · show (gl_do D (tex_call.glGenerateMipmap target) g2).error = false
        rw [m2, he]
      · show sub_image_calls (gl_do D (tex_call.glGenerateMipmap target) g2).calls = _
        rw [m1, sub_image_calls_append]
        simp [sub_image_calls]
  generalize hg : (if (mipmap && true) = true then
      gl_do D (tex_call.glGenerateMipmap target) g2 else g2) = g4
  obtain ⟨e4, c4⟩ := hg4 g4 hg.symm
  have hv : (djgt__validate g4).1 = true := by
    unfold djgt__validate
    rw [e4]
    rfl
  simp only [hv, Bool.and_self]
  rw [if_neg (by simp)]
  refine ⟨_, rfl, ?_⟩
  cases hgl : D.glIsTexture gl
  · rw [if_neg (by simp)]
    exact c4
  · rw [if_pos rfl, (gl_do_quiet D hD _ _).1, sub_image_calls_append]
    rw [show sub_image_calls (djgt__validate g4).2.calls = sub_image_calls g4.calls from rfl, c4]
    simp [sub_image_calls]

/-- C25: for a cubemap target and a texture with `k >= 1` layers, when no OpenGL call
raises an error (and, for immutable storage, the mip count of the first layer is
defined), `djgt_gl_upload` returns true and transfers texels exactly `min k 6` times: the
layer number `i` goes to the face `GL_TEXTURE_CUBE_MAP_POSITIVE_X + i`, for `i < min k 6`;
fewer than six layers do not make the upload fail. -/
theorem cubemap_faces (D : gl_tex_driver) (hD : ∀ h c, D.raises h c = false) (fuel : Nat)
    (texture : djg_texture_list) (internalformat : Int) (immutable mipmap : Bool) (gl : Nat)
    (g : gl_state) (first : djg_texture) (rest : List djg_texture)
    (hnext : texture.next = first :: rest) (hlen : texture.next.length < 2147483647)
    (himm : immutable = true → ∃ m : Nat, djgt__max3 first.x first.y 0 = (m : Int) ∧ 1 ≤ m ∧
      m ≤ 2 ^ 30 ∧ 31 ≤ fuel) :
    ∃ g1, djgt_gl_upload D fuel texture gl_target.GL_TEXTURE_CUBE_MAP internalformat immutable
        mipmap gl g = .ok (true, D.glGenTextures, g1) ∧
      sub_image_calls g1.calls =
        sub_image_calls g.calls ++ ((texture.next.take 6).enum).map face_upload ∧
      ((texture.next.take 6).enum).length = min texture.next.length 6 := by
  obtain ⟨b1, b2⟩ := gl_do_quiet D hD (tex_call.glGenTextures D.glGenTextures)
    (djgt__validate g).2
  obtain ⟨b3, b4⟩ := gl_do_quiet D hD
    (tex_call.glBindTexture gl_target.GL_TEXTURE_CUBE_MAP D.glGenTextures)
    (gl_do D (tex_call.glGenTextures D.glGenTextures) (djgt__validate g).2)
  obtain ⟨ga, ha, ea, ca⟩ := allocate_quiet D hD fuel immutable first.x first.y 0
    (fun levels => tex_call.glTexStorage2D gl_target.GL_TEXTURE_CUBE_MAP levels internalformat
      first.x first.y)
    ((List.range 6).map (fun (i : Nat) =>
      tex_call.glTexImage2D (gl_target.cube_face (Int.ofNat i)) internalformat first.x first.y))
    (gl_do D (tex_call.glBindTexture gl_target.GL_TEXTURE_CUBE_MAP D.glGenTextures)
      (gl_do D (tex_call.glGenTextures D.glGenTextures) (djgt__validate g).2))
    (fun l => rfl) (by rfl) himm
  have hea : ga.error = false := by
    rw [ea, b4, b2]
    rfl
  obtain ⟨f1, f2, f3⟩ := upload_faces_spec D hD texture.next 0 ga hea (by norm_num)
  have h0 : ((0 : Nat) : Int) = 0 := rfl
  rw [h0] at f1 f2 f3
  rw [Nat.sub_zero] at f3
  have hs : upload_switch D fuel texture first gl_target.GL_TEXTURE_CUBE_MAP internalformat
      immutable
      (gl_do D (tex_call.glBindTexture gl_target.GL_TEXTURE_CUBE_MAP D.glGenTextures)
        (gl_do D (tex_call.glGenTextures D.glGenTextures) (djgt__validate g).2)) =
      .ok (some (true, (upload_faces D texture.next 0 true ga).2)) := by
    unfold upload_switch
    simp only
    rw [ha, bind_ok]
    have hp : upload_faces D texture.next 0 true ga =
        (true, (upload_faces D texture.next 0 true ga).2) := Prod.ext f1 rfl
    exact congrArg (fun p => Except.ok (some p)) hp
  obtain ⟨g3, h3, c3⟩ := upload_quiet D hD fuel texture gl_target.GL_TEXTURE_CUBE_MAP
    internalformat immutable mipmap gl g _ first rest hnext hlen hs f2
  refine ⟨g3, h3, ?_, ?_⟩
  · rw [c3, f3, sub_image_calls_append, ca, b3, b1, sub_image_calls_append,
      sub_image_calls_append]
    have hfaces : ∀ l : List (Nat × djg_texture),
        sub_image_calls (l.map face_upload) = l.map face_upload := by
      intro l
      induction l with
      | nil => rfl
      | cons p l ih =>
        rw [List.map_cons]
        show sub_image_calls ([face_upload p] ++ l.map face_upload) = _
        rw [sub_image_calls_append, ih]
        rfl
    rw [hfaces]
    show (sub_image_calls g.calls ++ [] ++ []) ++ _ = _
    simp [List.enum]
  · rw [List.enum_length, List.length_take]
    exact Nat.min_comm _ _

/-- C25, witness: two layers; the two uploads go to the faces 0 and 1. -/
theorem cubemap_faces_witness :
    ∃ g1, djgt_gl_upload quiet_driver 0 { head := byte_layer 0, next := [byte_layer 7, byte_layer 9] }
        gl_target.GL_TEXTURE_CUBE_MAP 0 false false 0 fresh_state =
          .ok (true, 1, g1) ∧
      sub_image_calls g1.calls =
        [face_upload (0, byte_layer 7), face_upload (1, byte_layer 9)] := by
  obtain ⟨g1, h1, h2, _⟩ := cubemap_faces quiet_driver (fun _ _ => rfl) 0
    { head := byte_layer 0, next := [byte_layer 7, byte_layer 9] } 0 false false 0 fresh_state
    (byte_layer 7) [byte_layer 9] rfl (by simp) (fun h => absurd h (by simp))
  exact ⟨g1, h1, h2⟩

/-- The state in which `djgt_gl_upload` enters its `switch`, when no call raises an
error. -/
theorem upload_prefix_quiet (D : gl_tex_driver) (hD : ∀ h c, D.raises h c = false)
    (target : gl_target) (g : gl_state) :
    (gl_do D (tex_call.glBindTexture target D.glGenTextures)
      (gl_do D (tex_call.glGenTextures D.glGenTextures) (djgt__validate g).2)).error = false ∧
    sub_image_calls (gl_do D (tex_call.glBindTexture target D.glGenTextures)
      (gl_do D (tex_call.glGenTextures D.glGenTextures) (djgt__validate g).2)).calls =
      sub_image_calls g.calls := by
  obtain ⟨b1, b2⟩ := gl_do_quiet D hD (tex_call.glGenTextures D.glGenTextures)
    (djgt__validate g).2
  obtain ⟨b3, b4⟩ := gl_do_quiet D hD (tex_call.glBindTexture target D.glGenTextures)
    (gl_do D (tex_call.glGenTextures D.glGenTextures) (djgt__validate g).2)
  refine ⟨by rw [b4, b2]; rfl, ?_⟩
  rw [b3, b1, sub_image_calls_append, sub_image_calls_append]
  show (sub_image_calls g.calls ++ [] ++ []) = _
  simp

/-- The loop of the case `GL_TEXTURE_3D`, when no call raises an error: every layer is
transferred at the offset `z`. -/
theorem upload_slices_spec (D : gl_tex_driver) (hD : ∀ h c, D.raises h c = false)
    (target : gl_target) (z : Nat) (hz : z < 2147483647) (it : List djg_texture) :
    ∀ (n : Nat) (g : gl_state), g.error = false → n + it.length = z →
      ∃ g1, upload_slices D target (z : Int) it (n : Int) true g = .ok (true, g1) ∧
        g1.error = false ∧
        g1.calls = g.calls ++ it.map (fun l =>
          tex_call.glTexSubImage3D target 0 0 (z : Int) l.x l.y 1 (djgt__glformat l)
            (djgt__gltype l) l.texels) := by
  induction it with
  | nil =>
    intro n g hg hn
    have hc : ¬ ((n : Int) < (z : Int) ∧ true = true) := by
      intro h
      have : n = z := by simpa using hn
      omega
    rw [upload_slices, if_neg hc]
    exact ⟨g, rfl, hg, by simp⟩
  | cons a it ih =>
    intro n g hg hn
    have hl : (a :: it).length = it.length + 1 := rfl
    rw [hl] at hn
    have hc : (n : Int) < (z : Int) ∧ true = true := ⟨by omega, rfl⟩
    rw [upload_slices, if_pos hc]
    obtain ⟨_, h2, h3, h4⟩ := sub3D_spec D a target 0 0 (z : Int) g
    have hr : (djgt__glTexSubImage3D D a target 0 0 (z : Int) g).1 = true := by
      rw [h4, hg, hD]
      rfl
    have hadd : add32 (n : Int) 1 = ((n + 1 : Nat) : Int) := by
      rw [add32_of_bounds _ _ (by omega) (by omega)]
      rfl
    simp only [hr, hadd, Bool.and_self]
    obtain ⟨g1, i1, i2, i3⟩ := ih (n + 1) _ h3 (by omega)
    refine ⟨g1, i1, i2, ?_⟩
    rw [i3, h2, List.map_cons, List.append_assoc]
    rfl

/-- The loop of the case `GL_TEXTURE_1D_ARRAY`, when no call raises an error: every row
receives the texels of `first`. -/
theorem upload_rows_spec (D : gl_tex_driver) (hD : ∀ h c, D.raises h c = false)
    (first : djg_texture) (target : gl_target) (it : List djg_texture) :
    ∀ (n : Nat) (g : gl_state), g.error = false → n + it.length < 2147483647 →
      (upload_rows D first target it (n : Int) true g).1 = true ∧
      (upload_rows D first target it (n : Int) true g).2.error = false ∧
      (upload_rows D first target it (n : Int) true g).2.calls =
        g.calls ++ (it.enumFrom n).map (fun p =>
          tex_call.glTexSubImage2D target 0 (p.1 : Int) first.x first.y (djgt__glformat first)
            (djgt__gltype first) first.texels) := by
  induction it with
  | nil =>
    intro n g hg _
    refine ⟨rfl, hg, ?_⟩
    show g.calls = _
    simp
  | cons a it ih =>
    intro n g hg hn
    have hl : (a :: it).length = it.length + 1 := rfl
    rw [hl] at hn
    rw [upload_rows]
    obtain ⟨_, h2, h3, h4⟩ := sub2D_spec D first target 0 (n : Int) g
    have hr : (djgt__glTexSubImage2D D first target 0 (n : Int) g).1 = true := by
      rw [h4, hg, hD]
      rfl
    have hadd : add32 (n : Int) 1 = ((n + 1 : Nat) : Int) := by
      rw [add32_of_bounds _ _ (by omega) (by omega)]
      rfl
    simp only [hr, hadd, Bool.and_self]
    obtain ⟨i1, i2, i3⟩ := ih (n + 1) _ h3 (by omega)
    refine ⟨i1, i2, ?_⟩
    rw [i3, h2, List.enumFrom_cons, List.map_cons, List.append_assoc]
    rfl

theorem sub_image_calls_self (l : List tex_call)
    (h : ∀ c, c ∈ l → sub_image_calls [c] = [c]) : sub_image_calls l = l := by
  induction l with
  | nil => rfl
  | cons c l ih =>
    show sub_image_calls ([c] ++ l) = _
    rw [sub_image_calls_append, h c (List.mem_cons_self _ _),
      ih (fun d hd => h d (List.mem_cons_of_mem _ hd))]
    rfl

/-- The case `GL_TEXTURE_3D` of `djgt_gl_upload` with mutable storage, when no call raises
an error. -/
theorem upload_volume_quiet (D : gl_tex_driver) (hD : ∀ h c, D.raises h c = false)
    (fuel : Nat) (texture : djg_texture_list) (internalformat : Int) (mipmap : Bool) (gl : Nat)
    (g : gl_state) (first : djg_texture) (rest : List djg_texture)
    (hnext : texture.next = first :: rest) (hlen : texture.next.length < 2147483647) :
    ∃ g1, djgt_gl_upload D fuel texture gl_target.GL_TEXTURE_3D internalformat false mipmap gl
        g = .ok (true, D.glGenTextures, g1) ∧
      sub_image_calls g1.calls = sub_image_calls g.calls ++ texture.next.map (fun l =>
        tex_call.glTexSubImage3D gl_target.GL_TEXTURE_3D 0 0 (texture.next.length : Int) l.x l.y
          1 (djgt__glformat l) (djgt__gltype l) l.texels) := by
  obtain ⟨p1, p2⟩ := upload_prefix_quiet D hD gl_target.GL_TEXTURE_3D g
  have hcnt : djgt__count texture = (texture.next.length : Int) := by
    unfold djgt__count
    exact count_nodes_length _ hlen
  obtain ⟨ga, ha, ea, ca⟩ := allocate_quiet D hD fuel false first.x first.y (djgt__count texture)
    (fun levels => tex_call.glTexStorage3D gl_target.GL_TEXTURE_3D levels internalformat
      first.x first.y (djgt__count texture))
    [tex_call.glTexImage3D gl_target.GL_TEXTURE_3D internalformat first.x first.y
      (djgt__count texture)]
    (gl_do D (tex_call.glBindTexture gl_target.GL_TEXTURE_3D D.glGenTextures)
      (gl_do D (tex_call.glGenTextures D.glGenTextures) (djgt__validate g).2))
    (fun l => rfl) (by rfl) (fun h => absurd h (by simp))
  obtain ⟨g2, s1, s2, s3⟩ := upload_slices_spec D hD gl_target.GL_TEXTURE_3D
    texture.next.length hlen texture.next 0 ga (by rw [ea, p1]) (by omega)
  have h0 : ((0 : Nat) : Int) = 0 := rfl
  rw [h0] at s1
  have hs : upload_switch D fuel texture first gl_target.GL_TEXTURE_3D internalformat false
      (gl_do D (tex_call.glBindTexture gl_target.GL_TEXTURE_3D D.glGenTextures)
        (gl_do D (tex_call.glGenTextures D.glGenTextures) (djgt__validate g).2)) =
      .ok (some (true, g2)) := by
    unfold upload_switch
    simp only
    rw [ha, bind_ok, hcnt, s1, bind_ok]
  obtain ⟨g3, h3, c3⟩ := upload_quiet D hD fuel texture gl_target.GL_TEXTURE_3D
    internalformat false mipmap gl g g2 first rest hnext hlen hs s2
  refine ⟨g3, h3, ?_⟩
  rw [c3, s3, sub_image_calls_append, ca, p2]
  congr 1
  apply sub_image_calls_self
  intro c hc
  obtain ⟨l, _, rfl⟩ := List.mem_map.mp hc
  rfl

/-- The case `GL_TEXTURE_1D_ARRAY` of `djgt_gl_upload` with mutable storage, when no call
raises an error. -/
theorem upload_rows_quiet (D : gl_tex_driver) (hD : ∀ h c, D.raises h c = false)
    (fuel : Nat) (texture : djg_texture_list) (internalformat : Int) (mipmap : Bool) (gl : Nat)
    (g : gl_state) (first : djg_texture) (rest : List djg_texture)
    (hnext : texture.next = first :: rest) (hlen : texture.next.length < 2147483647) :
    ∃ g1, djgt_gl_upload D fuel texture gl_target.GL_TEXTURE_1D_ARRAY internalformat false
        mipmap gl g = .ok (true, D.glGenTextures, g1) ∧
      sub_image_calls g1.calls = sub_image_calls g.calls ++ (texture.next.enum).map (fun p =>
        tex_call.glTexSubImage2D gl_target.GL_TEXTURE_1D_ARRAY 0 (p.1 : Int) first.x first.y
          (djgt__glformat first) (djgt__gltype first) first.texels) := by
  obtain ⟨p1, p2⟩ := upload_prefix_quiet D hD gl_target.GL_TEXTURE_1D_ARRAY g
  obtain ⟨ga, ha, ea, ca⟩ := allocate_quiet D hD fuel false first.x 0 0
    (fun levels => tex_call.glTexStorage2D gl_target.GL_TEXTURE_1D_ARRAY levels internalformat
      first.x (djgt__count texture))
    [tex_call.glTexImage2D gl_target.GL_TEXTURE_1D_ARRAY internalformat first.x
      (djgt__count texture)]
    (gl_do D (tex_call.glBindTexture gl_target.GL_TEXTURE_1D_ARRAY D.glGenTextures)
      (gl_do D (tex_call.glGenTextures D.glGenTextures) (djgt__validate g).2))
    (fun l => rfl) (by rfl) (fun h => absurd h (by simp))
  obtain ⟨r1, r2, r3⟩ := upload_rows_spec D hD first gl_target.GL_TEXTURE_1D_ARRAY texture.next
    0 ga (by rw [ea, p1]) (by omega)
  have h0 : ((0 : Nat) : Int) = 0 := rfl
  rw [h0] at r1 r2 r3
  have hs : upload_switch D fuel texture first gl_target.GL_TEXTURE_1D_ARRAY internalformat
      false
      (gl_do D (tex_call.glBindTexture gl_target.GL_TEXTURE_1D_ARRAY D.glGenTextures)
        (gl_do D (tex_call.glGenTextures D.glGenTextures) (djgt__validate g).2)) =
      .ok (some (true, (upload_rows D first gl_target.GL_TEXTURE_1D_ARRAY texture.next 0 true
        ga).2)) := by
    unfold upload_switch
    simp only
    rw [ha, bind_ok]
    have hp : upload_rows D first gl_target.GL_TEXTURE_1D_ARRAY texture.next 0 true ga =
        (true, (upload_rows D first gl_target.GL_TEXTURE_1D_ARRAY texture.next 0 true ga).2) :=
      Prod.ext r1 rfl
    exact congrArg (fun p => Except.ok (some p)) hp
  obtain ⟨g3, h3, c3⟩ := upload_quiet D hD fuel texture gl_target.GL_TEXTURE_1D_ARRAY
    internalformat false mipmap gl g _ first rest hnext hlen hs r2
  refine ⟨g3, h3, ?_⟩
  rw [c3, r3, sub_image_calls_append, ca, p2]
  congr 1
  apply sub_image_calls_self
  intro c hc
  obtain ⟨l, _, rfl⟩ := List.mem_map.mp hc
  rfl

/-- C14, failing input: a texture with the two layers `[7]` and `[9]`, no OpenGL error.
For `GL_TEXTURE_3D` both layers are transferred at `zoffset = 2`, the layer count,
instead of 0 and 1; for `GL_TEXTURE_1D_ARRAY` the rows 0 and 1 both receive the texels
`[7]` of the first layer. -/
theorem layers_misplaced :
    (∃ g1, djgt_gl_upload quiet_driver 0
        { head := byte_layer 0, next := [byte_layer 7, byte_layer 9] }
        gl_target.GL_TEXTURE_3D 0 false false 0 fresh_state = .ok (true, 1, g1) ∧
      sub_image_calls g1.calls =
        [tex_call.glTexSubImage3D gl_target.GL_TEXTURE_3D 0 0 2 1 1 1 gl_format.GL_RED
           gl_type.GL_UNSIGNED_BYTE [7],
         tex_call.glTexSubImage3D gl_target.GL_TEXTURE_3D 0 0 2 1 1 1 gl_format.GL_RED
           gl_type.GL_UNSIGNED_BYTE [9]]) ∧
    (∃ g1, djgt_gl_upload quiet_driver 0
        { head := byte_layer 0, next := [byte_layer 7, byte_layer 9] }
        gl_target.GL_TEXTURE_1D_ARRAY 0 false false 0 fresh_state = .ok (true, 1, g1) ∧
      sub_image_calls g1.calls =
        [tex_call.glTexSubImage2D gl_target.GL_TEXTURE_1D_ARRAY 0 0 1 1 gl_format.GL_RED
           gl_type.GL_UNSIGNED_BYTE [7],
         tex_call.glTexSubImage2D gl_target.GL_TEXTURE_1D_ARRAY 0 1 1 1 gl_format.GL_RED
           gl_type.GL_UNSIGNED_BYTE [7]]) := by
  constructor
  · obtain ⟨g1, h1, h2⟩ := upload_volume_quiet quiet_driver (fun _ _ => rfl) 0
      { head := byte_layer 0, next := [byte_layer 7, byte_layer 9] } 0 false 0 fresh_state
      (byte_layer 7) [byte_layer 9] rfl (by simp)
    exact ⟨g1, h1, h2⟩
  · obtain ⟨g1, h1, h2⟩ := upload_rows_quiet quiet_driver (fun _ _ => rfl) 0
      { head := byte_layer 0, next := [byte_layer 7, byte_layer 9] } 0 false 0 fresh_state
      (byte_layer 7) [byte_layer 9] rfl (by simp)
    exact ⟨g1, h1, h2⟩

theorem take_drop_get (a : List Nat) (o n j : Nat) :
    ((a.drop o).take n)[j]? = if j < n then a[o + j]? else none := by
  by_cases h : j < n
  · rw [if_pos h, List.getElem?_take_of_lt h, List.getElem?_drop]
  · rw [if_neg h, List.getElem?_take_eq_none (by omega)]

theorem read_bytes_ok (a : List Nat) (o n : Nat) (h : o + n ≤ a.length) :
    read_bytes a (o : Int) (n : Int) = .ok ((a.drop o).take n) := by
  unfold read_bytes
  rw [if_pos ⟨Int.natCast_nonneg _, Int.natCast_nonneg _, by simpa using h⟩]
  simp

theorem write_bytes_ok (a : List Nat) (o : Nat) (bytes : List Nat)
    (h : o + bytes.length ≤ a.length) :
    ∃ r, write_bytes a (o : Int) bytes = .ok r ∧ r.length = a.length ∧
      ∀ i, r[i]? = if o ≤ i ∧ i < o + bytes.length then bytes[i - o]? else a[i]? := by
  unfold write_bytes
  rw [if_pos ⟨Int.natCast_nonneg _, by simpa using h⟩]
  refine ⟨_, rfl, ?_, ?_⟩
  · simp
    omega
  · intro i
    rw [Int.toNat_natCast]
    have hto : (a.take o).length = o := by
      rw [List.length_take]; omega
    by_cases h1 : i < o
    · rw [if_neg (by omega), List.append_assoc, List.getElem?_append_left (by omega),
        List.getElem?_take_of_lt h1]
    · by_cases h2 : i < o + bytes.length
      · rw [if_pos ⟨by omega, h2⟩, List.append_assoc, List.getElem?_append_right (by omega),
          hto, List.getElem?_append_left (by omega)]
      · rw [if_neg (by omega), List.getElem?_append_right (by simp; omega)]
        rw [List.getElem?_drop]
        congr 1
        simp
        omega

theorem byte_index_cases (B t u k : Nat) (hk : k < B) :
    (B * u ≤ B * t + k ∧ B * t + k < B * u + B) ↔ t = u := by
  constructor
  · rintro ⟨h1, h2⟩
    rcases Nat.lt_trichotomy t u with h | h | h
    · have : B * (t + 1) ≤ B * u := Nat.mul_le_mul_left B h
      rw [Nat.mul_succ] at this
      omega
    · exact h
    · have : B * (u + 1) ≤ B * t := Nat.mul_le_mul_left B h
      rw [Nat.mul_succ] at this
      omega
  · rintro rfl
    omega

theorem byte_index_lt (B N t k : Nat) (ht : t < N) (hk : k < B) : B * t + k < B * N := by
  have : B * (t + 1) ≤ B * N := Nat.mul_le_mul_left B ht
  rw [Nat.mul_succ] at this
  omega

/-- The three `memcpy` exchange two distinct texels and leave the others as they are. -/
theorem swap_texels (a : List Nat) (B N t1 t2 : Nat) (hlen : a.length = B * N)
    (h1 : t1 < N) (h2 : t2 < N) (hne : t1 ≠ t2) :
    ∃ r, (read_bytes a ((B * t1 : Nat) : Int) (B : Int) >>= fun tmp =>
        read_bytes a ((B * t2 : Nat) : Int) (B : Int) >>= fun src =>
        write_bytes a ((B * t1 : Nat) : Int) src >>= fun texels =>
        write_bytes texels ((B * t2 : Nat) : Int) tmp) = .ok r ∧
      r.length = a.length ∧
      ∀ t k, t < N → k < B →
        r[B * t + k]? = a[B * (if t = t1 then t2 else if t = t2 then t1 else t) + k]? := by
  have hb1 : B * t1 + B ≤ a.length := by
    have := Nat.mul_le_mul_left B (show t1 + 1 ≤ N from h1)
    rw [Nat.mul_succ] at this
    omega
  have hb2 : B * t2 + B ≤ a.length := by
    have := Nat.mul_le_mul_left B (show t2 + 1 ≤ N from h2)
    rw [Nat.mul_succ] at this
    omega
  have hl1 : ((a.drop (B * t1)).take B).length = B := by
    rw [List.length_take, List.length_drop]; omega
  have hl2 : ((a.drop (B * t2)).take B).length = B := by
    rw [List.length_take, List.length_drop]; omega
  obtain ⟨r1, hr1, hlen1, hget1⟩ := write_bytes_ok a (B * t1) ((a.drop (B * t2)).take B)
    (by rw [hl2]; exact hb1)
  obtain ⟨r2, hr2, hlen2, hget2⟩ := write_bytes_ok r1 (B * t2) ((a.drop (B * t1)).take B)
    (by rw [hl1, hlen1]; exact hb2)
  refine ⟨r2, ?_, by rw [hlen2, hlen1], ?_⟩
  · rw [read_bytes_ok a (B * t1) B hb1, bind_ok, read_bytes_ok a (B * t2) B hb2, bind_ok, hr1,
      bind_ok, hr2]
  · intro t k ht hk
    rw [hget2, hl1]
    by_cases e2 : t = t2
    · have hin : B * t2 ≤ B * t + k ∧ B * t + k < B * t2 + B :=
        (byte_index_cases B t t2 k hk).mpr e2
      rw [if_pos hin, take_drop_get, if_pos (by omega), if_neg (by rw [e2]; exact Ne.symm hne),
        if_pos e2]
      congr 1
      rw [e2]
      omega
    · have hout : ¬ (B * t2 ≤ B * t + k ∧ B * t + k < B * t2 + B) :=
        fun h => e2 ((byte_index_cases B t t2 k hk).mp h)
      rw [if_neg hout, hget1, hl2]
      by_cases e1 : t = t1
      · have hin : B * t1 ≤ B * t + k ∧ B * t + k < B * t1 + B :=
          (byte_index_cases B t t1 k hk).mpr e1
        rw [if_pos hin, take_drop_get, if_pos (by omega), if_pos e1]
        congr 1
        rw [e1]
        omega
      · have hout1 : ¬ (B * t1 ≤ B * t + k ∧ B * t + k < B * t1 + B) :=
          fun h => e1 ((byte_index_cases B t t1 k hk).mp h)
        rw [if_neg hout1, if_neg e1, if_neg e2]

theorem grid_lt (W H x y : Nat) (hx : x < W) (hy : y < H) : W * y + x < W * H := by
  have : W * (y + 1) ≤ W * H := Nat.mul_le_mul_left W hy
  rw [Nat.mul_succ] at this
  omega

theorem grid_inj (W x y u v : Nat) (hx : x < W) (hu : u < W) (h : W * y + x = W * v + u) :
    y = v ∧ x = u := by
  rcases Nat.lt_trichotomy y v with hlt | heq | hgt
  · have : W * (y + 1) ≤ W * v := Nat.mul_le_mul_left W hlt
    rw [Nat.mul_succ] at this
    omega
  · subst heq
    exact ⟨rfl, by omega⟩
  · have : W * (v + 1) ≤ W * y := Nat.mul_le_mul_left W hgt
    rw [Nat.mul_succ] at this
    omega

/-- The byte offset of a texel, as `djgt__flipy` computes it in `int`. -/
theorem texel_offset (B W H x y : Nat) (hB : 1 ≤ B) (hx : x < W) (hy : y < H)
    (hsize : B * (W * H) < 2147483648) :
    mul32 (B : Int) (add32 (mul32 (W : Int) (y : Int)) (x : Int)) =
      ((B * (W * y + x) : Nat) : Int) := by
  have hg := grid_lt W H x y hx hy
  have hle : W * H ≤ B * (W * H) := Nat.le_mul_of_pos_left _ hB
  have hb := byte_index_lt B (W * H) (W * y + x) 0 hg (by omega)
  have h1 : mul32 (W : Int) (y : Int) = ((W * y : Nat) : Int) := by
    rw [mul32_of_bounds _ _ (by
      have h : (0 : Int) ≤ (W : Int) * (y : Int) := by positivity
      linarith) (by
      have : ((W * y : Nat) : Int) < 2147483648 := by omega
      simpa using this)]
    simp
  have h2 : add32 ((W * y : Nat) : Int) (x : Int) = ((W * y + x : Nat) : Int) := by
    rw [add32_of_bounds _ _ (by omega) (by omega)]
    simp
  rw [h1, h2]
  rw [mul32_of_bounds _ _ (by
    have h : (0 : Int) ≤ (B : Int) * ((W * y + x : Nat) : Int) := by positivity
    linarith) (by
    have : ((B * (W * y + x) : Nat) : Int) < 2147483648 := by omega
    simpa using this)]
  simp

theorem flipy_src_step (H i j x y : Nat) (hj : j < H / 2) (hy : y < H)
    (hxy : ¬ (x = i ∧ (y = j ∨ y = H - 1 - j))) :
    flipy_src H i (j + 1) x y = flipy_src H i j x y := by
  unfold flipy_src
  split_ifs <;> omega

theorem flipy_src_upper (H i j : Nat) (hj : j < H / 2) :
    flipy_src H i j i (H - 1 - j) = H - 1 - j ∧ flipy_src H i (j + 1) i j = H - 1 - j ∧
    flipy_src H i j i j = j ∧ flipy_src H i (j + 1) i (H - 1 - j) = j := by
  unfold flipy_src
  refine ⟨?_, ?_, ?_, ?_⟩ <;> split_ifs <;> omega

theorem flipy_src_column (H i x y : Nat) (hy : y < H) :
    flipy_src H i (H / 2) x y = flipy_src H (i + 1) 0 x y := by
  unfold flipy_src
  split_ifs <;> omega

/-- One iteration of the inner loop of `djgt__flipy`. -/
theorem flipy_swap_step (t : djg_texture) (a arr : List Nat) (W H B i j : Nat)
    (hx : t.x = (W : Int)) (hy : t.y = (H : Int)) (hB : 1 ≤ B) (hB64 : B ≤ 64)
    (hlen : a.length = B * (W * H)) (hsize : B * (W * H) < 2147483648)
    (hi : i < W) (hj : j < H / 2) (hinv : flipy_inv a W H B i j arr) :
    ∃ arr1, flipy_swap t (B : Int) (i : Int) (j : Int) arr = .ok arr1 ∧
      flipy_inv a W H B i (j + 1) arr1 := by
  obtain ⟨hl, hget⟩ := hinv
  have hjH : j < H := by omega
  have hjH2 : H - 1 - j < H := by omega
  have hsub : sub32 (sub32 (H : Int) 1) (j : Int) = ((H - 1 - j : Nat) : Int) := by
    rw [sub32_of_bounds (H : Int) 1 (by omega) (by
      have := Nat.le_mul_of_pos_left (W * H) hB
      have := grid_lt W H i j hi hjH
      have : H ≤ W * H := Nat.le_mul_of_pos_left H (by omega)
      omega)]
    rw [sub32_of_bounds _ _ (by omega) (by
      have := Nat.le_mul_of_pos_left (W * H) hB
      have : H ≤ W * H := Nat.le_mul_of_pos_left H (by omega)
      omega)]
    omega
  have ho1 := texel_offset B W H i j hB hi hjH hsize
  have ho2 := texel_offset B W H i (H - 1 - j) hB hi hjH2 hsize
  have hne : W * j + i ≠ W * (H - 1 - j) + i := by
    intro h
    have := (grid_inj W i j i (H - 1 - j) hi hi h).1
    omega
  obtain ⟨r, hr, hrl, hrg⟩ := swap_texels arr B (W * H) (W * j + i) (W * (H - 1 - j) + i)
    (by rw [hl, hlen]) (grid_lt W H i j hi hjH) (grid_lt W H i (H - 1 - j) hi hjH2) hne
  refine ⟨r, ?_, by rw [hrl, hl], ?_⟩
  · unfold flipy_swap
    simp only [hx, hy, hsub, ho1, ho2]
    rw [if_neg (by omega)]
    exact hr
  · intro x y k hxW hyH hk
    obtain ⟨s1, s2, s3, s4⟩ := flipy_src_upper H i j hj
    rw [hrg (W * y + x) k (grid_lt W H x y hxW hyH) hk]
    by_cases e1 : W * y + x = W * j + i
    · obtain ⟨ey, ex⟩ := grid_inj W x y i j hxW hi e1
      subst ey
      subst ex
      rw [if_pos rfl, hget x (H - 1 - y) k hxW hjH2 hk, s1, s2]
    · rw [if_neg e1]
      by_cases e2 : W * y + x = W * (H - 1 - j) + i
      · obtain ⟨ey, ex⟩ := grid_inj W x y i (H - 1 - j) hxW hi e2
        subst ex
        rw [if_pos e2, hget x j k hxW hjH hk, s3, ey, s4]
      · rw [if_neg e2, hget x y k hxW hyH hk]
        have hxy : ¬ (x = i ∧ (y = j ∨ y = H - 1 - j)) := by
          rintro ⟨rfl, rfl | rfl⟩
          · exact e1 rfl
          · exact e2 rfl
        rw [flipy_src_step H i j x y hj hyH hxy]

theorem tdiv_two (n : Nat) : Int.tdiv (n : Int) 2 = ((n / 2 : Nat) : Int) := rfl

/-- The inner loop of `djgt__flipy` flips one column. -/
theorem flipy_column (t : djg_texture) (a arr : List Nat) (W H B i : Nat)
    (hx : t.x = (W : Int)) (hy : t.y = (H : Int)) (hB : 1 ≤ B) (hB64 : B ≤ 64)
    (hlen : a.length = B * (W * H)) (hsize : B * (W * H) < 2147483648)
    (hi : i < W) (hinv : flipy_inv a W H B i 0 arr) :
    ∃ arr1, for_loop (Int.tdiv t.y 2)
        (fun y texels => flipy_swap t (B : Int) (i : Int) y texels) arr = .ok arr1 ∧
      flipy_inv a W H B (i + 1) 0 arr1 := by
  rw [hy, tdiv_two]
  obtain ⟨arr1, h1, h2⟩ := for_loop_inv ((H / 2 : Nat) : Int)
    (fun y texels => flipy_swap t (B : Int) (i : Int) y texels)
    (fun j s => flipy_inv a W H B i j s) arr hinv
    (fun j s hj hs =>
      flipy_swap_step t a s W H B i j hx hy hB hB64 hlen hsize hi (by omega) hs)
  refine ⟨arr1, h1, ?_⟩
  rw [Int.toNat_natCast] at h2
  obtain ⟨hl, hg⟩ := h2
  refine ⟨hl, fun x y k hxW hyH hk => ?_⟩
  rw [hg x y k hxW hyH hk, flipy_src_column H i x y hyH]

/-- The function `djgt__flipy` returns the layer with every column flipped. -/
theorem flipy_spec (t : djg_texture) (W H B : Nat)
    (hx : t.x = (W : Int)) (hy : t.y = (H : Int))
    (hbpp : t.comp * (if t.hdr = true then 4 else 1) = (B : Int))
    (hB : 1 ≤ B) (hB64 : B ≤ 64) (hlen : t.texels.length = B * (W * H))
    (hsize : B * (W * H) < 2147483648) :
    ∃ r, djgt__flipy t = .ok { t with texels := r } ∧ r.length = t.texels.length ∧
      ∀ x y k, x < W → y < H → k < B →
        r[B * (W * y + x) + k]? = t.texels[B * (W * (H - 1 - y) + x) + k]? := by
  have hmul : mul32 t.comp (if t.hdr = true then 4 else 1) = (B : Int) := by
    rw [mul32_of_bounds _ _ (by rw [hbpp]; omega) (by rw [hbpp]; omega), hbpp]
  have h0 : flipy_inv t.texels W H B 0 0 t.texels := by
    refine ⟨rfl, fun x y k _ hyH _ => ?_⟩
    have : flipy_src H 0 0 x y = y := by
      unfold flipy_src
      split_ifs <;> omega
    rw [this]
  obtain ⟨r, h1, h2⟩ := for_loop_inv (W : Int)
    (fun x texels => for_loop (Int.tdiv t.y 2)
      (fun y texels => flipy_swap t (B : Int) x y texels) texels)
    (fun i s => flipy_inv t.texels W H B i 0 s) t.texels h0
    (fun i s hi hs =>
      flipy_column t t.texels s W H B i hx hy hB hB64 hlen hsize (by omega) hs)
  rw [Int.toNat_natCast] at h2
  obtain ⟨hl, hg⟩ := h2
  refine ⟨r, ?_, hl, fun x y k hxW hyH hk => ?_⟩
  · unfold djgt__flipy
    simp only [hmul, hx]
    rw [h1, bind_ok]
  · rw [hg x y k hxW hyH hk]
    have : flipy_src H W 0 x y = H - 1 - y := by
      unfold flipy_src
      split_ifs <;> omega
    rw [this]

/-- Every byte of a buffer of `W x H` texels of `B` bytes belongs to one texel. -/
theorem byte_of_texel (W H B b : Nat) (hb : b < B * (W * H)) :
    ∃ x y k, x < W ∧ y < H ∧ k < B ∧ b = B * (W * y + x) + k := by
  have hBpos : 0 < B := by
    rcases Nat.eq_zero_or_pos B with h | h
    · rw [h] at hb; simp at hb
    · exact h
  have hWpos : 0 < W := by
    rcases Nat.eq_zero_or_pos W with h | h
    · rw [h] at hb; simp at hb
    · exact h
  have ht : b / B < W * H := by
    rw [Nat.div_lt_iff_lt_mul hBpos, Nat.mul_comm]
    exact hb
  refine ⟨b / B % W, b / B / W, b % B, Nat.mod_lt _ hWpos, ?_, Nat.mod_lt _ hBpos, ?_⟩
  · rw [Nat.div_lt_iff_lt_mul hWpos, Nat.mul_comm]
    exact ht
  · rw [Nat.div_add_mod (b / B) W, Nat.div_add_mod b B]

/-- C29: for a layer of `W x H` texels of `B = comp * (4 if hdr else 1)` bytes
(`1 <= B <= 64`, the buffer holding exactly `B * W * H < 2^31` bytes), `djgt__flipy`
returns; it changes only the texel buffer, keeps its length, and moves every byte `k` of
the texel at `(x, y)` to the texel at `(x, H - 1 - y)`; applied to its own result it gives
back the original layer. -/
theorem flipy_involution (t : djg_texture) (W H B : Nat)
    (hx : t.x = (W : Int)) (hy : t.y = (H : Int))
    (hbpp : t.comp * (if t.hdr = true then 4 else 1) = (B : Int))
    (hB : 1 ≤ B) (hB64 : B ≤ 64) (hlen : t.texels.length = B * (W * H))
    (hsize : B * (W * H) < 2147483648) :
    ∃ t1, djgt__flipy t = .ok t1 ∧
      t1.x = t.x ∧ t1.y = t.y ∧ t1.comp = t.comp ∧ t1.hdr = t.hdr ∧
      t1.texels.length = t.texels.length ∧
      (∀ x y k, x < W → y < H → k < B →
        t1.texels[B * (W * (H - 1 - y) + x) + k]? = t.texels[B * (W * y + x) + k]?) ∧
      djgt__flipy t1 = .ok t := by
  obtain ⟨r, h1, h2, h3⟩ := flipy_spec t W H B hx hy hbpp hB hB64 hlen hsize
  obtain ⟨r2, g1, g2, g3⟩ := flipy_spec { t with texels := r } W H B hx hy hbpp hB hB64
    (by show r.length = _; rw [h2, hlen]) hsize
  have hflip : ∀ y, y < H → H - 1 - (H - 1 - y) = y := fun y hy => by omega
  refine ⟨{ t with texels := r }, h1, rfl, rfl, rfl, rfl, h2, ?_, ?_⟩
  · intro x y k hxW hyH hk
    show r[B * (W * (H - 1 - y) + x) + k]? = _
    rw [h3 x (H - 1 - y) k hxW (by omega) hk, hflip y hyH]
  · rw [g1]
    have hr2 : r2 = t.texels := by
      apply List.ext_getElem?
      intro b
      by_cases hb : b < B * (W * H)
      · obtain ⟨x, y, k, hxW, hyH, hk, rfl⟩ := byte_of_texel W H B b hb
        rw [g3 x y k hxW hyH hk]
        show r[B * (W * (H - 1 - y) + x) + k]? = _
        rw [h3 x (H - 1 - y) k hxW (by omega) hk, hflip y hyH]
      · have e1 : r2.length ≤ b := by
          have : r2.length = r.length := g2
          rw [this, h2, hlen]
          omega
        rw [List.getElem?_eq_none e1, List.getElem?_eq_none (by rw [hlen]; omega)]
    show Except.ok ({ texels := r2, x := t.x, y := t.y, comp := t.comp, hdr := t.hdr } :
      djg_texture) = Except.ok t
    rw [hr2]

/-- C29, witness: a layer of 1 x 2 texels of one byte; the two texels are exchanged. -/
theorem flipy_involution_witness :
    ∃ t1, djgt__flipy { texels := [7, 9], x := 1, y := 2, comp := 1, hdr := false } = .ok t1 ∧
      t1.texels[1]? = some 7 ∧ t1.texels[0]? = some 9 ∧
      djgt__flipy t1 = .ok { texels := [7, 9], x := 1, y := 2, comp := 1, hdr := false } := by
  obtain ⟨t1, h1, _, _, _, _, _, h2, h3⟩ := flipy_involution
    { texels := [7, 9], x := 1, y := 2, comp := 1, hdr := false } 1 2 1 rfl rfl rfl
    (by norm_num) (by norm_num) rfl (by norm_num)
  exact ⟨t1, h1, h2 0 0 0 (by norm_num) (by norm_num) (by norm_num),
    h2 0 1 0 (by norm_num) (by norm_num) (by norm_num), h3⟩

/-- The flip of `djgt_push_image` can fault: a head declaring 3 components makes the decoder
return 3 bytes per texel, the layer announces the 4 channels of the file, and
`djgt__flipy` on 1 x 2 texels reads past the 6 bytes of the buffer. -/
theorem flip_mismatch_faults :
    djgt_push_image
        (fun _ _ => some { texels := List.replicate 6 255, x := 1, y := 2, comp := 4 })
        { head := { texels := [], x := 0, y := 0, comp := 3, hdr := false }, next := [] }
        "f" true = .error Fault.out_of_bounds := by
  with_unfolding_all rfl

end DjOpenGL
